import Mathlib

/-!
Verification development for the `text-detector` repository (`src/app.py`).

The repository's engine turns colored PDF text spans into a fixed 18-column
shareholding table.  This file gives a shallow embedding, in Lean 4, of the
deterministic string- and list-level core of that engine, translated function
by function from `src/app.py`, together with theorems settling the claims of
the accompanying specification.

Modelling conventions (stated once, used throughout):
* Python `str` values are modelled by Lean `String` (a list of characters);
  `str.strip`, `str.split`, `str.replace`, `str.isdigit`, `str.upper`,
  `str.lower`, `in` (substring) and `len` are re-implemented below over ASCII
  character classes.  Python's Unicode-aware character classes agree with
  these on all ASCII data, which is the only data the engine manipulates.
* Python `float` literals and `float(str)` are modelled by exact rationals
  (`ℚ`): every decimal literal denotes its exact value, and `int(x)` is
  truncation toward zero.  IEEE-754 rounding is not modelled; the predicates
  of the engine only compare parsed values with 0 and 1000, so the two
  semantics agree away from denormal/rounding-boundary inputs.
* Python lists with in-place mutation are modelled by `List` values threaded
  through `let`-chains in exactly the source's statement order; stale local
  variables of the source (values read before later mutations) are modelled
  by `let`-bindings taken at the corresponding program point.
* `list.set` beyond the end of a list is a no-op; it is only ever used at
  indices the source guarantees to be in bounds (rows are padded to 18 cells
  before the corresponding code runs).
-/

namespace TextDetector

/-! ## Python string primitives (ASCII model) -/

/-- Python whitespace characters (ASCII fragment): the characters stripped by
`str.strip()` and used as separators by `str.split()`. -/
def pyWs (c : Char) : Bool :=
  c = ' ' || c = '\t' || c = '\n' || c = '\x0d' || c = '\x0b' || c = '\x0c'

/-- `str.strip()` on the character list. -/
def pyStripL (l : List Char) : List Char :=
  ((l.dropWhile pyWs).reverse.dropWhile pyWs).reverse

/-- Python `s.strip()`. -/
def pyStrip (s : String) : String := ⟨pyStripL s.data⟩

/-- ASCII decimal digit test, modelling Python `str.isdigit` per character. -/
def pyDigit (c : Char) : Bool := '0' ≤ c && c ≤ '9'

/-- Python `s.isdigit()`: non-empty and all digits. -/
def pyIsDigit (s : String) : Bool := !s.data.isEmpty && s.data.all pyDigit

/-- ASCII letter test, modelling Python `str.isalpha` per character. -/
def pyAlpha (c : Char) : Bool :=
  ('a' ≤ c && c ≤ 'z') || ('A' ≤ c && c ≤ 'Z')

/-- ASCII alphanumeric test, modelling Python `str.isalnum` per character. -/
def pyAlnum (c : Char) : Bool := pyAlpha c || pyDigit c

/-- Replace every occurrence of character `c` by the string `r`
(Python `s.replace(c, r)` for a one-character pattern). -/
def pyReplaceCL (c : Char) (r : List Char) : List Char → List Char
  | [] => []
  | a :: rest => if a = c then r ++ pyReplaceCL c r rest else a :: pyReplaceCL c r rest

/-- Python `s.replace(c, r)` for a one-character pattern `c`. -/
def pyReplaceC (s : String) (c : Char) (r : String) : String :=
  ⟨pyReplaceCL c r.data s.data⟩

/-- Python `s.replace(".", "", 1)`: drop the first `.` only. -/
def pyReplaceDotOnceL : List Char → List Char
  | [] => []
  | a :: rest => if a = '.' then rest else a :: pyReplaceDotOnceL rest

/-- Python `s.replace(".", "", 1)`. -/
def pyReplaceDotOnce (s : String) : String := ⟨pyReplaceDotOnceL s.data⟩

/-- Fuel-driven worker for whitespace splitting.  Structural recursion on the
fuel keeps the function kernel-evaluable; the fuel is always at least the
length of the list, so the fuel never runs out (see `pySplitGo_congr`). -/
def pySplitGo : Nat → List Char → List (List Char)
  | 0, _ => []
  | _ + 1, [] => []
  | fuel + 1, c :: rest =>
    if pyWs c then pySplitGo fuel rest
    else (c :: rest.takeWhile (fun x => !pyWs x)) ::
      pySplitGo fuel (rest.dropWhile (fun x => !pyWs x))

/-- Whitespace splitting on character lists: the token list of Python
`s.split()` (no empty tokens, separators are maximal whitespace runs). -/
def pySplitL (l : List Char) : List (List Char) := pySplitGo l.length l

/-- Python `s.split()` (split on whitespace runs, dropping empties). -/
def pySplit (s : String) : List String := (pySplitL s.data).map String.mk

/-- Space-joining of character lists. -/
def joinSpaceL : List (List Char) → List Char
  | [] => []
  | [t] => t
  | t :: ts => t ++ ' ' :: joinSpaceL ts

/-- Python `" ".join(ts)`. -/
def pyJoinSpace (ts : List String) : String := ⟨joinSpaceL (ts.map String.data)⟩

/-- ASCII upper-casing of one character (Python `str.upper` on ASCII). -/
def pyUpperC (c : Char) : Char :=
  if 'a' ≤ c && c ≤ 'z' then Char.ofNat (c.toNat - 32) else c

/-- Python `s.upper()` (ASCII model). -/
def pyUpper (s : String) : String := ⟨s.data.map pyUpperC⟩

/-- ASCII lower-casing of one character (Python `str.lower` on ASCII). -/
def pyLowerC (c : Char) : Char :=
  if 'A' ≤ c && c ≤ 'Z' then Char.ofNat (c.toNat + 32) else c

/-- Python `s.lower()` (ASCII model). -/
def pyLower (s : String) : String := ⟨s.data.map pyLowerC⟩

/-- Does `pre` occur at the head of `l`? -/
def listStartsWith [DecidableEq α] : List α → List α → Bool
  | _, [] => true
  | [], _ :: _ => false
  | a :: l, b :: p => a = b && listStartsWith l p

/-- Does `sub` occur contiguously inside `l`? -/
def listInfix [DecidableEq α] (l sub : List α) : Bool :=
  match l with
  | [] => sub.isEmpty
  | _ :: rest => listStartsWith l sub || listInfix rest sub

/-- Python `sub in s` (substring containment). -/
def pyContains (s sub : String) : Bool := listInfix s.data sub.data

/-- Parse a non-empty all-digit string as a natural number. -/
def parseNatL : List Char → Nat
  | [] => 0
  | c :: rest => (c.toNat - '0'.toNat) * 10 ^ rest.length + parseNatL rest

/-- Python `int(s)` for an all-digit string `s`. -/
def parseNat (s : String) : Nat := parseNatL s.data

/-- Python truthiness of a string: non-empty. -/
def pyTruthy (s : String) : Bool := s ≠ ""

/-- Python `(s or d)`: `d` when `s` is empty, else `s`. -/
def pyOr (s d : String) : String := if s = "" then d else s

/-! ## Exact rational numbers, kernel-computable

Python floats are modelled by exact fractions.  An unnormalized
numerator/denominator pair is used (rather than Mathlib's `ℚ`, whose
`Nat.gcd`-based normalization does not reduce in the kernel); the engine
never tests two parsed numbers for equality, only their sign, zeroness and
order, all of which are well-defined on unnormalized pairs with positive
denominators (every constructor below keeps the denominator positive). -/

/-- An exact fraction `num / den` with (by construction) positive `den`. -/
structure PyQ where
  /-- Numerator. -/
  num : ℤ
  /-- Denominator (kept positive by every constructor used). -/
  den : ℕ
  deriving DecidableEq

/-- The fraction `n / 1`. -/
def PyQ.ofInt (n : ℤ) : PyQ := ⟨n, 1⟩

/-- Product of fractions. -/
def PyQ.mul (a b : PyQ) : PyQ := ⟨a.num * b.num, a.den * b.den⟩

/-- Negation. -/
def PyQ.neg (a : PyQ) : PyQ := ⟨-a.num, a.den⟩

/-- Is the value zero? -/
def PyQ.isZero (a : PyQ) : Bool := a.num = 0

/-- Is `|a| < n` (for a natural bound `n`)? -/
def PyQ.absLt (a : PyQ) (n : ℕ) : Bool := a.num.natAbs < n * a.den

/-- Python `int(q)`: truncation toward zero. -/
def PyQ.trunc (a : PyQ) : ℤ := Int.tdiv a.num a.den

/-- Scale by `10 ^ e` for a signed exponent `e`. -/
def PyQ.scale10 (a : PyQ) (e : ℤ) : PyQ :=
  match e with
  | Int.ofNat k => ⟨a.num * 10 ^ k, a.den⟩
  | Int.negSucc k => ⟨a.num, a.den * 10 ^ (k + 1)⟩

/-- Sum of fractions. -/
def PyQ.add (a b : PyQ) : PyQ := ⟨a.num * b.den + b.num * a.den, a.den * b.den⟩

/-- Difference of fractions. -/
def PyQ.sub (a b : PyQ) : PyQ := a.add b.neg

/-- Value order `a ≤ b` (cross multiplication; denominators positive). -/
def PyQ.le (a b : PyQ) : Bool := a.num * b.den ≤ b.num * a.den

/-- Strict value order `a < b`. -/
def PyQ.lt (a b : PyQ) : Bool := a.num * b.den < b.num * a.den

/-- Value equality (Python `==` on floats). -/
def PyQ.qeq (a b : PyQ) : Bool := a.num * b.den = b.num * a.den

/-- Is `|a - b| > 2` (the `ROW_Y_TOLERANCE` comparison)? -/
def absGt2 (a b : PyQ) : Bool :=
  let d := a.sub b
  d.num.natAbs > 2 * d.den

/-! ## Python `float(str)` (exact-rational model)

The grammar follows CPython's `float` constructor on ASCII input: optional
surrounding whitespace, an optional sign, then either an `inf`/`infinity`/
`nan` keyword or a decimal mantissa (digits with at most one point, with
underscores allowed strictly between digits) with an optional exponent.
The result distinguishes "parse error" (`Option.none`), non-finite values
(`some Option.none`), and finite values as exact rationals. -/

/-- Check CPython's underscore placement rule: every `_` must sit directly
between two digits. -/
def underscoresOk : List Char → Bool
  | [] => true
  | '_' :: _ => false
  | c :: rest => goAfter c rest
where
  goAfter (prev : Char) : List Char → Bool
    | [] => true
    | '_' :: [] => false
    | '_' :: d :: rest => pyDigit prev && pyDigit d && goAfter d rest
    | c :: rest => goAfter c rest

/-- Digits of a character list interpreted base 10 (empty ↦ 0). -/
def digitsVal (l : List Char) : Nat := parseNatL l

/-- Split a list at the first occurrence of a character satisfying `p`,
returning the parts before and after (the matching character removed). -/
def splitFirst (p : Char → Bool) : List Char → (List Char × Option (List Char))
  | [] => ([], Option.none)
  | c :: rest =>
    if p c then ([], Option.some rest)
    else
      let r := splitFirst p rest
      (c :: r.1, r.2)

/-- Parse an unsigned decimal mantissa `digits [. digits]` (at least one digit
overall) as an exact fraction, or fail. -/
def parseMantissa (l : List Char) : Option PyQ :=
  let parts := splitFirst (· = '.') l
  let ip := parts.1
  match parts.2 with
  | Option.none =>
    if ip ≠ [] && ip.all pyDigit then Option.some (PyQ.ofInt (digitsVal ip))
    else Option.none
  | Option.some fp =>
    if (ip ≠ [] || fp ≠ []) && ip.all pyDigit && fp.all pyDigit then
      Option.some ⟨digitsVal ip * 10 ^ fp.length + digitsVal fp, 10 ^ fp.length⟩
    else Option.none

/-- Parse a signed decimal exponent part (the text after `e`/`E`). -/
def parseExp (l : List Char) : Option ℤ :=
  match l with
  | '+' :: rest => if rest ≠ [] && rest.all pyDigit then Option.some (digitsVal rest) else Option.none
  | '-' :: rest => if rest ≠ [] && rest.all pyDigit then Option.some (-(digitsVal rest : ℤ)) else Option.none
  | rest => if rest ≠ [] && rest.all pyDigit then Option.some (digitsVal rest) else Option.none

/-- `float(s)` on ASCII input: `Option.none` on `ValueError`,
`some Option.none` for `inf`/`nan` results, `some (some q)` for finite
results modelled exactly. -/
def pyFloat (s : String) : Option (Option PyQ) :=
  let t := pyStripL s.data
  let signed : Bool × List Char :=
    match t with
    | '+' :: rest => (false, rest)
    | '-' :: rest => (true, rest)
    | rest => (false, rest)
  let body := signed.2
  let low := body.map pyLowerC
  if low = "inf".data || low = "infinity".data || low = "nan".data then
    Option.some Option.none
  else if body = [] then Option.none
  else if !underscoresOk body then Option.none
  else
    let clean := body.filter (· ≠ '_')
    let parts := splitFirst (fun c => c = 'e' || c = 'E') clean
    match parseMantissa parts.1 with
    | Option.none => Option.none
    | Option.some m =>
      match parts.2 with
      | Option.none =>
        Option.some (Option.some (if signed.1 then m.neg else m))
      | Option.some ex =>
        match parseExp ex with
        | Option.none => Option.none
        | Option.some e =>
          let v := m.scale10 e
          Option.some (Option.some (if signed.1 then v.neg else v))

/-! ## ColorClassifier (`src/app.py` lines 15-50)

Python color values are modelled by an inductive covering every shape the
source inspects: `None`, `bool` (explicitly excluded from the `int` branch),
`int`, `float`, sequences of numbers (tuples/lists of floats, modelled as
exact rationals), and any other object (no `__len__`, or `float()` of a
component fails). -/

/-- A Python color value as received by `_color_to_rgb`. -/
inductive PyColor where
  /-- Python `None`. -/
  | none : PyColor
  /-- A Python `bool` (an `int` subclass, explicitly rejected). -/
  | bool (b : Bool) : PyColor
  /-- A Python `int` (packed 0xRRGGBB in the intended use). -/
  | int (n : ℤ) : PyColor
  /-- A Python `float` scalar. -/
  | float (q : PyQ) : PyColor
  /-- A sequence of numbers (tuple or list of floats). -/
  | seq (xs : List PyQ) : PyColor
  /-- Any other object: unsupported type, or a sequence whose elements do not
  convert to `float` (the `except` branch of `_color_to_rgb`). -/
  | other : PyColor

/-- Python `n >> 16 & 0xFF` style byte extraction (arithmetic shift =
floor division, `& 0xFF` = mod 256 with a result in `[0, 256)`, both
matching Python's semantics on negatives). -/
def byteOf (n : ℤ) (sh : Nat) : ℤ := Int.emod (Int.fdiv n ((2 : ℤ) ^ sh)) 256

/-- `_color_to_rgb` (`src/app.py` lines 15-28): convert a color value to an
`(r, g, b)` triple, or `Option.none` when invalid. -/
def colorToRgb : PyColor → Option (ℤ × ℤ × ℤ)
  | PyColor.none => Option.none
  | PyColor.bool _ => Option.none
  | PyColor.int n => Option.some (byteOf n 16, byteOf n 8, byteOf n 0)
  | PyColor.float _ => Option.none
  | PyColor.seq xs =>
    match xs with
    | r :: g :: b :: _ =>
      Option.some ((r.mul (PyQ.ofInt 255)).trunc, (g.mul (PyQ.ofInt 255)).trunc,
        (b.mul (PyQ.ofInt 255)).trunc)
    | _ => Option.none
  | PyColor.other => Option.none

/-- `is_blue_color` (`src/app.py` lines 31-37). -/
def isBlueColor (c : PyColor) : Bool :=
  match colorToRgb c with
  | Option.none => false
  | Option.some (r, g, b) => b > r && b > g && b ≥ 80

/-- `is_explicitly_other_color` (`src/app.py` lines 40-50). -/
def isExplicitlyOtherColor (c : PyColor) : Bool :=
  match colorToRgb c with
  | Option.none => true
  | Option.some (r, g, b) => if b > r && b > g && b ≥ 80 then false else true

/-- The specification's reading of the blue test for claim C2: the input
converts to a triple lying in the 0-255 range, with the blue dominance
conditions. -/
def blueSpecC2 (c : PyColor) : Prop :=
  ∃ r g b : ℤ, colorToRgb c = Option.some (r, g, b) ∧
    0 ≤ r ∧ r ≤ 255 ∧ 0 ≤ g ∧ g ≤ 255 ∧ 0 ≤ b ∧ b ≤ 255 ∧
    b > r ∧ b > g ∧ b ≥ 80

/-! ## Content-shape classifiers (`src/app.py` lines 336-361, 563-632, 758-801) -/

/-- `_looks_like_percentage_value` (`src/app.py` lines 563-579).  A non-finite
`float` result (`inf`/`nan`) fails both the `v == 0` test and the
`abs(v) < 1000` test, hence yields `False`, as in the source. -/
def looksLikePercentageValue (s : String) : Bool :=
  if s = "" || pyStrip s = "-" then false
  else
    let s1 := pyReplaceC (pyStrip s) ',' ""
    if s1 = "" then false
    else
      match pyFloat s1 with
      | Option.none => false
      | Option.some Option.none => false
      | Option.some (Option.some v) =>
        if v.isZero then false
        else pyContains s1 "." && v.absLt 1000

/-- `_looks_like_text_not_number` (`src/app.py` lines 582-595). -/
def looksLikeTextNotNumber (s : String) : Bool :=
  if s = "" || pyStrip s = "-" then false
  else
    let t := pyStrip s
    let cleaned := pyReplaceC (pyReplaceC (pyReplaceC t ',' "") '.' "") ' ' ""
    if pyIsDigit cleaned then false
    else if looksLikePercentageValue t then false
    else t.data.any pyAlpha && t.length > 2

/-- `_looks_like_large_number` (`src/app.py` lines 598-605). -/
def looksLikeLargeNumber (s : String) : Bool :=
  if s = "" || pyStrip s = "-" then false
  else
    let t := pyReplaceC (pyReplaceC (pyReplaceC (pyStrip s) ',' "") ' ' "") '.' ""
    if !pyIsDigit t then false else t.length ≥ 4

/-- `_looks_like_change_value` (`src/app.py` lines 622-632). -/
def looksLikeChangeValue (s : String) : Bool :=
  if s = "" then true
  else
    let t := pyStrip s
    if t = "-" then true
    else
      let t2 := pyReplaceC (pyReplaceC t ',' "") ' ' ""
      if !pyIsDigit t2 then false
      else decide (0 ≤ parseNat t2) && decide (t2.length ≤ 15)

/-- The brokerage/company keyword list of `_looks_like_securities_name`
(`src/app.py` lines 767-768). -/
def securitiesKeywords : List String :=
  ["SEKURITAS", "ASSET", "PT", "PT.", "LTD", "S/A", "INTERNATIONAL",
   "INDONESIA", "MIRAE", "MANDIRI", "SINARMAS", "CGS", "AJAIB", "INDOVEST",
   "ABADIMUKTI"]

/-- `_looks_like_securities_name` (`src/app.py` lines 758-776). -/
def looksLikeSecuritiesName (s : String) : Bool :=
  if s = "" || pyStrip s = "-" then false
  else
    let t := pyStrip s
    if t.length < 5 then false
    else
      let tU := pyUpper t
      let hasKeyword := securitiesKeywords.any (fun kw => pyContains tU kw)
      if hasKeyword && !looksLikePercentageValue t && !looksLikeLargeNumber t then
        true
      else if (pyContains tU "PT" || pyContains tU "PT.") && t.length > 5 then
        !looksLikePercentageValue t && !looksLikeLargeNumber t
      else false

/-- `_looks_like_person_name` (`src/app.py` lines 779-801). -/
def looksLikePersonName (s : String) : Bool :=
  if s = "" || pyStrip s = "-" then false
  else
    let t := pyStrip s
    if looksLikeSecuritiesName t then false
    else
      let words := pySplit t
      if words.length < 2 then false
      else
        let hasLetters := t.data.any pyAlpha
        let isNotNumber := !looksLikePercentageValue t &&
          !looksLikeLargeNumber t && !looksLikeChangeValue t
        let reasonableLength := decide (t.length ≤ 50)
        let allWordsHaveLetters := words.all (fun w => w.data.any pyAlpha)
        hasLetters && isNotNumber && reasonableLength &&
          decide (words.length ≥ 2) && allWordsHaveLetters

/-- Address keywords of `_looks_like_address_or_wrong_text`
(`src/app.py` line 617). -/
def addressKeywords : List String :=
  ["JL ", "JLN ", "KAV", "FLOOR", "RT/RW", "UNIT ", "GD ", "MENARA"]

/-- `_looks_like_address_or_wrong_text` (`src/app.py` lines 608-619). -/
def looksLikeAddressOrWrongText (s : String) : Bool :=
  if s = "" || pyStrip s = "-" then false
  else if looksLikeLargeNumber s || looksLikePercentageValue s ||
      looksLikeChangeValue s then false
  else
    let t := pyUpper (pyStrip s)
    if looksLikeSecuritiesName s || looksLikePersonName s ||
        looksLikeTextNotNumber s then true
    else if addressKeywords.any (fun kw => pyContains t kw) then true
    else decide (s.length > 30) && pyContains s ","

/-- `_looks_like_stock_code` (`src/app.py` lines 336-345). -/
def looksLikeStockCode (s : String) : Bool :=
  if s = "" || s.length > 10 then false
  else
    let t := pyUpper (pyStrip s)
    if t.length < 2 then false
    else if pyIsDigit t then false
    else t.data.all (fun c => pyAlnum c || c = '.' || c = '-')

/-- `_looks_like_no` (`src/app.py` lines 348-353). -/
def looksLikeNo (s : String) : Bool :=
  if s = "" then false
  else
    let t := pyReplaceC (pyReplaceC (pyStrip s) ',' "") ' ' ""
    pyIsDigit t && t.length ≤ 6

/-- `_looks_like_company_name` (`src/app.py` lines 356-361). -/
def looksLikeCompanyName (s : String) : Bool :=
  if s = "" || s.length < 10 then false
  else
    let t := pyStrip s
    pyContains t "Tbk" || pyContains t ", PT" || pyContains t "PT " ||
      (pyContains t "," && t.length > 15)

/-! ## Rows and cell access -/

/-- A table row: the list of cell strings. -/
abbrev Row := List String

/-- The cell reader used by the repair correctors:
`(cells[i] if i < len(cells) else "").strip() or "-"`. -/
def getC (cells : Row) (i : Nat) : String :=
  pyOr (pyStrip (cells.getD i "")) "-"

/-- `while len(cells) <= idx: cells.append("-")`, i.e. pad with the sentinel
up to length `n`. -/
def padTo (cells : Row) (n : Nat) : Row :=
  cells ++ List.replicate (n - cells.length) "-"

/-- `v != "-" and v and _looks_like_large_number(v)`, the period-data test
used repeatedly in the numeric-block repair. -/
def hasLargeData (v : String) : Bool :=
  v ≠ "-" && v ≠ "" && looksLikeLargeNumber v

/-- `TEMPLATE_HEADER_18` (`src/app.py` lines 252-271). -/
def TEMPLATE_HEADER_18 : Row :=
  ["No", "Kode Efek", "Nama Emiten", "Nama Pemegang Rekening Efek",
   "Nama Pemegang Saham", "Nama Rekening Efek", "Alamat", "Alamat (Lanjutan)",
   "Kebangsaan", "Domisili", "Status (Lokal/Asing)", "Jumlah Saham (1)",
   "Saham Gabungan Per Investor (1)",
   "Persentase Kepemilikan Per Investor (%) (1)", "Jumlah Saham (2)",
   "Saham Gabungan Per Investor (2)",
   "Persentase Kepemilikan Per Investor (%) (2)", "Perubahan"]

/-- Match `NO_KODE_EFEK_PATTERN = ^\s*(\d+)\s+(.*)$` (DOTALL): leading
whitespace, a maximal digit run, at least one whitespace, and the rest. -/
def noKodeMatch (s : String) : Option (String × String) :=
  let l := s.data.dropWhile pyWs
  let digits := l.takeWhile pyDigit
  if digits.isEmpty then Option.none
  else
    let rest1 := l.drop digits.length
    let ws := rest1.takeWhile pyWs
    if ws.isEmpty then Option.none
    else Option.some (⟨digits⟩, ⟨rest1.drop ws.length⟩)

/-! ## Per-row correctors (`src/app.py` lines 510-560, 635-755, 1100-1134) -/

/-- `_fix_no_kode_efek_cells` (`src/app.py` lines 510-543). -/
def fixNoKodeEfekCells (cells : Row) (numCols : Nat) : Row :=
  if numCols < 2 then cells
  else
    let col0 := pyStrip (cells.getD 0 "")
    let col1 := pyStrip (cells.getD 1 "")
    if col0 = "" then cells
    else
      match noKodeMatch col0 with
      | Option.some (g1, g2) =>
        let noPart := pyStrip g1
        let rest := pyStrip g2
        if noPart ≠ "" && rest ≠ "" then
          let cells := cells.set 0 noPart
          if cells.length ≤ 1 then cells ++ [rest]
          else if col1 = "" || col1 = "-" then cells.set 1 rest
          else if !pyContains col1 rest then cells.set 1 (rest ++ " " ++ col1)
          else cells
        else cells
      | Option.none =>
        if !looksLikeStockCode col0 then cells
        else if looksLikeNo col1 then (cells.set 0 col1).set 1 col0
        else
          let cells := cells.set 0 "-"
          if col1 = "" || col1 = "-" then cells.set 1 col0 else cells

/-- `_fix_kode_emiten_cells` (`src/app.py` lines 546-560). -/
def fixKodeEmitenCells (cells : Row) (numCols : Nat) : Row :=
  if numCols < 3 then cells
  else
    let col1 := pyStrip (cells.getD 1 "")
    let col2 := pyStrip (cells.getD 2 "")
    if col1 ≠ "" && col2 = "" && looksLikeCompanyName col1 then
      let cells := cells.set 1 "-"
      if cells.length ≤ 2 then cells ++ [col1] else cells.set 2 col1
    else cells

/-- `_fix_persentase_perubahan_cells` (`src/app.py` lines 1100-1134). -/
def fixPersentasePerubahanCells (cells : Row) (numCols : Nat) : Row :=
  if numCols < 18 then cells
  else
    let valPerubahan := pyStrip (cells.getD 17 "")
    if valPerubahan = "" || valPerubahan = "-" then cells
    else if !looksLikePercentageValue valPerubahan then cells
    else
      let valPct1 := pyOr (pyStrip (cells.getD 13 "")) "-"
      let valPct2 := pyOr (pyStrip (cells.getD 16 "")) "-"
      if valPct1 = "-" then
        let cells := (padTo cells 14).set 13 valPerubahan
        if cells.length > 17 then cells.set 17 "-" else cells
      else if valPct2 = "-" then
        let cells := (padTo cells 17).set 16 valPerubahan
        if cells.length > 17 then cells.set 17 "-" else cells
      else cells

/-- One iteration of the pair loop of `_fix_split_percentage_cells`
(`src/app.py` lines 642-663). -/
def fspStep (idxPct idxSaham : Nat) (cells : Row) : Row :=
  let val := pyOr (pyStrip (cells.getD idxPct "")) "-"
  if !pyContains val "\n" then cells
  else
    let parts := pySplit (pyReplaceC val '\n' " ")
    let pctPart := parts.foldl
      (fun acc p => if looksLikePercentageValue p then Option.some p else acc)
      Option.none
    let largePart := parts.foldl
      (fun acc p =>
        if looksLikePercentageValue p then acc
        else if looksLikeLargeNumber p then Option.some p else acc)
      Option.none
    match pctPart, largePart with
    | Option.some pp, Option.some lp =>
      let cells := padTo cells (max idxPct idxSaham + 1)
      let cells := cells.set idxPct pp
      let cur := pyStrip (cells.getD idxSaham "")
      if cur = "-" || cur = "" then cells.set idxSaham lp else cells
    | Option.some pp, Option.none => (padTo cells (idxPct + 1)).set idxPct pp
    | _, _ => cells

/-- `_fix_split_percentage_cells` (`src/app.py` lines 635-663). -/
def fixSplitPercentageCells (cells : Row) (numCols : Nat) : Row :=
  if numCols < 18 then cells
  else fspStep 16 15 (fspStep 13 12 cells)

/-- One iteration of the pair loop of `_fix_jumlah_saham_split_percentage`
(`src/app.py` lines 679-726). -/
def fjsStep (idxJumlah idxPct : Nat) (cells : Row) : Row :=
  let valJumlah := pyOr (pyStrip (cells.getD idxJumlah "")) "-"
  if valJumlah = "-" then cells
  else
    let parts := pySplit valJumlah
    if parts.length < 2 then cells
    else
      let firstPart := pyStrip (parts.getD 0 "")
      let viaFirst : Option String × Option String :=
        if looksLikePercentageValue firstPart then
          let restParts := pyStrip (pyJoinSpace (parts.drop 1))
          (Option.some firstPart,
            if looksLikeLargeNumber restParts then Option.some restParts
            else Option.none)
        else (Option.none, Option.none)
      let pl : Option String × Option String :=
        match viaFirst.1 with
        | Option.some _ => viaFirst
        | Option.none =>
          parts.foldl (fun acc p =>
            if looksLikePercentageValue p then (Option.some p, acc.2)
            else if looksLikeLargeNumber p then
              (acc.1, match acc.2 with
                      | Option.none => Option.some p
                      | x => x)
            else acc) (Option.none, Option.none)
      match pl.1 with
      | Option.none => cells
      | Option.some pctPart =>
        let valPct := pyOr (pyStrip (cells.getD idxPct "")) "-"
        if valPct ≠ "-" then cells
        else
          let cells := (padTo cells (idxPct + 1)).set idxPct pctPart
          match pl.2 with
          | Option.some largePart => cells.set idxJumlah largePart
          | Option.none =>
            let remaining := parts.filter (fun p => p ≠ pctPart)
            if remaining ≠ [] then cells.set idxJumlah (pyJoinSpace remaining)
            else cells.set idxJumlah "-"

/-- `_fix_jumlah_saham_split_percentage` (`src/app.py` lines 666-726). -/
def fixJumlahSahamSplitPercentage (cells : Row) (numCols : Nat) : Row :=
  if numCols < 18 then cells
  else fjsStep 14 16 (fjsStep 11 13 cells)

/-- `_fix_perubahan_split_percentage_then_number`
(`src/app.py` lines 729-755). -/
def fixPerubahanSplitPercentageThenNumber (cells : Row) (numCols : Nat) : Row :=
  if numCols < 18 then cells
  else
    let val17 := pyOr (pyStrip (cells.getD 17 "")) "-"
    if val17 = "-" then cells
    else
      let parts := pySplit val17
      if parts.length < 2 then cells
      else
        let first := pyStrip (parts.getD 0 "")
        let second := pyStrip (pyJoinSpace (parts.drop 1))
        if !looksLikePercentageValue first then cells
        else
          let secondClean :=
            pyReplaceC (pyReplaceC (pyReplaceC second ',' "") '.' "") ' ' ""
          if secondClean = "" || !pyIsDigit secondClean then cells
          else ((padTo cells 18).set 16 first).set 17 second

/-! ## `_fix_numeric_block_by_content` (`src/app.py` lines 804-1097) -/

/-- The percentage-relocation loop of lines 954-968 (block "Persentase (1)
kosong"): scan `percentages_found`, fill column 13 from the first usable
entry. -/
def pfLoopA (hasP2 : Bool) : List (Nat × String × Bool) → Row → Row
  | [], cells => cells
  | (pidx, pstr, pin) :: rest, cells =>
    if pin && pidx = 16 && hasP2 then pfLoopA hasP2 rest cells
    else if !pin && pidx ≠ 16 then
      let cells := cells.set 13 pstr
      if pidx ≠ 17 then cells.set pidx "-" else cells
    else if pin && pidx = 16 && !hasP2 then (cells.set 13 pstr).set 16 "-"
    else pfLoopA hasP2 rest cells

/-- The second-percentage loop of lines 993-1007 (fill column 16 with the
second found percentage). -/
def pfLoopB : Nat → List (Nat × String × Bool) → Row → Row
  | _, [], cells => cells
  | cnt, (pidx, pstr, pin) :: rest, cells =>
    if pin && pidx = 13 then pfLoopB (cnt + 1) rest cells
    else if cnt + 1 = 2 then
      let cells := (padTo cells 17).set 16 pstr
      if !pin && pidx ≠ 17 then cells.set pidx "-" else cells
    else pfLoopB (cnt + 1) rest cells

/-- Lines 828-836: share-count columns must not hold address-like text. -/
def fnbAddressScreen (numCols : Nat) (cells : Row) : Row :=
  [11, 12, 14, 15].foldl (fun cs idx =>
    if numCols ≤ idx then cs
    else
      let v := getC cs idx
      if v ≠ "-" && looksLikeAddressOrWrongText v then
        (padTo cs (idx + 1)).set idx "-"
      else cs) cells

/-- Lines 838-859: text in Persentase (1). -/
def fnbTextPct1 (numCols : Nat) (cells : Row) : Row :=
  let val13 := getC cells 13
  let isTextInPct1 := looksLikeTextNotNumber val13 ||
    looksLikeSecuritiesName val13 || looksLikePersonName val13 ||
    (val13 ≠ "-" && !looksLikePercentageValue val13 &&
      !looksLikeLargeNumber val13 && decide (val13.length > 3))
  if isTextInPct1 then
    match (List.range numCols).find? (fun j =>
        j ≠ 13 && j ≠ 16 && looksLikePercentageValue (getC cells j)) with
    | Option.some j => (cells.set 13 (getC cells j)).set j val13
    | Option.none =>
      if looksLikeSecuritiesName val13 || looksLikePersonName val13 then
        (padTo cells 14).set 13 "-"
      else cells
  else cells

/-- Lines 861-880: Persentase (1) empty or holding a large number. -/
def fnbPct1Swap (numCols : Nat) (cells : Row) : Row :=
  let val13a := getC cells 13
  if val13a = "-" ||
      (!looksLikePercentageValue val13a && looksLikeLargeNumber val13a) then
    match (List.range numCols).find? (fun j =>
        j ≠ 13 && j ≠ 16 && looksLikePercentageValue (getC cells j)) with
    | Option.some j =>
      let vj := getC cells j
      if val13a = "-" then (cells.set 13 vj).set j "-"
      else (cells.set 13 vj).set j val13a
    | Option.none => cells
  else cells

/-- Lines 882-924: conservative move of a lone percentage from (1) to (2). -/
def fnbLonePctMove (numCols : Nat) (cells : Row) : Row :=
  let val13c := getC cells 13
  let val16c := getC cells 16
  let valJumlah1 := getC cells 11
  let valSG1 := getC cells 12
  let valJumlah2 := getC cells 14
  let valSG2 := getC cells 15
  let hasOtherPercentage := (List.range numCols).any (fun j =>
    j ≠ 13 && j ≠ 16 && looksLikePercentageValue (getC cells j))
  let hasPeriod1 := hasLargeData valJumlah1 || hasLargeData valSG1
  let hasPeriod2 := hasLargeData valJumlah2 || hasLargeData valSG2
  if looksLikePercentageValue val13c && val16c = "-" && hasPeriod2 &&
      !hasPeriod1 && !hasOtherPercentage then
    ((padTo cells 17).set 16 val13c).set 13 "-"
  else cells

/-- Lines 926-942: collect all percentages of the row
(`percentages_found`). -/
def fnbPercList (numCols : Nat) (cells : Row) : List (Nat × String × Bool) :=
  let val13f := getC cells 13
  let val16f := getC cells 16
  (if looksLikePercentageValue val13f then [(13, val13f, true)] else []) ++
  (if looksLikePercentageValue val16f then [(16, val16f, true)] else []) ++
  ((List.range numCols).filterMap (fun j =>
    if j ≠ 13 && j ≠ 16 && looksLikePercentageValue (getC cells j) then
      Option.some (j, getC cells j, false)
    else Option.none))

/-- Lines 944-968: fill an empty Persentase (1) from the found
percentages. -/
def fnbFillPct1 (pf : List (Nat × String × Bool)) (cells : Row) : Row :=
  if getC cells 13 = "-" && pf.length > 0 then
    let hasP2 := hasLargeData (getC cells 14) || hasLargeData (getC cells 15)
    pfLoopA hasP2 pf cells
  else cells

/-- Lines 970-1007: fill an empty Persentase (2); `pf` is the percentage
list collected before the Persentase (1) fill ran. -/
def fnbFillPct2 (numCols : Nat) (pf : List (Nat × String × Bool))
    (cells : Row) : Row :=
  let val16After := getC cells 16
  let hasP2After := hasLargeData (getC cells 14) || hasLargeData (getC cells 15)
  if val16After = "-" then
    if hasP2After then
      match (List.range numCols).find? (fun j =>
          j ≠ 16 && j ≠ 13 && looksLikePercentageValue (getC cells j)) with
      | Option.some j =>
        let cells := (padTo cells 17).set 16 (getC cells j)
        if j ≠ 17 then cells.set j "-" else cells
      | Option.none => cells
    else if pf.length > 1 then pfLoopB 0 pf cells
    else cells
  else cells

/-- Lines 1009-1055: final search for Persentase (1), with a nested final
search for Persentase (2). -/
def fnbFinalSearch (numCols : Nat) (cells : Row) : Row :=
  let val13fc := getC cells 13
  if val13fc = "-" then
    let hasP2c := hasLargeData (getC cells 14) || hasLargeData (getC cells 15)
    let cells :=
      match (List.range numCols).find? (fun j =>
          j ≠ 13 && !(j = 16 && hasP2c) &&
            looksLikePercentageValue (getC cells j)) with
      | Option.some j =>
        let cells := cells.set 13 (getC cells j)
        if j ≠ 17 && !(j = 16 && hasP2c) then cells.set j "-" else cells
      | Option.none => cells
    let val16fc := getC cells 16
    let hasP2f := hasLargeData (getC cells 14) || hasLargeData (getC cells 15)
    if val16fc = "-" && hasP2f then
      match (List.range numCols).find? (fun j =>
          j ≠ 16 && j ≠ 13 && looksLikePercentageValue (getC cells j)) with
      | Option.some j =>
        let cells := (padTo cells 17).set 16 (getC cells j)
        if j ≠ 17 then cells.set j "-" else cells
      | Option.none => cells
    else cells
  else cells

/-- Lines 1057-1074: text in Persentase (2). -/
def fnbTextPct2 (numCols : Nat) (cells : Row) : Row :=
  let val16 := getC cells 16
  let isTextInPct2 := looksLikeTextNotNumber val16 ||
    looksLikeSecuritiesName val16 ||
    (val16 ≠ "-" && !looksLikePercentageValue val16 &&
      !looksLikeLargeNumber val16 && decide (val16.length > 3))
  if isTextInPct2 then
    match (List.range numCols).find? (fun j =>
        j ≠ 13 && j ≠ 16 && looksLikePercentageValue (getC cells j)) with
    | Option.some j => (cells.set 16 (getC cells j)).set j val16
    | Option.none => (padTo cells 17).set 16 "-"
  else cells

/-- Lines 1076-1097: text in Perubahan. -/
def fnbTextPerubahan (cells : Row) : Row :=
  let val17 := getC cells 17
  let isTextInPerubahan := looksLikeTextNotNumber val17 ||
    looksLikePersonName val17 || looksLikeSecuritiesName val17 ||
    (val17 ≠ "-" && !looksLikePercentageValue val17 &&
      !looksLikeChangeValue val17 && !looksLikeLargeNumber val17 &&
      decide (val17.length > 3))
  if isTextInPerubahan then
    let found := ((List.range 18).drop 11).find? (fun j =>
      j ≠ 17 &&
        (looksLikeChangeValue (getC cells j) &&
          !looksLikeLargeNumber (getC cells j) &&
          !looksLikePercentageValue (getC cells j)))
    let cells :=
      match found with
      | Option.some j => (cells.set 17 (getC cells j)).set j val17
      | Option.none => cells
    if found.isNone || looksLikePersonName val17 ||
        looksLikeSecuritiesName val17 then
      (padTo cells 18).set 17 "-"
    else cells
  else cells

/-- `_fix_numeric_block_by_content` (`src/app.py` lines 804-1097), the
numeric-block classification repair, translated block by block in statement
order (each named `fnb*` function is one commented source block; stale
reads of the source are reproduced by reading before the corresponding
mutation — in particular `percentages_found` is collected once, before the
Persentase (1) fill, and reused by the Persentase (2) fill). -/
def fixNumericBlockByContent (cells : Row) (numCols : Nat) : Row :=
  if numCols < 18 then cells
  else
    -- lines 821-826: the three split helpers
    let cells := fixPerubahanSplitPercentageThenNumber cells numCols
    let cells := fixSplitPercentageCells cells numCols
    let cells := fixJumlahSahamSplitPercentage cells numCols
    let cells := fnbAddressScreen numCols cells
    let cells := fnbTextPct1 numCols cells
    let cells := fnbPct1Swap numCols cells
    let cells := fnbLonePctMove numCols cells
    let pf := fnbPercList numCols cells
    let cells := fnbFillPct1 pf cells
    let cells := fnbFillPct2 numCols pf cells
    let cells := fnbFinalSearch numCols cells
    let cells := fnbTextPct2 numCols cells
    fnbTextPerubahan cells

/-- All whitespace-separated tokens of a row's cells, in order (the
vocabulary in which the numeric-block repair's value provenance is
stated). -/
def rowTokens (r : Row) : List String := (r.map pySplit).flatten

/-! ## `_merge_continuation_rows` (`src/app.py` lines 1137-1195) -/

/-- `(row + ["-"] * n)[:n]`: pad-or-trim a row to exactly `n` cells. -/
def padTrim (row : Row) (n : Nat) : Row := (row ++ List.replicate n "-").take n

/-- The guard of `_merge_continuation_rows` (lines 1158-1176): does the
continuation row carry a numeric-shaped value in columns 11-17 different
from the current row's value there? -/
def contDiffNumeric (row nextRow : Row) (numCols : Nat) : Bool :=
  goDiff ((List.range (min 18 numCols)).drop 11)
where
  goDiff : List Nat → Bool
    | [] => false
    | j :: rest =>
      if nextRow.length ≤ j then false
      else
        let nv := pyStrip (nextRow.getD j "")
        let rv := pyStrip (row.getD j "")
        if nv = "" || nv = "-" then goDiff rest
        else if !(looksLikeLargeNumber nv || looksLikePercentageValue nv ||
            looksLikeChangeValue nv) then goDiff rest
        else if rv ≠ "" && rv ≠ "-" && nv ≠ rv then true
        else goDiff rest

/-- `empty_idx` of `_merge_continuation_rows` (line 1179). -/
def contEmptyIdx (row : Row) (numCols : Nat) : List Nat :=
  (List.range numCols).filter (fun j =>
    !(row.getD j "" ≠ "" && pyStrip (row.getD j "") ≠ "" &&
      pyStrip (row.getD j "") ≠ "-"))

/-- `values` of `_merge_continuation_rows` (line 1180). -/
def contValues (nextRow : Row) (numCols : Nat) : List String :=
  (List.range numCols).filterMap (fun j =>
    if nextRow.getD j "" ≠ "" && pyStrip (nextRow.getD j "") ≠ "-" then
      Option.some (pyStrip (nextRow.getD j ""))
    else Option.none)

/-- The redistribution step of `_merge_continuation_rows` (lines 1179-1191):
fill the row's empty slots with the continuation's values, right-aligned
when there are enough empty slots, left-aligned (dropping the excess)
otherwise. -/
def contFill (row : Row) (values : List String) (numCols : Nat) : Row :=
  let emptyIdx := contEmptyIdx row numCols
  if values.length ≤ emptyIdx.length then
    let start := emptyIdx.length - values.length
    values.enum.foldl (fun r kv => r.set (emptyIdx.getD (start + kv.1) 0) kv.2)
      row
  else
    emptyIdx.enum.foldl (fun r kj =>
      if kj.1 < values.length then r.set kj.2 (values.getD kj.1 "") else r) row

/-- The inner `while` of `_merge_continuation_rows` (lines 1150-1192):
absorb following rows into `row` until a row with a valid sequence number
or with differing numeric data is met; returns the merged row and the
remaining unconsumed rows. -/
def mcrInner (numCols : Nat) : Row → List Row → Row × List Row
  | row, [] => (row, [])
  | row, next :: rest =>
    let nextRow := padTrim next numCols
    let noNext := pyStrip (nextRow.getD 0 "")
    if noNext ≠ "" && noNext ≠ "-" && looksLikeNo noNext then (row, next :: rest)
    else if contDiffNumeric row nextRow numCols then (row, next :: rest)
    else
      let values := contValues nextRow numCols
      if values = [] then mcrInner numCols row rest
      else mcrInner numCols (contFill row values numCols) rest

/-- The outer `while` of `_merge_continuation_rows`, with fuel (each outer
iteration consumes at least one row, so `rows.length` fuel is exact). -/
def mcrOuter (numCols : Nat) : Nat → List Row → List Row
  | 0, rows => rows
  | _ + 1, [] => []
  | fuel + 1, r :: rest =>
    let p := mcrInner numCols (padTrim r numCols) rest
    p.1 :: mcrOuter numCols fuel p.2

/-- `_merge_continuation_rows` (`src/app.py` lines 1137-1195). -/
def mergeContinuationRows (rows : List Row) (numCols : Nat) : List Row :=
  if numCols < 2 || rows = [] then rows
  else mcrOuter numCols rows.length rows

/-! ## `_dedupe_rows_fill_kode_efek` (`src/app.py` lines 1198-1252) -/

/-- Lines 1224-1232: does the second row carry its own numeric data
(any non-blank value in columns 11-17 differing from the first row's)? -/
def dedupeSecondHasNumeric (row nextRow : Row) (numCols : Nat) : Bool :=
  ((List.range (min 18 numCols)).drop 11).any (fun j =>
    decide (j < nextRow.length) &&
      (let nv := pyStrip (nextRow.getD j "")
       let rv := pyStrip (row.getD j "")
       nv ≠ "" && nv ≠ "-" && nv ≠ rv))

/-- The identity-copy loops of lines 1235-1237 and 1244-1246: copy
`next_row`'s non-blank cells into the row's still-blank cells for column
indices in `[lo, hi)`. -/
def copyEmptyCells (row nextRow : Row) (lo hi : Nat) : Row :=
  ((List.range hi).drop lo).foldl (fun r j =>
    if (r.getD j "" = "" || pyStrip (r.getD j "") = "-") &&
        decide (j < nextRow.length) && nextRow.getD j "" ≠ "" &&
        pyStrip (nextRow.getD j "") ≠ "-" then
      r.set j (nextRow.getD j "")
    else r) row

/-- The main loop of `_dedupe_rows_fill_kode_efek`. -/
def dedupeGo (numCols : Nat) : List Row → List Row
  | [] => []
  | [r] => [padTrim r numCols]
  | r :: next :: rest =>
    let row := padTrim r numCols
    let nextRow := padTrim next numCols
    let noCur := pyStrip (row.getD 0 "")
    let noNext := pyStrip (nextRow.getD 0 "")
    let kodeCur := pyStrip (row.getD 1 "")
    let kodeNext := pyStrip (nextRow.getD 1 "")
    if noCur ≠ "" && noCur = noNext && (kodeCur = "" || kodeCur = "-") &&
        kodeNext ≠ "" && looksLikeStockCode kodeNext then
      if dedupeSecondHasNumeric row nextRow numCols then
        let row := copyEmptyCells row nextRow 1 (min 11 numCols)
        row :: nextRow :: dedupeGo numCols rest
      else
        let row := row.set 1 kodeNext
        let row := copyEmptyCells row nextRow 2 numCols
        row :: dedupeGo numCols rest
    else row :: dedupeGo numCols (next :: rest)

/-- `_dedupe_rows_fill_kode_efek` (`src/app.py` lines 1198-1252). -/
def dedupeRowsFillKodeEfek (rows : List Row) (numCols : Nat) : List Row :=
  if numCols < 3 || rows = [] then rows else dedupeGo numCols rows

/-! ## Row finalization (`src/app.py` lines 1749-1795) -/

/-- Cell normalization of lines 1756-1761: blank-ish cells become the
sentinel, others are stripped. -/
def normalizeCell (cell : String) : String :=
  let cellStr := if cell = "" then "" else pyStrip cell
  if cellStr = "" || cellStr = "-" then "-" else cellStr

/-- Lines 1753-1765: pad/trim to 18 cells and normalize every cell. -/
def normalizeRow18 (row : Row) : Row :=
  let padded := (row ++ List.replicate 18 "").take 18
  let normalized := padded.map normalizeCell
  ((normalized ++ List.replicate (18 - normalized.length) "-").take 18)

/-- Lines 1752-1774: one row of the first repair pass (normalization plus
the four per-row correctors, in source order). -/
def perRowRepairs (row : Row) : Row :=
  let r := normalizeRow18 row
  let r := fixNoKodeEfekCells r 18
  let r := fixKodeEmitenCells r 18
  let r := fixPersentasePerubahanCells r 18
  fixNumericBlockByContent r 18

/-- Cell map of line 1794: `str(c).strip() if c else "-"`. -/
def assembleCell (c : String) : String := if c = "" then "-" else pyStrip c

/-- Lines 1790-1795: build one 18-cell display row. -/
def assemble18 (row : Row) : Row :=
  let r := (row ++ List.replicate 18 "").take 18
  let r := r ++ List.replicate (18 - r.length) "-"
  (r.take 18).map assembleCell

/-! ## The per-row correction loop over `data_18`
(`src/app.py` lines 1810-2141) -/

/-- `clear_cell_if_safe` (lines 1813-1817): blank a cell unless it holds a
large number. -/
def clearCellIfSafe (r : Row) (colIdx : Nat) : Row :=
  if looksLikeLargeNumber (getC r colIdx) then r else r.set colIdx "-"

/-- The percentage-relocation loop of lines 1996-2012 (fill column 13),
the `data_18` variant of `pfLoopA` using `clear_cell_if_safe`. -/
def pfLoopA18 (hasP2 : Bool) : List (Nat × String × Bool) → Row → Row
  | [], r => r
  | (pidx, pstr, pin) :: rest, r =>
    if pin && pidx = 16 && hasP2 then pfLoopA18 hasP2 rest r
    else if !pin && pidx ≠ 16 then
      let r := r.set 13 pstr
      if pidx ≠ 17 then clearCellIfSafe r pidx else r
    else if pin && pidx = 16 && !hasP2 then (r.set 13 pstr).set 16 "-"
    else pfLoopA18 hasP2 rest r

/-- The second-percentage loop of lines 2017-2031 (fill column 16), the
`data_18` variant of `pfLoopB` using `clear_cell_if_safe`. -/
def pfLoopB18 : Nat → List (Nat × String × Bool) → Row → Row
  | _, [], r => r
  | cnt, (pidx, pstr, pin) :: rest, r =>
    if pin && pidx = 13 then pfLoopB18 (cnt + 1) rest r
    else if cnt + 1 = 2 then
      let r := r.set 16 pstr
      if !pin && pidx ≠ 17 then clearCellIfSafe r pidx else r
    else pfLoopB18 (cnt + 1) rest r

/-- Lines 1826-1831 of the `data_18` loop: share-count columns must not
hold address-like text. -/
def bfAddr (r : Row) : Row :=
  [11, 12, 14, 15].foldl (fun r j =>
    let v := getC r j
    if v ≠ "-" && !looksLikeLargeNumber v && looksLikeAddressOrWrongText v then
      r.set j "-"
    else r) r

/-- Lines 1833-1841: two percentages glued in column 13. -/
def bfGlued (r : Row) : Row :=
  let v13s := getC r 13
  if v13s ≠ "" && pyContains v13s " " then
    let pcts := (pySplit v13s).filter (fun p =>
      p ≠ "" && looksLikePercentageValue p)
    if pcts.length ≥ 2 && getC r 16 = "-" then
      (r.set 13 (pcts.getD 0 "")).set 16 (pcts.getD 1 "")
    else r
  else r

/-- Lines 1843-1866: text in Persentase (1). -/
def bfTextPct1 (r : Row) : Row :=
  let val12 := getC r 13
  let isText12 := val12 ≠ "-" && !looksLikePercentageValue val12 &&
    !looksLikeLargeNumber val12 &&
    (looksLikeTextNotNumber val12 || looksLikeSecuritiesName val12 ||
      looksLikePersonName val12 || decide (val12.length > 3))
  if isText12 then
    match (List.range 18).find? (fun j =>
        j ≠ 13 && j ≠ 16 && looksLikePercentageValue (getC r j)) with
    | Option.some j => (r.set 13 (getC r j)).set j val12
    | Option.none =>
      if looksLikeSecuritiesName val12 || looksLikePersonName val12 then
        r.set 13 "-"
      else r
  else r

/-- Lines 1868-1884: split a leading percentage out of the share columns. -/
def bfLeadPct (r : Row) : Row :=
  [(11, 13), (14, 16)].foldl (fun r p =>
    let val := getC r p.1
    if val ≠ "-" then
      let parts := pySplit val
      if parts.length ≥ 2 then
        let first := pyStrip (parts.getD 0 "")
        if looksLikePercentageValue first && getC r p.2 = "-" then
          let r := r.set p.2 first
          let restParts := pyStrip (pyJoinSpace (parts.drop 1))
          if looksLikeLargeNumber restParts then r.set p.1 restParts
          else r.set p.1 (if restParts ≠ "" then restParts else "-")
        else r
      else r
    else r) r

/-- Lines 1886-1915: Persentase (1) empty or holding a large number. -/
def bfPct1Swap (r : Row) : Row :=
  let val12After := getC r 13
  let hasP2check := hasLargeData (getC r 14) || hasLargeData (getC r 15)
  if val12After = "-" ||
      (!looksLikePercentageValue val12After &&
        looksLikeLargeNumber val12After) then
    match (List.range 18).find? (fun j =>
        j ≠ 13 && j ≠ 16 && !(j = 16 && hasP2check) &&
          looksLikePercentageValue (getC r j)) with
    | Option.some j =>
      let vj := getC r j
      if val12After = "-" then
        let r := r.set 13 vj
        if j = 17 then r.set 17 "-" else clearCellIfSafe r j
      else (r.set 13 vj).set j val12After
    | Option.none => r
  else r

/-- Lines 1917-1950: conservative move of a lone percentage from (1) to
(2); the surrounding locals (`val_jumlah2_17`, `has_period1_data_18`, …)
are bound at this program point and reused stale by the later blocks, so
`bigFix` rebinds them beside this call. -/
def bfLonePct (r : Row) : Row :=
  let val12c := getC r 13
  let val15c := getC r 16
  let valJumlah1s := getC r 11
  let valSG1s := getC r 12
  let valJumlah2s := getC r 14
  let valSG2s := getC r 15
  let hasOtherPct := (List.range 18).any (fun j =>
    j ≠ 13 && j ≠ 16 && looksLikePercentageValue (getC r j))
  let hasPeriod1 := hasLargeData valJumlah1s || hasLargeData valSG1s
  let hasPeriod2 := hasLargeData valJumlah2s || hasLargeData valSG2s
  if looksLikePercentageValue val12c && val15c = "-" && hasPeriod2 &&
      !hasPeriod1 && !hasOtherPct then
    (r.set 16 val12c).set 13 "-"
  else r

/-- Lines 1952-1971: both periods have data, (1) filled, (2) empty;
`hasPeriod1`/`hasPeriod2` are the stale values bound before the lone-move
block. -/
def bfBoth (hasPeriod1 hasPeriod2 : Bool) (r : Row) : Row :=
  if hasPeriod1 && hasPeriod2 && looksLikePercentageValue (getC r 13) &&
      getC r 16 = "-" then
    let pctInCol1 := getC r 13
    match (List.range 18).find? (fun j =>
        j ≠ 13 && j ≠ 16 && looksLikePercentageValue (getC r j)) with
    | Option.some j =>
      let otherVal := getC r j
      clearCellIfSafe ((r.set 13 otherVal).set 16 pctInCol1) j
    | Option.none => r
  else r

/-- Lines 1973-1987: collect all percentages of the row
(`percentages_found_17`). -/
def bfPercList (r : Row) : List (Nat × String × Bool) :=
  let val12f := getC r 13
  let val15f := getC r 16
  (if looksLikePercentageValue val12f then [(13, val12f, true)] else []) ++
  (if looksLikePercentageValue val15f then [(16, val15f, true)] else []) ++
  ((List.range 18).filterMap (fun j =>
    if j ≠ 13 && j ≠ 16 && looksLikePercentageValue (getC r j) then
      Option.some (j, getC r j, false)
    else Option.none))

/-- Lines 1989-2012: fill an empty Persentase (1); `valJumlah2s`/`valSG2s`
are the stale period-2 values. -/
def bfFillPct1 (valJumlah2s valSG2s : String)
    (pf17 : List (Nat × String × Bool)) (r : Row) : Row :=
  if getC r 13 = "-" && pf17.length > 0 then
    let hasP2ForPct1 := hasLargeData valJumlah2s || hasLargeData valSG2s
    pfLoopA18 hasP2ForPct1 pf17 r
  else r

/-- Lines 2014-2031: fill an empty Persentase (2) with the second found
percentage. -/
def bfFillPct2 (pf17 : List (Nat × String × Bool)) (r : Row) : Row :=
  let val15After := getC r 16
  if val15After = "-" && pf17.length > 1 then pfLoopB18 0 pf17 r
  else r

/-- Lines 2033-2057: final search for Persentase (1), only when period 1
has data (stale `hasPeriod1`, stale period-2 values). -/
def bfFinal (hasPeriod1 : Bool) (valJumlah2s valSG2s : String) (r : Row) :
    Row :=
  let val12fc := getC r 13
  if val12fc = "-" && hasPeriod1 then
    let hasP2Final := hasLargeData valJumlah2s || hasLargeData valSG2s
    match (List.range 18).find? (fun j =>
        j ≠ 13 && !(j = 16 && hasP2Final) &&
          looksLikePercentageValue (getC r j)) with
    | Option.some j =>
      let r := r.set 13 (getC r j)
      if j ≠ 17 && !(j = 16 && hasP2Final) then clearCellIfSafe r j else r
    | Option.none => r
  else r

/-- Lines 2058-2065: force Persentase (1) blank when period 1 has no data
(stale `hasPeriod1`). -/
def bfForceBlank (hasPeriod1 : Bool) (r : Row) : Row :=
  let val1Now := getC r 13
  let val2Now := getC r 16
  let bothPctFilled := looksLikePercentageValue val1Now &&
    looksLikePercentageValue val2Now
  if !hasPeriod1 && !bothPctFilled then r.set 13 "-" else r

/-- Lines 2067-2080: Persentase (2) empty while period 2 has data (stale
`hasPeriod2`). -/
def bfPct2Empty (hasPeriod2 : Bool) (r : Row) : Row :=
  let val15fc := getC r 16
  if val15fc = "-" && hasPeriod2 then
    match (List.range 18).find? (fun j =>
        j ≠ 16 && j ≠ 13 && looksLikePercentageValue (getC r j)) with
    | Option.some j =>
      let r := r.set 16 (getC r j)
      if j ≠ 17 then clearCellIfSafe r j else r
    | Option.none => r
  else r

/-- Lines 2082-2104: text in Persentase (2). -/
def bfTextPct2 (r : Row) : Row :=
  let val15 := getC r 16
  let isText15 := val15 ≠ "-" && !looksLikePercentageValue val15 &&
    !looksLikeLargeNumber val15 &&
    (looksLikeTextNotNumber val15 || looksLikeSecuritiesName val15 ||
      looksLikePersonName val15 || decide (val15.length > 3))
  if isText15 then
    match (List.range 18).find? (fun j =>
        j ≠ 13 && j ≠ 16 && looksLikePercentageValue (getC r j)) with
    | Option.some j => (r.set 16 (getC r j)).set j val15
    | Option.none =>
      if !looksLikePercentageValue val15 then r.set 16 "-" else r
  else r

/-- Lines 2106-2125: text in Perubahan. -/
def bfTextPerubahan (r : Row) : Row :=
  let val16 := getC r 17
  let isText16 := looksLikeTextNotNumber val16 || looksLikePersonName val16 ||
    looksLikeSecuritiesName val16 ||
    (val16 ≠ "-" && !looksLikePercentageValue val16 &&
      !looksLikeChangeValue val16 && !looksLikeLargeNumber val16 &&
      decide (val16.length > 3))
  if isText16 then
    let found := ((List.range 18).drop 11).find? (fun j =>
      j ≠ 17 && looksLikeChangeValue (getC r j) &&
        !looksLikeLargeNumber (getC r j) &&
        !looksLikePercentageValue (getC r j))
    let r :=
      match found with
      | Option.some j => (r.set 17 (getC r j)).set j val16
      | Option.none => r
    if found.isNone || looksLikePersonName val16 ||
        looksLikeSecuritiesName val16 then r.set 17 "-"
    else r
  else r

/-- Lines 2127-2135: Perubahan must not duplicate Persentase (2). -/
def bfNoDup (r : Row) : Row :=
  let val16a := getC r 17
  let valPct2 := getC r 16
  if val16a ≠ "-" && valPct2 ≠ "-" && looksLikePercentageValue val16a &&
      pyStrip val16a = pyStrip valPct2 then
    r.set 17 "-"
  else r

/-- Lines 2137-2141: Perubahan must not be a single letter. -/
def bfSingleLetter (r : Row) : Row :=
  let v16 := getC r 17
  if v16 ≠ "" && (pyStrip v16).length = 1 && (pyStrip v16).data.all pyAlpha then
    r.set 17 "-"
  else r

/-- The body of the `for idx_row, row_18 in enumerate(data_18)` loop
(`src/app.py` lines 1819-2141), translated block by block in statement
order (each named `bf*` function is one commented source block); the stale
local variables of the source (`val_jumlah2_17`, `has_period1_data_18`,
`has_period2_data_18`, `percentages_found_17`) are bound at the same
program points and passed to the later blocks that reuse them. -/
def bigFix (row : Row) : Row :=
  -- lines 1820-1824: force exactly 18 cells
  let r := ((row ++ List.replicate (18 - row.length) "-").take 18)
  let r := bfAddr r
  let r := bfGlued r
  let r := bfTextPct1 r
  let r := bfLeadPct r
  let r := bfPct1Swap r
  -- lines 1917-1929: the locals bound before the lone-move block
  let valJumlah2s := getC r 14
  let valSG2s := getC r 15
  let hasPeriod1 := hasLargeData (getC r 11) || hasLargeData (getC r 12)
  let hasPeriod2 := hasLargeData valJumlah2s || hasLargeData valSG2s
  let r := bfLonePct r
  let r := bfBoth hasPeriod1 hasPeriod2 r
  let pf17 := bfPercList r
  let r := bfFillPct1 valJumlah2s valSG2s pf17 r
  let r := bfFillPct2 pf17 r
  let r := bfFinal hasPeriod1 valJumlah2s valSG2s r
  let r := bfForceBlank hasPeriod1 r
  let r := bfPct2Empty hasPeriod2 r
  let r := bfTextPct2 r
  let r := bfTextPerubahan r
  let r := bfNoDup r
  bfSingleLetter r


/-- One step of the pass at lines 2145-2162 (same-`No` percentage
mis-column swap into the upper row). -/
def passAStep (d : List Row) (i : Nat) : List Row :=
  let ru := d.getD i []
  let rl := d.getD (i + 1) []
  let noU := getC ru 0
  let noL := getC rl 0
  if noU ≠ noL || noU = "-" then d
  else
    let p1u := getC ru 13
    let p2u := getC ru 16
    let p1l := getC rl 13
    let p2l := getC rl 16
    if looksLikePercentageValue p1u && p2u = "-" &&
        looksLikePercentageValue p1l && looksLikePercentageValue p2l &&
        pyStrip p1u = pyStrip p2l then
      d.set i ((ru.set 13 p1l).set 16 p1u)
    else d

/-- Pass of lines 2145-2162. -/
def passA (d : List Row) : List Row :=
  (List.range (d.length - 1)).foldl passAStep d

/-- One step of the pass at lines 2164-2181 (fill the upper row's empty
percentage cells from the lower row of the same `No`). -/
def passBStep (d : List Row) (i : Nat) : List Row :=
  let ru := d.getD i []
  let rl := d.getD (i + 1) []
  let noU := getC ru 0
  let noL := getC rl 0
  if noU ≠ noL || noU = "-" then d
  else
    let p1u := getC ru 13
    let p2u := getC ru 16
    let p1l := getC rl 13
    let p2l := getC rl 16
    let ru := if p1u = "-" && looksLikePercentageValue p1l then ru.set 13 p1l
      else ru
    let ru := if p2u = "-" && looksLikePercentageValue p2l then ru.set 16 p2l
      else ru
    d.set i ru

/-- Pass of lines 2164-2181. -/
def passB (d : List Row) : List Row :=
  (List.range (d.length - 1)).foldl passBStep d

/-- Sort key of line 2265: `(0 if is_lower else 1, 0 if col <= 10 else 1,
col)`. -/
def keyLVC (x : Nat × String × Bool) : Nat × Nat × Nat :=
  ((if x.2.2 then 0 else 1), (if x.1 ≤ 10 then 0 else 1), x.1)

/-- Strict lexicographic order on sort keys. -/
def keyLt (a b : Nat × Nat × Nat) : Bool :=
  a.1 < b.1 || (a.1 = b.1 && (a.2.1 < b.2.1 || (a.2.1 = b.2.1 && a.2.2 < b.2.2)))

/-- Stable insertion into a key-sorted list (ties keep original order). -/
def insertByKey (key : α → Nat × Nat × Nat) (x : α) : List α → List α
  | [] => [x]
  | y :: ys =>
    if keyLt (key y) (key x) then y :: insertByKey key x ys else x :: y :: ys

/-- Stable sort by key, modelling Python's stable `list.sort`. -/
def sortByKey (key : α → Nat × Nat × Nat) (l : List α) : List α :=
  l.foldr (insertByKey key) []

/-- Lines 2243-2249: the following rows that belong to the same logical
record (blank `No` or equal `No`). -/
def takeWhileFrom (d : List Row) (start : Nat) (noUpper : String) : List Row :=
  (d.drop start).takeWhile (fun row =>
    let nn := getC row 0
    !(nn ≠ "" && nn ≠ "-" && nn ≠ noUpper))

/-- One "Jumlah from Saham Gabungan" fill of lines 2203-2230 (the four
symmetric blocks differ only in indices and compared values): fill the
lower row's empty share-count cell from a Saham Gabungan value unless it
merely mirrors the upper row. -/
def pcFill (jcur sg eq1 eq2 ju sgu : String) (both : Bool) (idx : Nat)
    (rowLower : Row) : Row × String :=
  if jcur = "-" && sg ≠ "-" && looksLikeLargeNumber sg then
    if sg = eq1 || sg = eq2 then (rowLower, jcur)
    else if (ju ≠ "-" && sg ≠ sgu) || both then (rowLower.set idx sg, sg)
    else (rowLower, jcur)
  else (rowLower, jcur)

/-- Lines 2239-2263: collect the large numbers and change-like values of
the scanned rows. -/
def pcCollect (rowsToScan : List (Row × Bool)) (j1u j2u : String) :
    List (Nat × String × Bool) × List String :=
  rowsToScan.foldl (fun acc rs =>
    (List.range 18).foldl (fun (acc : List (Nat × String × Bool) × List String) c =>
      if !rs.2 && (c = 11 || c = 14) then acc
      else
        let v := getC rs.1 c
        if v = "-" then acc
        else
          let acc1 :=
            if looksLikeLargeNumber v && !looksLikePercentageValue v then
              if !rs.2 && j1u ≠ "-" && (v = j1u || v = j2u) then acc.1
              else acc.1 ++ [(c, v, rs.2)]
            else acc.1
          let acc2 :=
            if c ≠ 17 && looksLikeChangeValue v && !looksLikeLargeNumber v
            then acc.2 ++ [v]
            else acc.2
          (acc1, acc2)) acc) (([], []) : List (Nat × String × Bool) × List String)

/-- Lines 2283-2308: fill the needed Jumlah cells from the collected
large-value candidates. -/
def pcCandidate (j1u j2u sg1u sg2u : String) (needJ1 needJ2 : Bool)
    (largeVals : List String) (rowLower : Row) : Row :=
  let okJ1 := fun v => !(v = j1u || v = j2u || v = sg1u || v = sg2u)
  let okJ2 := fun v => !(v = j1u || v = sg1u || v = sg2u)
  if needJ1 || needJ2 then
    let candidate :=
      match (if needJ1 then largeVals.find? okJ1 else Option.none) with
      | Option.some v => Option.some v
      | Option.none => if needJ2 then largeVals.find? okJ2 else Option.none
    match candidate with
    | Option.none => rowLower
    | Option.some cand =>
      let rowLower := if needJ1 then rowLower.set 11 cand else rowLower
      if needJ2 then
        if needJ1 && largeVals.length ≥ 2 then
          let other :=
            (largeVals.find? (fun x => x ≠ cand && okJ2 x)).getD cand
          rowLower.set 14 other
        else rowLower.set 14 cand
      else rowLower
  else rowLower

/-- Lines 2309-2317: fall back to the upper row's own Jumlah (2) or Saham
Gabungan (2). -/
def pcJ2Direct (j1u j2u sg2u : String) (needJ2 : Bool) (rowLower : Row) :
    Row :=
  if needJ2 && getC rowLower 14 = "-" then
    if j1u ≠ "-" && j2u ≠ "-" && looksLikeLargeNumber j2u then
      rowLower.set 14 j2u
    else if j1u ≠ "-" && sg2u ≠ "-" && looksLikeLargeNumber sg2u then
      rowLower.set 14 sg2u
    else rowLower
  else rowLower

/-- Lines 2318-2337: fill a needed Perubahan from the collected change-like
values, defaulting to `"0"` under a filled upper Perubahan. -/
def pcNeedP (rowUpper : Row) (noL : String) (needP : Bool)
    (changeVals : List String) (rowLower : Row) : Row :=
  if needP then
    let noLowerStr := if noL = "" then "" else pyStrip noL
    let found := changeVals.find? (fun v =>
      let vs := pyStrip v
      !(noLowerStr ≠ "" && vs = noLowerStr) && decide (vs.length ≤ 4) &&
        pyIsDigit vs)
    let filled := found.isSome
    let rowLower :=
      match found with
      | Option.some v => rowLower.set 17 (pyStrip v)
      | Option.none => rowLower
    let plUpper := getC rowUpper 17
    let upperEmpty := plUpper = "" || pyStrip plUpper = "-"
    if !filled && getC rowLower 17 = "-" then
      if !upperEmpty then rowLower.set 17 "0" else rowLower
    else rowLower
  else rowLower

/-- Lines 2338-2342: a single-letter Perubahan becomes `"0"`. -/
def pcLetterFix (rowLower : Row) : Row :=
  let plNow := getC rowLower 17
  if plNow ≠ "" && (pyStrip plNow).length = 1 &&
      (pyStrip plNow).data.all pyAlpha then
    rowLower.set 17 "0"
  else rowLower

/-- Lines 2231-2342: the remainder of the pass-C step after the four
Saham-Gabungan fills — decide what the lower row still needs, collect
candidate values from the record's rows (`pcCollect`), and fill
Jumlah (1)/(2) and Perubahan through the stage functions above. -/
def pcTail (d : List Row) (i : Nat) (rowUpper : Row)
    (noU noL j1u j2u sg1u sg2u : String) (needJ1 needJ2 needP : Bool)
    (rowLower : Row) : List Row :=
  if !(needJ1 || needJ2 || needP) then d.set (i + 1) rowLower
  else
    -- lines 2239-2263: collect large numbers and change-like values
    let rowsToScan : List (Row × Bool) :=
      (rowLower, true) :: (takeWhileFrom d (i + 2) noU).map (fun r => (r, true))
        ++ [(rowUpper, false)]
    let collected := pcCollect rowsToScan j1u j2u
    -- lines 2265-2277
    let largeVals := (sortByKey keyLVC collected.1).map (fun x => x.2.1)
    let changeVals := collected.2
    -- lines 2278-2282
    let (rowLower, needJ1) :=
      if j1u = "-" then (rowLower.set 11 "-", false) else (rowLower, needJ1)
    let rowLower := pcCandidate j1u j2u sg1u sg2u needJ1 needJ2 largeVals
      rowLower
    let rowLower := pcJ2Direct j1u j2u sg2u needJ2 rowLower
    let rowLower := pcNeedP rowUpper noL needP changeVals rowLower
    d.set (i + 1) (pcLetterFix rowLower)

/-- One step of the pass at lines 2184-2342 (fill the lower row of a
same-`No` pair), translated in statement order; the four symmetric
Saham-Gabungan fills are the `pcFill` instances and the remainder of the
step is `pcTail`. -/
def passCStep (d : List Row) (i : Nat) : List Row :=
  let rowUpper := d.getD i []
  let rowLower := d.getD (i + 1) []
  let noU := getC rowUpper 0
  let noL := getC rowLower 0
  if noU ≠ noL || noU = "-" then d
  else
    let j1l := getC rowLower 11
    let j2l := getC rowLower 14
    let pl := getC rowLower 17
    let j1u := getC rowUpper 11
    let j2u := getC rowUpper 14
    let sg1l := getC rowLower 12
    let sg2l := getC rowLower 15
    let sg1u := getC rowUpper 12
    let sg2u := getC rowUpper 15
    let bothUpperEmpty := j1u = "-" && j2u = "-"
    -- lines 2203-2209
    let (rowLower, j1l) := pcFill j1l sg1l j2u j1u j1u sg1u bothUpperEmpty
      11 rowLower
    -- lines 2210-2216
    let (rowLower, j2l) := pcFill j2l sg2l j1u j2u j2u sg2u bothUpperEmpty
      14 rowLower
    -- lines 2217-2223
    let (rowLower, j1l) := pcFill j1l sg2l j2u j1u j1u sg2u bothUpperEmpty
      11 rowLower
    -- lines 2224-2230
    let (rowLower, j2l) := pcFill j2l sg1l j1u j2u j2u sg1u bothUpperEmpty
      14 rowLower
    pcTail d i rowUpper noU noL j1u j2u sg1u sg2u (j1l = "-") (j2l = "-")
      (pl = "-") rowLower

/-- Pass of lines 2184-2342. -/
def passC (d : List Row) : List Row :=
  (List.range (d.length - 1)).foldl passCStep d

/-- `dict.fromkeys`-style de-duplication preserving first occurrences
(line 2384). -/
def dedupKeepFirst (l : List String) : List String :=
  l.foldl (fun acc v => if acc.contains v then acc else acc ++ [v]) []

/-- Ordered-dict append: `setdefault(no, []).append(idx)` preserving key
insertion order (lines 2347-2355). -/
def assocAppend (m : List (String × List Nat)) (k : String) (v : Nat) :
    List (String × List Nat) :=
  match m with
  | [] => [(k, [v])]
  | (k', vs) :: rest =>
    if k' = k then (k', vs ++ [v]) :: rest else (k', vs) :: assocAppend rest k v

/-- Lines 2346-2355: group the row indices by sequence number (rows with a
blank `No` join the previous row's group). -/
def buildNoIndices (d : List Row) : List (String × List Nat) :=
  (List.range d.length).foldl (fun m idx =>
    let no := getC (d.getD idx []) 0
    if no ≠ "" && no ≠ "-" then assocAppend m no idx
    else if idx > 0 then
      let prevNo := getC (d.getD (idx - 1) []) 0
      if prevNo ≠ "" && prevNo ≠ "-" then assocAppend m prevNo idx else m
    else m) []

/-- Lines 2360-2372: all large shape-matching values of the group's rows,
in order. -/
def pdLigCollect (d : List Row) (indices : List Nat) : List String :=
  indices.foldl (fun acc i =>
    (List.range 18).foldl (fun acc c =>
      let v := getC (d.getD i []) c
      if v = "-" then acc
      else if looksLikeLargeNumber v && !looksLikePercentageValue v
      then acc ++ [v]
      else acc) acc) []

/-- Lines 2383-2394: the Jumlah (2) candidate of a duplicate row. -/
def pdCandJ2 (j1First j2First sg1First sg2First : String) (isDup : Bool)
    (lig : List String) (candJ1 : Option String) : Option String :=
  if j1First = "-" && j2First ≠ "" && lig.contains j2First && !isDup then
    Option.some j2First
  else
    match lig.find? (fun v =>
        v ≠ j1First && v ≠ j2First && v ≠ sg1First && v ≠ sg2First) with
    | Option.some v => Option.some v
    | Option.none => candJ1

/-- The per-group body of the final pass (lines 2356-2399). -/
def passDGroup (d : List Row) (indices : List Nat) : List Row :=
  match indices with
  | [] => d
  | firstIdx :: restIdx =>
    if restIdx = [] then d
    else
      let firstRow := d.getD firstIdx []
      let j1First := getC firstRow 11
      let j2First := getC firstRow 14
      let sg1First := getC firstRow 12
      let sg2First := getC firstRow 15
      restIdx.foldl (fun d idx =>
        let row := d.getD idx []
        let j1 := getC row 11
        let j2 := getC row 14
        let isDup := (j1 = j1First && j2 = j2First) &&
          (j1First ≠ "-" || j2First ≠ "-")
        let needF1 := j1 = "-" || isDup
        let needF2 := j2 = "-" || isDup
        if !needF1 && !needF2 then d
        else
          let lig := dedupKeepFirst (pdLigCollect d indices)
          let candJ1 := lig.find? (fun v => v ≠ j1First && v ≠ j2First)
          let row :=
            match candJ1 with
            | Option.some c1 => if needF1 then row.set 11 c1 else row
            | Option.none => row
          let d := d.set idx row
          if needF2 then
            match pdCandJ2 j1First j2First sg1First sg2First isDup lig
              candJ1 with
            | Option.some c2 => d.set idx (row.set 14 c2)
            | Option.none => d
          else d) d

/-- Pass of lines 2344-2399. -/
def passD (d : List Row) : List Row :=
  (buildNoIndices d).foldl (fun d g => passDGroup d g.2) d

/-- The full row-repair cascade of `build_table_with_header_from_pdf` from
the assembled `data_rows` to the returned `data` value (`src/app.py`
lines 1749-2399): per-row normalization and correctors, continuation-row
merging, duplicate-`No` reconciliation, a second numeric-block repair, the
18-cell display assembly, the per-row correction loop, and the four
cross-row passes. -/
def repairCascade (rows : List Row) : List Row :=
  let fd := rows.map perRowRepairs
  let fd := mergeContinuationRows fd 18
  let fd := dedupeRowsFillKodeEfek fd 18
  let fd := fd.map (fun r => fixNumericBlockByContent r 18)
  let d18 := fd.map assemble18
  let d18 := d18.map bigFix
  let d18 := passA d18
  let d18 := passB d18
  let d18 := passC d18
  passD d18

/-! ## `_apply_raw_blue_fix_same_no_baris_bawah`
(`src/app.py` lines 2646-2947) -/

/-- Decimal digit character. -/
def natDigitChar (n : Nat) : Char := Char.ofNat ('0'.toNat + n)

/-- Decimal rendering of a natural number (fuel-based, kernel-computable). -/
def natToStringAux : Nat → Nat → List Char
  | 0, _ => []
  | fuel + 1, n =>
    if n < 10 then [natDigitChar n]
    else natToStringAux fuel (n / 10) ++ [natDigitChar (n % 10)]

/-- `str(n)` for a natural number. -/
def natToString (n : Nat) : String := ⟨natToStringAux (n + 1) n⟩

/-- `str(n)` for an integer. -/
def intToString (n : ℤ) : String :=
  if n < 0 then "-" ++ natToString n.natAbs else natToString n.natAbs

/-- Python `int(s)` for an optionally signed digit string, `Option.none` on
`ValueError`. -/
def pyIntStr (s : String) : Option ℤ :=
  let t := pyStripL s.data
  match t with
  | '-' :: rest =>
    if rest ≠ [] && rest.all pyDigit then Option.some (-(parseNatL rest : ℤ))
    else Option.none
  | '+' :: rest =>
    if rest ≠ [] && rest.all pyDigit then Option.some (parseNatL rest)
    else Option.none
  | rest =>
    if rest ≠ [] && rest.all pyDigit then Option.some (parseNatL rest)
    else Option.none

/-- `_norm_num` (lines 2801-2805): canonical decimal form of a number
string, or the stripped string when parsing fails. -/
def pyNormNum (s : String) : String :=
  match pyIntStr (pyReplaceC (pyReplaceC s ',' "") ' ' "") with
  | Option.some n => intToString n
  | Option.none => pyStrip s

/-- `s.lstrip("-") == s`: the string has no leading dash. -/
def noLeadingDash (s : String) : Bool := s.data.head? ≠ Option.some '-'

/-- `_column_index_by_header` (`src/app.py` lines 2646-2655). -/
def columnIndexByHeader (headerRow : List String) (kws : List String) :
    Option Nat :=
  (headerRow.enum.find? (fun p =>
    p.2 ≠ "" &&
      kws.any (fun kw => pyContains (pyLower (pyStrip p.2)) (pyLower kw)))).map
    (fun p => p.1)

/-- The six column indices resolved at lines 2678-2700. -/
structure RawFixIdx where
  /-- `idx_no`. -/
  no : Nat
  /-- `idx_j1`. -/
  j1 : Nat
  /-- `idx_j2`. -/
  j2 : Nat
  /-- `idx_perubahan`. -/
  per : Nat
  /-- `idx_saham_gab1`. -/
  sg1 : Nat
  /-- `idx_saham_gab2`. -/
  sg2 : Nat

/-- Lines 2678-2700: resolve indices from the header row names when
available, with the fixed fallback positions. -/
def rawFixIndices (headerRow : List String) (ncols : Nat) : RawFixIdx :=
  if headerRow ≠ [] && headerRow.length ≥ ncols then
    { no := (columnIndexByHeader headerRow ["no", "no."]).getD 0,
      j1 := (columnIndexByHeader headerRow
        ["jumlah saham (1)", "jumlah saham(1)"]).getD 11,
      j2 := (columnIndexByHeader headerRow
        ["jumlah saham (2)", "jumlah saham(2)"]).getD 14,
      per := (columnIndexByHeader headerRow ["perubahan"]).getD 17,
      sg1 := (columnIndexByHeader headerRow
        ["saham gabungan per investor (1)", "saham gabungan (1)"]).getD 12,
      sg2 := (columnIndexByHeader headerRow
        ["saham gabungan per investor (2)", "saham gabungan (2)"]).getD 15 }
  else { no := 0, j1 := 11, j2 := 14, per := 17, sg1 := 12, sg2 := 15 }

/-- `_collect_change_like` (lines 2776-2794): the 3-4 digit change-like
values of `lines[start:end]`. -/
def collectChangeLike (lines : List String) (start endIdx : Nat) :
    List (Nat × String) :=
  ((List.range endIdx).drop start).filterMap (fun i =>
    let w := pyStrip (lines.getD i "")
    if w = "" || w = "-" then Option.none
    else
      let wNorm := pyReplaceDotOnce (pyReplaceC (pyReplaceC w ',' "") ' ' "")
      if !pyIsDigit wNorm then Option.none
      else
        let v := parseNat wNorm
        if looksLikeLargeNumber w || looksLikePercentageValue w then Option.none
        else if 100 ≤ v && v ≤ 9999 then Option.some (i, natToString v)
        else Option.none)

/-- Lines 2773-2812 of the no-triple fallback: the filtered change-like
value list (`change_like`, after the next-`No` filter and the trimming of
surrounding values). -/
def rffCl (lines : List String) (posNo segEnd : Nat)
    (nextNoStr : Option String) : List (Nat × String) :=
  let cl0 := collectChangeLike lines (posNo + 1) segEnd
  let cl1 :=
    if cl0 = [] then
      collectChangeLike lines (posNo + 1) (min (segEnd + 80) lines.length)
    else cl0
  let cl2 :=
    match nextNoStr with
    | Option.some nn =>
      let nnN := pyNormNum nn
      cl1.filter (fun p => pyNormNum p.2 ≠ nnN)
    | Option.none => cl1
  let cl3 := if cl2.length ≥ 3 then (cl2.drop 1).dropLast else cl2
  if cl3.length = 2 then cl3.drop 1 else cl3

/-- Lines 2820-2839: write the fallback values into the rows. -/
def rffApply (ix : RawFixIdx) (ncols : Nat) (d : List Row)
    (firstIdx secondIdx : Nat) (firstRow : Row) (cl : List (Nat × String)) :
    List Row :=
  let valFirst := ((cl.headD (0, "")).2 : String)
  let valLast := (((cl.getLast?).getD (0, "")).2 : String)
  let valLast := if cl.length = 1 then valFirst else valLast
  let curPer := pyOr (pyStrip (firstRow.getD ix.per "")) "-"
  let pair :=
    if curPer = "-" then
      let fr := firstRow.set ix.per
        (if noLeadingDash valFirst then "-" ++ valFirst else valFirst)
      (d.set firstIdx fr, fr)
    else (d, firstRow)
  let d := pair.1
  let firstRow := pair.2
  let row2 := (d.getD secondIdx []) ++
    List.replicate (ncols - (d.getD secondIdx []).length) "-"
  let row2 := (row2.set ix.j1 "-").set ix.j2 valLast
  let row2 := row2.set ix.per (pyOr (pyStrip (row2.getD ix.per "")) "-")
  let row2 :=
    if ix.sg1 < ncols then
      row2.set ix.sg1 (pyOr (pyStrip (firstRow.getD ix.sg1 "")) "-")
    else row2
  let row2 :=
    if ix.sg2 < ncols then
      row2.set ix.sg2 (pyOr (pyStrip (firstRow.getD ix.sg2 "")) "-")
    else row2
  d.set secondIdx row2

/-- Lines 2848-2864: the replacement candidates scanned when the lower
row's Jumlah (2) merely mirrors the upper row (`j1FirstN`, `j2FirstN` and
`sg2FirstN` are the comma/space-normalised comparison values). -/
def rffLis (lines : List String) (posNo segEnd segEndExt : Nat)
    (j1FirstN j2FirstN sg2FirstN : String) : List (Nat × String) :=
  ((List.range segEndExt).drop (posNo + 1)).filterMap
    (fun ii =>
      let w := pyStrip (lines.getD ii "")
      if w = "" || !looksLikeLargeNumber w ||
          looksLikePercentageValue w then Option.none
      else
        let wN := pyReplaceC (pyReplaceC w ',' "") ' ' ""
        if wN = j2FirstN || wN = sg2FirstN || wN = j1FirstN then
          Option.none
        else if segEnd ≤ ii && sg2FirstN ≠ "" &&
            decide (sg2FirstN.length ≥ 4) && decide (wN.length ≥ 4) &&
            wN.data.take 4 ≠ sg2FirstN.data.take 4 then Option.none
        else Option.some (ii, w))

/-- Lines 2840-2890: the branch where the lower row already holds a large
Jumlah (2). -/
def rffLarge (lines : List String) (ix : RawFixIdx) (ncols : Nat)
    (d : List Row) (secondIdx : Nat) (firstRow : Row)
    (j1First j2First : String) (posNo segEnd : Nat) : List Row :=
  let row2 := (d.getD secondIdx []) ++
    List.replicate (ncols - (d.getD secondIdx []).length) "-"
  let j1current := pyOr (pyStrip (row2.getD ix.j1 "")) "-"
  let j2val := pyOr (pyStrip (row2.getD ix.j2 "")) "-"
  let sg2First :=
    if ix.sg2 < firstRow.length then
      pyOr (pyStrip (firstRow.getD ix.sg2 "")) "-"
    else "-"
  let nrm := fun (s : String) => pyReplaceC (pyReplaceC s ',' "") ' ' ""
  let j2valN := nrm j2val
  let j2FirstN := nrm j2First
  let sg2FirstN := nrm sg2First
  let j2EqUpper := j2valN ≠ "" && (j2valN = j2FirstN || j2valN = sg2FirstN)
  let pair :=
    if j2EqUpper then
      let segEndExt := min (segEnd + 40) lines.length
      let lis := rffLis lines posNo segEnd segEndExt (nrm j1First) j2FirstN
        sg2FirstN
      match lis.getLast? with
      | Option.some p =>
        let r := row2.set ix.j2 p.2
        (d.set secondIdx r, r)
      | Option.none => (d, row2)
    else (d, row2)
  let d := pair.1
  let row2 := pair.2
  let j1EqJ2 := (j1current = j2val) ||
    (j1current ≠ "" && j2val ≠ "" && looksLikeLargeNumber j1current &&
      looksLikeLargeNumber j2val && nrm j1current = nrm j2val)
  if j1current ≠ "-" && j1EqJ2 then d.set secondIdx (row2.set ix.j1 "-")
  else d

/-- The no-triple fallback of the raw-blue fix (lines 2773-2907). -/
def rawFixFallback (lines : List String) (ix : RawFixIdx) (ncols : Nat)
    (d : List Row) (firstIdx secondIdx : Nat) (firstRow : Row)
    (j1First j2First : String) (posNo segEnd : Nat)
    (nextNoStr : Option String) : List Row :=
  let cl := rffCl lines posNo segEnd nextNoStr
  if cl = [] then d
  else
    let row2check := d.getD secondIdx []
    let j2current := pyOr (pyStrip (row2check.getD ix.j2 "")) "-"
    if !looksLikeLargeNumber j2current then
      rffApply ix ncols d firstIdx secondIdx firstRow cl
    else
      rffLarge lines ix ncols d secondIdx firstRow j1First j2First posNo
        segEnd

/-- Lines 2918-2932 of the triple write: the small-`pVal` special case
against the plain triple write; returns the updated table, the (possibly
updated) first row and the new second row. -/
def rfgTrip (ix : RawFixIdx) (d : List Row) (firstIdx : Nat)
    (firstRow : Row) (row : Row) (j1Val j2Val pVal : String) :
    List Row × Row × Row :=
  let pValSmall := looksLikeChangeValue pVal &&
    !looksLikeLargeNumber pVal && pyStrip pVal ≠ "" &&
    pyStrip pVal ≠ "-" && pyStrip pVal ≠ "0"
  let j1Empty := pyOr (pyStrip (row.getD ix.j1 "")) "-" = "-"
  let j2Empty := pyOr (pyStrip (row.getD ix.j2 "")) "-" = "-"
  if pValSmall && j1Empty && j2Empty then
    let curPer := pyOr (pyStrip (firstRow.getD ix.per "")) "-"
    let pair :=
      if curPer = "-" then
        let fr := firstRow.set ix.per
          (if noLeadingDash pVal then "-" ++ pVal else pVal)
        (d.set firstIdx fr, fr)
      else (d, firstRow)
    (pair.1, pair.2,
      ((row.set ix.j1 "-").set ix.j2 (pyStrip pVal)).set ix.per "0")
  else
    (d, firstRow, ((row.set ix.j1 j1Val).set ix.j2 j2Val).set ix.per pVal)

/-- Lines 2909-2940: write a found triple `(j1Val, j2Val, pVal)` into the
second row (with the small-`pVal` special case, `rfgTrip`) and mirror the
upper row's Saham Gabungan cells. -/
def rfgTriple (ix : RawFixIdx) (ncols : Nat) (d : List Row)
    (firstIdx secondIdx : Nat) (firstRow : Row)
    (j1Val j2Val pVal : String) : List Row :=
  let row := (d.getD secondIdx []) ++
    List.replicate (ncols - (d.getD secondIdx []).length) "-"
  let trip := rfgTrip ix d firstIdx firstRow row j1Val j2Val pVal
  let d := trip.1
  let firstRow := trip.2.1
  let row := trip.2.2
  let row :=
    if ix.sg1 < ncols then
      row.set ix.sg1 (pyOr (pyStrip (firstRow.getD ix.sg1 "")) "-")
    else row
  let row :=
    if ix.sg2 < ncols then
      row.set ix.sg2 (pyOr (pyStrip (firstRow.getD ix.sg2 "")) "-")
    else row
  d.set secondIdx row

/-- The per-`No` body of the raw-blue fix (lines 2722-2947). -/
def rawFixGroup (lines : List String) (ix : RawFixIdx) (ncols : Nat)
    (d : List Row) (no : String) (indices : List Nat) : List Row :=
  match indices with
  | [] => d
  | [_] => d
  | firstIdx :: secondIdx :: _ =>
    let firstRow := d.getD firstIdx []
    let j1First := pyOr (pyStrip (firstRow.getD ix.j1 "")) "-"
    let j2First := pyOr (pyStrip (firstRow.getD ix.j2 "")) "-"
    match (List.range lines.length).find? (fun i =>
        pyStrip (lines.getD i "") = no) with
    | Option.none => d
    | Option.some posNo =>
      let segSearch := ((List.range lines.length).drop (posNo + 1)).find?
        (fun j =>
          let w := pyStrip (lines.getD j "")
          looksLikeNo w && w ≠ no)
      let segmentEnd := segSearch.getD lines.length
      let nextNoStr : Option String :=
        segSearch.map (fun j => pyStrip (lines.getD j ""))
      let segEnd := min segmentEnd lines.length
      let iEnd :=
        if lines.length ≥ 2 then min (segEnd - 1) (lines.length - 2)
        else posNo + 1
      let candidates := ((List.range iEnd).drop (posNo + 1)).filterMap
        (fun i =>
          let v1 := pyStrip (lines.getD i "")
          let v2 := pyStrip (lines.getD (i + 1) "")
          let v3 := pyStrip (lines.getD (i + 2) "")
          let ok1 := looksLikeLargeNumber v1 && !looksLikePercentageValue v1
          let ok2 := looksLikeLargeNumber v2 && !looksLikePercentageValue v2
          let ok3 := looksLikeChangeValue v3
          if !ok1 || !ok2 || !ok3 then Option.none
          else if v1 ≠ j1First || v2 ≠ j2First then Option.some (i, v3)
          else Option.none)
      let tripleStart :=
        match candidates.find? (fun c => pyStrip c.2 = "0") with
        | Option.some c => Option.some c.1
        | Option.none => (candidates.getLast?).map (fun c => c.1)
      match tripleStart with
      | Option.none =>
        rawFixFallback lines ix ncols d firstIdx secondIdx firstRow j1First
          j2First posNo segEnd nextNoStr
      | Option.some ts =>
        rfgTriple ix ncols d firstIdx secondIdx firstRow (lines.getD ts "")
          (lines.getD (ts + 1) "") (lines.getD (ts + 2) "")

/-- `_apply_raw_blue_fix_same_no_baris_bawah` (`src/app.py` lines
2658-2947): fill the second physical row of each multi-row `No` from the
raw left-to-right blue token stream. -/
def applyRawBlueFix (dataRows : List Row) (rawBlueLines : List String)
    (headerRow : List String) : List Row :=
  if dataRows = [] || rawBlueLines = [] || dataRows.length < 2 then dataRows
  else
    let ncols := (dataRows.map List.length).foldl max 0
    if ncols < 12 then dataRows
    else
      let ix := rawFixIndices headerRow ncols
      if ncols ≤ max ix.j1 (max ix.j2 ix.per) then dataRows
      else
        let lines := rawBlueLines.map pyStrip
        let dm := (List.range dataRows.length).foldl
          (fun (p : List Row × List (String × List Nat)) rowIdx =>
            let d := p.1
            let row := d.getD rowIdx []
            let row := row ++ List.replicate (ncols - row.length) "-"
            let d := d.set rowIdx row
            let no := pyStrip (row.getD ix.no "")
            if no ≠ "" && no ≠ "-" then (d, assocAppend p.2 no rowIdx)
            else if rowIdx > 0 then
              let prevNo := pyStrip ((d.getD (rowIdx - 1) []).getD ix.no "")
              if prevNo ≠ "" && prevNo ≠ "-" then
                (d, assocAppend p.2 prevNo rowIdx)
              else (d, p.2)
            else (d, p.2)) (dataRows, [])
        dm.2.foldl (fun d g => rawFixGroup lines ix ncols d g.1 g.2) dm.1

/-- The structured-result branch of `extract_blue` (`src/app.py` lines
2988-3001): run the repair cascade (inside
`build_table_with_header_from_pdf`), apply the raw-blue fix, and emit the
final table — the header row first, every data row padded/trimmed to the
header's column count. -/
def extractBlueTable (dataRows : List Row) (rawBlueLines : List String) :
    List Row :=
  let headerRow := TEMPLATE_HEADER_18
  let data := applyRawBlueFix (repairCascade dataRows) rawBlueLines headerRow
  let targetCols := headerRow.length
  let headerRow := (headerRow ++ List.replicate targetCols "").take targetCols
  headerRow :: data.map (fun row =>
    let r := (row ++ List.replicate targetCols "-").take targetCols
    let r := r ++ List.replicate (targetCols - r.length) "-"
    r.take targetCols)

/-! ## Merged-cell propagation (`src/app.py` lines 1647-1737) -/

/-- One detected vertically-merged span (the entries of
`merged_cells_info`, lines 1553-1560). -/
structure MergeInfo where
  /-- Assigned column index. -/
  col : Nat
  /-- Top of the span's bounding box. -/
  y0 : PyQ
  /-- Bottom of the span's bounding box. -/
  y1 : PyQ
  /-- The span's text. -/
  data : String
  /-- Page number. -/
  page : Int
  /-- Row clusters whose `y` the span overlaps. -/
  overlappingClusters : List PyQ

/-- One entry of `raw_data_rows`: `(cluster_y, cells, page)`. -/
structure RawRow where
  /-- Row cluster `y`. -/
  clusterY : PyQ
  /-- Cell contents. -/
  cells : Row
  /-- Page number. -/
  page : Int

/-- Placeholder raw row (out-of-range accesses never occur in the loops
below, which iterate over valid indices). -/
def rawRow0 : RawRow := ⟨PyQ.ofInt 0, [], 0⟩

/-- The row's cell list padded with empties up to the assigned column
(line 1670-1672). -/
def mergeRowCells (info : MergeInfo) (rr : RawRow) : Row :=
  rr.cells ++ List.replicate (info.col + 1 - rr.cells.length) ""

/-- The `is_overlapping` test of the propagation loop (lines 1658-1667). -/
def mergeIsOverlapping (info : MergeInfo) (avgRowGap : PyQ)
    (rr : RawRow) : Bool :=
  if info.overlappingClusters ≠ [] then
    info.overlappingClusters.any (fun cy => PyQ.qeq cy rr.clusterY)
  else
    let tol := avgRowGap.mul ⟨4, 10⟩
    PyQ.le (info.y0.sub tol) rr.clusterY &&
      PyQ.le rr.clusterY (info.y1.add tol)

/-- Lines 1678-1710: rows after the first inside a merge block keep their
own numeric values (`is_second_or_later_row_in_merge`). -/
def mergeIsSecond (info : MergeInfo) (rows : List RawRow)
    (rowIdx : Nat) : Bool :=
  let rr := rows.getD rowIdx rawRow0
  let rowCells := mergeRowCells info rr
  if 11 ≤ info.col && info.col ≤ 17 then
    let is1 :=
      match info.overlappingClusters.findIdx?
          (fun cy => PyQ.qeq cy rr.clusterY) with
      | Option.some p => decide (p > 0)
      | Option.none => false
    if !is1 && rowIdx > 0 then
      let prev := rows.getD (rowIdx - 1) rawRow0
      let one := PyQ.ofInt 1
      let is2 := prev.page = rr.page &&
        PyQ.le (info.y0.sub one) prev.clusterY &&
        PyQ.le prev.clusterY (info.y1.add one) &&
        PyQ.le (info.y0.sub one) rr.clusterY &&
        PyQ.le rr.clusterY (info.y1.add one) &&
        PyQ.lt prev.clusterY rr.clusterY
      let is3 := prev.page = rr.page && PyQ.qeq prev.clusterY rr.clusterY
      let nos :=
        if prev.page = rr.page && prev.cells ≠ [] && rowCells.length > 0
        then
          let noPrev := pyStrip (prev.cells.getD 0 "")
          let noCur := pyStrip (rowCells.getD 0 "")
          (noPrev ≠ "" && noPrev = noCur,
            noPrev ≠ "" && (noCur = "" || noCur = "-"))
        else (false, false)
      is1 || is2 || is3 || nos.1 || nos.2
    else is1
  else false

/-- Lines 1712-1718: never overwrite a well-formed numeric cell of the
numeric block. -/
def mergeNumericGuard (info : MergeInfo) (cur : String) : Bool :=
  11 ≤ info.col && info.col ≤ 17 && cur ≠ "" &&
    (looksLikeLargeNumber cur || looksLikePercentageValue cur ||
      looksLikeChangeValue cur)

/-- Lines 1720-1728: Jumlah Saham columns of a lower same-`No` row. -/
def mergeGuard3 (info : MergeInfo) (rows : List RawRow)
    (rowIdx : Nat) : Bool :=
  let rowCells := mergeRowCells info (rows.getD rowIdx rawRow0)
  if (info.col = 11 || info.col = 14) && rowIdx > 0 then
    let prevCells := (rows.getD (rowIdx - 1) rawRow0).cells
    let noPrev :=
      if prevCells ≠ [] then pyStrip (prevCells.getD 0 "") else ""
    let noCur :=
      if rowCells ≠ [] then pyStrip (rowCells.getD 0 "") else ""
    noPrev ≠ "" && (noCur = noPrev || noCur = "" || noCur = "-")
  else false

/-- Lines 1730-1737: fill an empty cell, else prefer the more complete
(not-shorter, different, not-contained) value. -/
def mergeWriteCells (info : MergeInfo) (cur : String) (rowCells : Row) :
    Row :=
  if cur = "" then rowCells.set info.col info.data
  else if info.data ≠ cur && !pyContains cur info.data then
    if info.data.length ≥ cur.length then rowCells.set info.col info.data
    else rowCells
  else rowCells

/-- Body of the `for row_idx, row_data in enumerate(raw_data_rows)` loop of
the merged-cell propagation (lines 1656-1737), for one merged span and one
row index, translated in statement order. -/
def applyMergeInfoStep (info : MergeInfo) (avgRowGap : PyQ)
    (rows : List RawRow) (rowIdx : Nat) : List RawRow :=
  let rr := rows.getD rowIdx rawRow0
  if rr.page ≠ info.page then rows
  else if !mergeIsOverlapping info avgRowGap rr then rows
  else
    let rowCells := mergeRowCells info rr
    let currentCellData :=
      if rowCells.getD info.col "" = "" then ""
      else pyStrip (rowCells.getD info.col "")
    if mergeIsSecond info rows rowIdx then
      rows.set rowIdx { rr with cells := rowCells }
    else if mergeNumericGuard info currentCellData then
      rows.set rowIdx { rr with cells := rowCells }
    else if mergeGuard3 info rows rowIdx then
      rows.set rowIdx { rr with cells := rowCells }
    else rows.set rowIdx
      { rr with cells := mergeWriteCells info currentCellData rowCells }

/-- The `current_cell_data` local of the propagation loop (lines 1674-1676):
the stripped content of the target cell, blank if the cell is blank. -/
def mergeCurrentCellData (info : MergeInfo) (rows : List RawRow)
    (rowIdx : Nat) : String :=
  let rowCells := mergeRowCells info (rows.getD rowIdx rawRow0)
  if rowCells.getD info.col "" = "" then ""
  else pyStrip (rowCells.getD info.col "")

/-- All rows for one merged span (lines 1648-1737). -/
def applyMergeInfo (info : MergeInfo) (avgRowGap : PyQ)
    (rows : List RawRow) : List RawRow :=
  (List.range rows.length).foldl (applyMergeInfoStep info avgRowGap) rows

/-- The full merged-cell propagation (lines 1647-1737). -/
def applyMergedCells (infos : List MergeInfo) (avgRowGap : PyQ)
    (rows : List RawRow) : List RawRow :=
  if !infos.isEmpty && !rows.isEmpty then
    infos.foldl (fun rs info => applyMergeInfo info avgRowGap rs) rows
  else rows

/-! ## Span-level grouping, header detection and the flat fallback
(`src/app.py` lines 195-333, 1276-1332, 2409-2460) -/

/-- A normalized text span (the records produced by
`extract_all_spans_with_bbox`). -/
structure Span where
  /-- Trimmed text. -/
  text : String
  /-- 1-based page number. -/
  page : Int
  /-- Bounding box left edge. -/
  x0 : PyQ
  /-- Bounding box top edge. -/
  y0 : PyQ
  /-- Bounding box right edge. -/
  x1 : PyQ
  /-- Bounding box bottom edge. -/
  y1 : PyQ
  /-- Result of `is_blue_color` on the span's color. -/
  isBlue : Bool

/-- Vertical center of a span's bounding box. -/
def spanYMid (s : Span) : PyQ := (s.y0.add s.y1).mul ⟨1, 2⟩

/-- Strict lexicographic order on `(page, y_mid, x0)` sort keys. -/
def spanKeyLt (a b : Int × PyQ × PyQ) : Bool :=
  a.1 < b.1 || (a.1 = b.1 && (PyQ.lt a.2.1 b.2.1 ||
    (PyQ.qeq a.2.1 b.2.1 && PyQ.lt a.2.2 b.2.2)))

/-- Stable insertion (ties keep original order) for an arbitrary strict
order. -/
def insertByLtB (lt : α → α → Bool) (x : α) : List α → List α
  | [] => [x]
  | y :: ys => if lt y x then y :: insertByLtB lt x ys else x :: y :: ys

/-- Stable ascending sort for an arbitrary strict order, modelling Python's
stable `sorted`. -/
def sortByLtB (lt : α → α → Bool) (l : List α) : List α :=
  l.foldr (insertByLtB lt) []

/-- `sorted(span_items, key=(page, y_mid, x0))` (lines 1280-1286). -/
def sortSpans (spans : List Span) : List Span :=
  sortByLtB (fun a b =>
    spanKeyLt (a.page, spanYMid a, a.x0) (b.page, spanYMid b, b.x0)) spans

/-- A grouped row of spans: `(y_mid, page, ordered_spans)`. -/
structure SpanRow where
  /-- `y` of the last span added to the row. -/
  yMid : PyQ
  /-- Page number. -/
  page : Int
  /-- The row's spans in order. -/
  spans : List Span

/-- The grouping walk of `_group_spans_into_rows` (lines 1288-1304). -/
def groupGo (curY : PyQ) (curPage : Int) (curRow : List Span) :
    List Span → List SpanRow
  | [] => if curRow.isEmpty then [] else [⟨curY, curPage, curRow⟩]
  | s :: rest =>
    let midY := spanYMid s
    if s.page ≠ curPage || absGt2 midY curY then
      (if curRow.isEmpty then [] else [⟨curY, curPage, curRow⟩]) ++
        groupGo midY s.page [s] rest
    else groupGo midY curPage (curRow ++ [s]) rest

/-- `_group_spans_into_rows` (`src/app.py` lines 1276-1304). -/
def groupSpansIntoRows (spans : List Span) : List SpanRow :=
  match sortSpans spans with
  | [] => []
  | s :: rest => groupGo (spanYMid s) s.page [s] rest

/-- `HEADER_KEYWORDS` (`src/app.py` lines 206-228). -/
def HEADER_KEYWORDS : List String :=
  ["no. urut", "no.urut", "no. aodi", "no.aodi", "kode efek", "nama emiten",
   "nama pemegang saham", "nama pemegang rekening efek", "nama rekening efek",
   "alamat", "alamat (lanjutan)", "alamat lanjutan", "kebangsaan", "domisili",
   "status (lokal/asing)", "status lokal", "kepemilikan per", "jumlah saham",
   "saham gabungan per investor", "persentase kepemilikan", "perubahan"]

/-- `CORE_HEADER_KEYWORDS` (`src/app.py` lines 279-288). -/
def CORE_HEADER_KEYWORDS : List String :=
  ["no. urut", "no.urut", "no. aodi", "no.aodi", "kode efek", "nama emiten",
   "nama pemegang saham", "nama pemegang rekening efek"]

/-- `_row_text_lower` (`src/app.py` lines 291-294). -/
def rowTextLower (spans : List Span) : String :=
  pyLower (pyJoinSpace (spans.map (fun s => pyStrip s.text)))

/-- `_row_cell_count` (`src/app.py` lines 297-309): count cells separated by
horizontal gaps larger than `COLUMN_X_GAP` (= 12). -/
def rowCellCount (spans : List Span) : Nat :=
  match spans with
  | [] => 0
  | s0 :: rest =>
    (rest.foldl (fun (p : Nat × PyQ) s =>
      ((if PyQ.lt (PyQ.ofInt 12) (s.x0.sub p.2) then p.1 + 1 else p.1), s.x1))
      (1, s0.x1)).1

/-- `_row_looks_like_header` (`src/app.py` lines 312-333). -/
def rowLooksLikeHeader (spans : List Span) : Bool :=
  let text := rowTextLower spans
  if text = "" || text.length < 3 then false
  else if !CORE_HEADER_KEYWORDS.any (fun kw => pyContains text kw) then false
  else if pyContains text "kepemilikan per" &&
      !(["nama emiten", "kode efek", "nama pemegang", "no. urut",
         "no. aodi"].any (fun kw => pyContains text kw)) then false
  else
    let kwMatches := (HEADER_KEYWORDS.filter (fun kw => pyContains text kw)).length
    if kwMatches < 3 then false
    else if rowCellCount spans < 5 then false
    else true

/-- The walk of `build_table_from_spans` (lines 2422-2459): accumulate rows
split by vertical distance and cells split by horizontal gaps. -/
def btfsGo (curY : Option PyQ) (rowCells cellTexts : List String)
    (lastX1 : Option PyQ) : List Span → List (List String)
  | [] =>
    let rowCells :=
      if cellTexts ≠ [] then rowCells ++ [pyJoinSpace cellTexts] else rowCells
    if rowCells ≠ [] then [rowCells] else []
  | s :: rest =>
    let text := pyStrip s.text
    if text = "" then btfsGo curY rowCells cellTexts lastX1 rest
    else
      let midY := spanYMid s
      let st :=
        match curY with
        | Option.some cy =>
          if absGt2 midY cy then
            let rc :=
              if cellTexts ≠ [] then rowCells ++ [pyJoinSpace cellTexts]
              else rowCells
            ((if rc ≠ [] then [rc] else []), ([] : List String),
              ([] : List String), (Option.none : Option PyQ))
          else ([], rowCells, cellTexts, lastX1)
        | Option.none => ([], rowCells, cellTexts, lastX1)
      let flushed := st.1
      let rowCells := st.2.1
      let cellTexts := st.2.2.1
      let lastX1 := st.2.2.2
      let p :=
        match lastX1 with
        | Option.some lx =>
          if PyQ.lt (PyQ.ofInt 12) (s.x0.sub lx) then
            ((if cellTexts ≠ [] then rowCells ++ [pyJoinSpace cellTexts]
              else rowCells), ([] : List String))
          else (rowCells, cellTexts)
        | Option.none => (rowCells, cellTexts)
      flushed ++ btfsGo (Option.some midY) p.1 (p.2 ++ [text])
        (Option.some s.x1) rest

/-- `build_table_from_spans` (`src/app.py` lines 2409-2460): the degraded
flat table built purely from span geometry. -/
def buildTableFromSpans (spans : List Span) : List (List String) :=
  if spans.isEmpty then []
  else btfsGo Option.none [] [] Option.none (sortSpans spans)

/-- The outcome of the header-search prefix of
`build_table_with_header_from_pdf` (`src/app.py` lines 1317-1332): either
the degraded flat table (no spans, no rows, or no header row found) or
entry into the structured path with the found header row's index. -/
inductive BuildOutcome where
  /-- A flat table was returned (lines 1319, 1322, 1332). -/
  | flat (t : List (List String)) : BuildOutcome
  /-- The structured path was entered with this header row index. -/
  | structuredEntry (headerIdx : Nat) : BuildOutcome
  deriving DecidableEq

/-- Lines 1317-1332 of `build_table_with_header_from_pdf`: the dispatch
between the structured path and the header-not-found fallback. -/
def buildTableDispatch (spans : List Span) : BuildOutcome :=
  if spans.isEmpty then BuildOutcome.flat []
  else
    let rowsRaw := groupSpansIntoRows spans
    if rowsRaw.isEmpty then BuildOutcome.flat []
    else
      match rowsRaw.findIdx? (fun r => rowLooksLikeHeader r.spans) with
      | Option.some i => BuildOutcome.structuredEntry i
      | Option.none =>
        BuildOutcome.flat (buildTableFromSpans (spans.filter (fun s => s.isBlue)))

/-! ## The non-empty-cell invariant of the final table -/

/-- Every cell the cascade keeps or writes strips to a non-empty string;
this is the invariant behind the non-empty-cell guarantee of the final
table. -/
abbrev SOk (v : String) : Prop := pyStrip v ≠ ""

/-- All cells of a row strip to non-empty strings. -/
abbrev ROk (r : Row) : Prop := ∀ c ∈ r, SOk c

/-- All rows of a table satisfy `ROk`. -/
abbrev DOk (d : List Row) : Prop := ∀ r ∈ d, ROk r

/-! ########################################################################
## Theorems
######################################################################## -/

/-- Helper: on every color value the two predicates of the ColorClassifier
are pointwise complementary (both route through `_color_to_rgb` and test the
same blue condition). -/
theorem other_eq_not_blue (c : PyColor) :
    isExplicitlyOtherColor c = !(isBlueColor c) := by
  unfold isExplicitlyOtherColor isBlueColor
  cases colorToRgb c with
  | none => rfl
  | some t =>
    obtain ⟨r, g, b⟩ := t
    by_cases h : (b > r && b > g && b ≥ 80) = true
    · simp [h]
    · simp [h]

/-- C2 (counterexample): `is_blue_color` returns `true` on the float triple
`(0.0, 0.0, 2.0)`, whose conversion `(0, 0, 510)` lies outside the 0-255
range claimed for converted triples, so the claimed equivalence fails. -/
theorem c2_blue_iff_range_counterexample :
    isBlueColor (PyColor.seq [PyQ.ofInt 0, PyQ.ofInt 0, PyQ.ofInt 2]) = true ∧
      ¬ blueSpecC2 (PyColor.seq [PyQ.ofInt 0, PyQ.ofInt 0, PyQ.ofInt 2]) := by
  refine ⟨by decide, ?_⟩
  rintro ⟨r, g, b, h, -, -, -, -, -, hb, -, -, -⟩
  have hrgb : colorToRgb (PyColor.seq [PyQ.ofInt 0, PyQ.ofInt 0, PyQ.ofInt 2]) = Option.some (0, 0, 510) := by
    decide
  rw [hrgb] at h
  obtain ⟨-, -, rfl⟩ := Prod.mk.injEq .. ▸ Option.some.injEq .. ▸ h
  omega

/-- C2 (amended): `is_blue_color` returns `true` iff the input converts to an
`(r, g, b)` triple (bytes of a packed integer, or a length-≥3 number sequence
scaled by 255 and truncated, without clamping to 0-255) with `b > r`,
`b > g` and `b ≥ 80`; a `None` input or conversion failure yields `false`.
The float triple `(0.0, 0.05, 0.6)` classifies as blue, the integer
`0x202020` as not blue, and `None` as not blue. -/
theorem c2_is_blue_color_correct :
    (∀ c : PyColor, isBlueColor c = true ↔
      ∃ r g b : ℤ, colorToRgb c = Option.some (r, g, b) ∧
        b > r ∧ b > g ∧ b ≥ 80) ∧
    (∀ c : PyColor, colorToRgb c = Option.none → isBlueColor c = false) ∧
    isBlueColor (PyColor.seq [PyQ.ofInt 0, PyQ.mk 1 20, PyQ.mk 3 5]) = true ∧
    isBlueColor (PyColor.int 0x202020) = false ∧
    isBlueColor PyColor.none = false := by
  refine ⟨?_, ?_, by decide, by decide, by decide⟩
  · intro c
    unfold isBlueColor
    cases hc : colorToRgb c with
    | none => simp
    | some t =>
      obtain ⟨r, g, b⟩ := t
      simp only [Bool.and_eq_true, decide_eq_true_eq, Option.some.injEq,
        Prod.mk.injEq]
      constructor
      · rintro ⟨⟨h1, h2⟩, h3⟩
        exact ⟨r, g, b, ⟨rfl, rfl, rfl⟩, h1, h2, h3⟩
      · rintro ⟨r', g', b', ⟨rfl, rfl, rfl⟩, h1, h2, h3⟩
        exact ⟨⟨h1, h2⟩, h3⟩
  · intro c h
    unfold isBlueColor
    rw [h]

/-- C3 (counterexample): there is no color input on which
`is_explicitly_other_color` differs from the negation of `is_blue_color`;
the claimed witness of non-complementarity does not exist. -/
theorem c3_not_complement_counterexample :
    ¬ ∃ c : PyColor, isExplicitlyOtherColor c ≠ !(isBlueColor c) := by
  rintro ⟨c, h⟩
  exact h (other_eq_not_blue c)

set_option maxRecDepth 1000000 in
/-- C4 (counterexample): a table already produced by the repair cascade on
which re-running the cascade changes the result again.  The first run parks
the person name carried by a continuation row in a share-count column
(via the Perubahan text swap and the Persentase (2) text swap); the second
run's address screen then blanks it, so the cascade output is not a fixed
point. -/
theorem c4_idempotence_counterexample :
    repairCascade (repairCascade
        [["1", "-", "-", "-", "-", "-", "-", "-", "-", "-", "-", "3.10",
          "1,000,000", "5.24", "2,000,000", "3,000,000", "0", "-"],
         ["-", "-", "-", "-", "-", "ANDI BUDI", "-", "-", "-", "-", "-", "-",
          "-", "-", "-", "-", "-", "-"]]) ≠
      repairCascade
        [["1", "-", "-", "-", "-", "-", "-", "-", "-", "-", "-", "3.10",
          "1,000,000", "5.24", "2,000,000", "3,000,000", "0", "-"],
         ["-", "-", "-", "-", "-", "ANDI BUDI", "-", "-", "-", "-", "-", "-",
          "-", "-", "-", "-", "-", "-"]] := by
  decide

/-- `dropWhile` shortens or keeps length. -/
theorem length_dropWhile_le (p : Char → Bool) (l : List Char) :
    (l.dropWhile p).length ≤ l.length := by
  induction l with
  | nil => simp
  | cons a t ih =>
    rw [List.dropWhile_cons]
    split
    · exact Nat.le_succ_of_le ih
    · simp

/-- Two sufficiently large fuels agree in `pySplitGo`, so `pySplitL` never
runs out of fuel. -/
theorem pySplitGo_congr : ∀ (f₁ f₂ : Nat) (l : List Char),
    l.length ≤ f₁ → l.length ≤ f₂ → pySplitGo f₁ l = pySplitGo f₂ l := by
  intro f₁
  induction f₁ with
  | zero =>
    intro f₂ l h1 _
    have : l = [] := List.eq_nil_of_length_eq_zero (Nat.le_zero.1 h1)
    subst this
    cases f₂ <;> rfl
  | succ f ih =>
    intro f₂ l h1 h2
    cases l with
    | nil => cases f₂ <;> rfl
    | cons c rest =>
      cases f₂ with
      | zero => simp at h2
      | succ f' =>
        show pySplitGo (f + 1) (c :: rest) = pySplitGo (f' + 1) (c :: rest)
        simp only [pySplitGo]
        simp only [List.length_cons, Nat.succ_le_succ_iff] at h1 h2
        by_cases hc : pyWs c
        · simp only [hc, if_true]
          exact ih f' rest h1 h2
        · simp only [hc, if_false]
          have hd := length_dropWhile_le (fun x => !pyWs x) rest
          exact congrArg (List.cons (c :: rest.takeWhile (fun x => !pyWs x)))
            (ih f' _ (le_trans hd h1) (le_trans hd h2))

/-- Canonical unfolding of `pySplitL` on a cons cell (the recursion of the
fuel-free specification). -/
theorem pySplitL_cons (c : Char) (rest : List Char) :
    pySplitL (c :: rest) =
      if pyWs c then pySplitL rest
      else (c :: rest.takeWhile (fun x => !pyWs x)) ::
        pySplitL (rest.dropWhile (fun x => !pyWs x)) := by
  show pySplitGo (rest.length + 1) (c :: rest) = _
  simp only [pySplitGo]
  by_cases hc : pyWs c
  · simp only [hc, if_true, pySplitL]
  · simp only [hc, if_false, pySplitL]
    exact congrArg (List.cons (c :: rest.takeWhile (fun x => !pyWs x)))
      (pySplitGo_congr _ _ _
        (length_dropWhile_le (fun x => !pyWs x) rest) (Nat.le_refl _))

/-- `dropWhile` is idempotent. -/
theorem dropWhile_idem (p : Char → Bool) (l : List Char) :
    (l.dropWhile p).dropWhile p = l.dropWhile p := by
  induction l with
  | nil => simp
  | cons a t ih =>
    by_cases h : p a
    · rw [List.dropWhile_cons_of_pos h]
      exact ih
    · rw [List.dropWhile_cons_of_neg h, List.dropWhile_cons_of_neg h]

/-- A prefix of a list with no leading matched characters also has none. -/
theorem dropWhile_eq_self_of_isPrefix (p : Char → Bool) (m k : List Char)
    (hm : m.dropWhile p = m) (hk : k <+: m) : k.dropWhile p = k := by
  cases k with
  | nil => simp
  | cons a t =>
    obtain ⟨u, hu⟩ := hk
    rw [← hu] at hm
    have ha : ¬ p a := by
      intro h
      rw [List.cons_append, List.dropWhile_cons_of_pos h] at hm
      have hlen := congrArg List.length hm
      have := length_dropWhile_le p (t ++ u)
      simp only [List.length_cons] at hlen
      omega
    exact List.dropWhile_cons_of_neg ha

/-- `pyStripL` written out. -/
theorem pyStripL_def (l : List Char) :
    pyStripL l = ((l.dropWhile pyWs).reverse.dropWhile pyWs).reverse := rfl

/-- Stripping is idempotent on character lists. -/
theorem pyStripL_idem (l : List Char) : pyStripL (pyStripL l) = pyStripL l := by
  have h1 : (pyStripL l).dropWhile pyWs = pyStripL l := by
    apply dropWhile_eq_self_of_isPrefix pyWs (l.dropWhile pyWs)
    · exact dropWhile_idem pyWs l
    · rw [pyStripL_def]
      have hs : ((l.dropWhile pyWs).reverse.dropWhile pyWs) <:+
          (l.dropWhile pyWs).reverse := List.dropWhile_suffix pyWs
      have := hs.reverse
      simpa using this
  have h2 : (pyStripL l).reverse.dropWhile pyWs = (pyStripL l).reverse := by
    rw [pyStripL_def l, List.reverse_reverse]
    exact dropWhile_idem pyWs _
  rw [pyStripL_def (pyStripL l), h1, h2, List.reverse_reverse]

/-- Stripping is idempotent on strings. -/
theorem pyStrip_idem (s : String) : pyStrip (pyStrip s) = pyStrip s := by
  unfold pyStrip
  exact congrArg String.mk (pyStripL_idem s.data)

/-- `normalizeCell` with its condition as a proposition. -/
theorem normalizeCell_eq (c : String) :
    normalizeCell c =
      if (if c = "" then "" else pyStrip c) = "" ∨
         (if c = "" then "" else pyStrip c) = "-" then "-"
      else (if c = "" then "" else pyStrip c) := by
  unfold normalizeCell
  simp only [Bool.or_eq_true, decide_eq_true_eq]

/-- Cell normalization is idempotent. -/
theorem normalizeCell_idem (c : String) :
    normalizeCell (normalizeCell c) = normalizeCell c := by
  have hdash : normalizeCell "-" = "-" := by decide
  rw [normalizeCell_eq c]
  by_cases h : (if c = "" then "" else pyStrip c) = "" ∨
      (if c = "" then "" else pyStrip c) = "-"
  · rw [if_pos h, hdash]
  · rw [if_neg h]
    have hne : (if c = "" then "" else pyStrip c) ≠ "" := fun hh => h (Or.inl hh)
    have hs : (if c = "" then "" else pyStrip c) = pyStrip c := by
      by_cases hc : c = ""
      · rw [if_pos hc] at hne
        exact absurd rfl hne
      · exact if_neg hc
    rw [hs] at h hne ⊢
    rw [normalizeCell_eq]
    have hinner : (if pyStrip c = "" then "" else pyStrip (pyStrip c))
        = pyStrip c := by
      rw [if_neg hne, pyStrip_idem]
    rw [hinner, if_neg h]

/-- The padded row used by `normalizeRow18`. -/
theorem normalizeRow18_eq (row : Row) :
    normalizeRow18 row = ((row ++ List.replicate 18 "").take 18).map
      normalizeCell := by
  show List.take 18
      (((row ++ List.replicate 18 "").take 18).map normalizeCell ++
        List.replicate
          (18 - (((row ++ List.replicate 18 "").take 18).map
            normalizeCell).length) "-") = _
  have hlen : (((row ++ List.replicate 18 "").take 18).map normalizeCell).length
      = 18 := by
    simp [List.length_take]
  rw [hlen]
  simp only [Nat.sub_self, List.replicate_zero, List.append_nil]
  exact List.take_of_length_le (le_of_eq hlen)

/-- C4 (amended): the full repair cascade is not idempotent — re-running it
on an already-repaired table can change the table again (see the
counterexample, where the re-applied address screen blanks a name parked in
a share-count column by the first run); the row normalization stage of the
cascade (pad to 18 cells and normalize blanks to the sentinel) is
idempotent: re-running it on its own output is a no-op. -/
theorem c4_normalize_row_idempotent (row : Row) :
    normalizeRow18 (normalizeRow18 row) = normalizeRow18 row := by
  rw [normalizeRow18_eq row, normalizeRow18_eq]
  have hlen : (((row ++ List.replicate 18 "").take 18).map normalizeCell).length
      = 18 := by simp [List.length_take]
  rw [List.take_left' hlen, List.map_map]
  apply List.map_congr_left
  intro c _
  exact normalizeCell_idem c

set_option maxRecDepth 1000000 in
/-- C5 (code_bug): the repair cascade can leave a person-name value in a
share-count column.  On this two-row input (a repaired main row plus a
continuation row carrying a person name), the continuation merge inserts
the name into the Perubahan column, the second numeric-block repair parks
it in Persentase (2), and the Persentase (2) text swap of the final
per-row loop then swaps it into Jumlah Saham (1) — column 11 — where it
survives to the emitted table, violating the claimed invariant. -/
theorem c5_person_name_in_numeric_column :
    looksLikePersonName
      (((repairCascade
        [["1", "-", "-", "-", "-", "-", "-", "-", "-", "-", "-", "3.10",
          "1,000,000", "5.24", "2,000,000", "3,000,000", "0", "-"],
         ["-", "-", "-", "-", "-", "ANDI BUDI", "-", "-", "-", "-", "-", "-",
          "-", "-", "-", "-", "-", "-"]]).getD 0 []).getD 11 "") = true := by
  decide

set_option maxRecDepth 1000000 in
/-- C10: the duplicate-`No` repairs can emit values present in no input
cell: (a) the cross-row pass writes the literal `"0"` into the lower row's
Perubahan when the upper row's Perubahan is non-blank and no usable change
value exists; (b) the raw-token fallback writes a found token with `"-"`
prefixed into the upper row's Perubahan. -/
theorem c10_fabricated_change_values :
    -- (a) the literal "0"
    ((((repairCascade
        [["55", "-", "-", "-", "-", "-", "-", "-", "-", "-", "-",
          "1,000,000", "-", "-", "2,000,000", "-", "-", "7"],
         ["55", "-", "-", "-", "-", "-", "-", "-", "-", "-", "-",
          "3,000,000", "-", "-", "-", "-", "-", "-"]]).getD 1 []).getD 17 "")
      = "0" ∧
      (∀ r ∈ [["55", "-", "-", "-", "-", "-", "-", "-", "-", "-", "-",
          "1,000,000", "-", "-", "2,000,000", "-", "-", "7"],
         ["55", "-", "-", "-", "-", "-", "-", "-", "-", "-", "-",
          "3,000,000", "-", "-", "-", "-", "-", "-"]], ∀ c ∈ r, c ≠ "0")) ∧
    -- (b) the negated raw token
    ((((extractBlueTable
        [["318", "-", "-", "-", "-", "-", "-", "-", "-", "-", "-",
          "5,000,000", "-", "-", "6,000,000", "-", "-", "-"],
         ["318", "-", "-", "-", "-", "-", "-", "-", "-", "-", "-",
          "7,000,000", "-", "-", "9", "-", "-", "-"]]
        ["318", "xx", "318"]).getD 1 []).getD 17 "") = "-318" ∧
      (∀ r ∈ [["318", "-", "-", "-", "-", "-", "-", "-", "-", "-", "-",
          "5,000,000", "-", "-", "6,000,000", "-", "-", "-"],
         ["318", "-", "-", "-", "-", "-", "-", "-", "-", "-", "-",
          "7,000,000", "-", "-", "9", "-", "-", "-"]], ∀ c ∈ r, c ≠ "-318") ∧
      ∀ l ∈ ["318", "xx", "318"], l ≠ "-318") := by
  refine ⟨⟨by decide, by decide⟩, by decide, by decide, by decide⟩

/-- C6 (counterexample): merged-cell propagation overwrites a non-empty
cell with an incoming text of **equal** length (the source requires
`len(merge_data) >= len(current)`, not strictly greater): the cell `"AB"`
at column 5 is replaced by the equal-length `"XY"`. -/
theorem c6_equal_length_overwrite_counterexample :
    (((applyMergeInfo
        ⟨5, PyQ.ofInt 10, PyQ.ofInt 30, "XY", 1, [PyQ.ofInt 20]⟩
        (PyQ.ofInt 10)
        [⟨PyQ.ofInt 20, ["1", "-", "-", "-", "-", "AB", "-"], 1⟩]).getD 0
        rawRow0).cells.getD 5 "") = "XY" ∧
      "AB" ≠ "" ∧ pyStrip "AB" = "AB" ∧ ¬ ("AB".length < "XY".length) := by
  refine ⟨by decide, by decide, by decide, by decide⟩

/-- `getD` after `set` at another index (raw-row lists). -/
theorem getD_set_ne (l : List RawRow) (i j : Nat) (x : RawRow) (h : j ≠ i) :
    (l.set i x).getD j rawRow0 = l.getD j rawRow0 := by
  simp only [List.getD_eq_getElem?_getD]
  rw [List.getElem?_set_ne h.symm]

/-- `getD` after `set` at the written index (raw-row lists). -/
theorem getD_set_self (l : List RawRow) (i : Nat) (x : RawRow)
    (h : i < l.length) : (l.set i x).getD i rawRow0 = x := by
  simp only [List.getD_eq_getElem?_getD]
  rw [List.getElem?_set_self h]
  rfl

/-- `getD` after `set` at another index (cell lists). -/
theorem getD_set_ne_str (l : Row) (i j : Nat) (x : String) (h : j ≠ i) :
    (l.set i x).getD j "" = l.getD j "" := by
  simp only [List.getD_eq_getElem?_getD]
  rw [List.getElem?_set_ne h.symm]

/-- `getD` after `set` at the written index (cell lists). -/
theorem getD_set_self_str (l : Row) (i : Nat) (x : String)
    (h : i < l.length) : (l.set i x).getD i "" = x := by
  simp only [List.getD_eq_getElem?_getD]
  rw [List.getElem?_set_self h]
  rfl

/-- Padding with blanks does not change any `getD ""` read. -/
theorem getD_append_replicate (l : Row) (n c : Nat) :
    (l ++ List.replicate n "").getD c "" = l.getD c "" := by
  simp only [List.getD_eq_getElem?_getD]
  by_cases h : c < l.length
  · rw [List.getElem?_append_left h]
  · rw [List.getElem?_append_right (Nat.le_of_not_lt h),
      List.getElem?_replicate, List.getElem?_eq_none (Nat.le_of_not_lt h)]
    split <;> rfl

/-- Cellwise, the padded row read like Python (`""` default) is the
original row. -/
theorem mergeRowCells_getD (info : MergeInfo) (rr : RawRow) (c : Nat) :
    (mergeRowCells info rr).getD c "" = rr.cells.getD c "" :=
  getD_append_replicate rr.cells _ c

/-- The padded row always covers the assigned column. -/
theorem mergeRowCells_col_lt (info : MergeInfo) (rr : RawRow) :
    info.col < (mergeRowCells info rr).length := by
  unfold mergeRowCells
  rw [List.length_append, List.length_replicate]
  omega

/-- The fill step only ever writes `info.data` at `info.col`, and only under
the documented conditions. -/
theorem mergeWriteCells_spec (info : MergeInfo) (cur : String)
    (rowCells : Row) :
    mergeWriteCells info cur rowCells = rowCells ∨
      (mergeWriteCells info cur rowCells = rowCells.set info.col info.data ∧
        (cur = "" ∨ (info.data ≠ cur ∧ pyContains cur info.data = false ∧
          cur.length ≤ info.data.length))) := by
  unfold mergeWriteCells
  by_cases h1 : cur = ""
  · exact Or.inr ⟨by rw [if_pos h1], Or.inl h1⟩
  · rw [if_neg h1]
    by_cases h2 : (info.data ≠ cur && !pyContains cur info.data) = true
    · rw [if_pos h2]
      by_cases h3 : info.data.length ≥ cur.length
      · simp only [Bool.and_eq_true, decide_eq_true_eq, Bool.not_eq_true',
          decide_eq_true_eq] at h2
        exact Or.inr ⟨by rw [if_pos h3], Or.inr ⟨h2.1, h2.2, h3⟩⟩
      · rw [if_neg h3]
        exact Or.inl rfl
    · rw [if_neg h2]
      exact Or.inl rfl

/-- A propagation step at an out-of-range row index is a no-op. -/
theorem applyMergeInfoStep_oob (info : MergeInfo) (avg : PyQ)
    (rows : List RawRow) (rowIdx : Nat) (h : rows.length ≤ rowIdx) :
    applyMergeInfoStep info avg rows rowIdx = rows := by
  unfold applyMergeInfoStep
  dsimp only
  repeat' split
  all_goals first
    | rfl
    | exact List.set_eq_of_length_le h

/-- Shape of one propagation step: unchanged, or the indexed row replaced
with its padded cells, or additionally `info.data` written at `info.col`
under the write conditions. -/
theorem applyMergeInfoStep_cases (info : MergeInfo) (avg : PyQ)
    (rows : List RawRow) (rowIdx : Nat) :
    applyMergeInfoStep info avg rows rowIdx = rows ∨
    applyMergeInfoStep info avg rows rowIdx =
      rows.set rowIdx { rows.getD rowIdx rawRow0 with
        cells := mergeRowCells info (rows.getD rowIdx rawRow0) } ∨
    (applyMergeInfoStep info avg rows rowIdx =
      rows.set rowIdx { rows.getD rowIdx rawRow0 with
        cells := (mergeRowCells info (rows.getD rowIdx rawRow0)).set
          info.col info.data } ∧
      (mergeCurrentCellData info rows rowIdx = "" ∨
        (info.data ≠ mergeCurrentCellData info rows rowIdx ∧
          pyContains (mergeCurrentCellData info rows rowIdx) info.data
            = false ∧
          (mergeCurrentCellData info rows rowIdx).length ≤
            info.data.length)) ∧
      mergeNumericGuard info (mergeCurrentCellData info rows rowIdx)
        = false) := by
  unfold applyMergeInfoStep
  dsimp only
  rw [show (if (mergeRowCells info (rows.getD rowIdx rawRow0)).getD
        info.col "" = "" then ""
      else pyStrip ((mergeRowCells info (rows.getD rowIdx rawRow0)).getD
        info.col "")) = mergeCurrentCellData info rows rowIdx from rfl]
  split
  · exact Or.inl rfl
  · split
    · exact Or.inl rfl
    · split
      · exact Or.inr (Or.inl rfl)
      · split
        · exact Or.inr (Or.inl rfl)
        · split
          · exact Or.inr (Or.inl rfl)
          · rename_i hguard _
            rcases mergeWriteCells_spec info
                (mergeCurrentCellData info rows rowIdx)
                (mergeRowCells info (rows.getD rowIdx rawRow0)) with hw | hw
            · refine Or.inr (Or.inl ?_)
              rw [hw]
            · refine Or.inr (Or.inr ⟨?_, hw.2, ?_⟩)
              · rw [hw.1]
              · cases hb : mergeNumericGuard info
                    (mergeCurrentCellData info rows rowIdx)
                · rfl
                · exact absurd hb hguard

/-- C6 (amended): in one merged-cell propagation step, rows other than the
indexed one are untouched, cells at columns other than the span's assigned
column keep their (Python-read, `""`-default) values, and the assigned cell
is either unchanged or set to the span's text — the latter only when the
current stripped content is empty, or the incoming text differs, is not
contained in the current content, and is **at least as long** (not strictly
longer: equality is enough), and only when the numeric-block guard
(columns 11-17 holding a well-formed large number, percentage, or change
value) does not fire. -/
theorem c6_merge_write_conditions (info : MergeInfo) (avg : PyQ)
    (rows : List RawRow) (rowIdx : Nat) :
    (∀ j : Nat, j ≠ rowIdx →
      (applyMergeInfoStep info avg rows rowIdx).getD j rawRow0 =
        rows.getD j rawRow0) ∧
    (∀ c : Nat, c ≠ info.col →
      ((applyMergeInfoStep info avg rows rowIdx).getD rowIdx
          rawRow0).cells.getD c "" =
        (rows.getD rowIdx rawRow0).cells.getD c "") ∧
    (((applyMergeInfoStep info avg rows rowIdx).getD rowIdx
          rawRow0).cells.getD info.col "" =
        (rows.getD rowIdx rawRow0).cells.getD info.col "" ∨
      (((applyMergeInfoStep info avg rows rowIdx).getD rowIdx
          rawRow0).cells.getD info.col "" = info.data ∧
        (mergeCurrentCellData info rows rowIdx = "" ∨
          (info.data ≠ mergeCurrentCellData info rows rowIdx ∧
            pyContains (mergeCurrentCellData info rows rowIdx) info.data
              = false ∧
            (mergeCurrentCellData info rows rowIdx).length ≤
              info.data.length)) ∧
        mergeNumericGuard info (mergeCurrentCellData info rows rowIdx)
          = false)) := by
  by_cases hr : rowIdx < rows.length
  · rcases applyMergeInfoStep_cases info avg rows rowIdx with h | h | ⟨h, hw, hg⟩
    · rw [h]
      exact ⟨fun j _ => rfl, fun c _ => rfl, Or.inl rfl⟩
    · rw [h]
      refine ⟨fun j hj => getD_set_ne rows rowIdx j _ hj, fun c _ => ?_, ?_⟩
      · rw [getD_set_self rows rowIdx _ hr]
        exact mergeRowCells_getD info _ c
      · refine Or.inl ?_
        rw [getD_set_self rows rowIdx _ hr]
        exact mergeRowCells_getD info _ info.col
    · rw [h]
      refine ⟨fun j hj => getD_set_ne rows rowIdx j _ hj, fun c hc => ?_,
        Or.inr ⟨?_, hw, hg⟩⟩
      · rw [getD_set_self rows rowIdx _ hr, getD_set_ne_str _ _ _ _ hc]
        exact mergeRowCells_getD info _ c
      · rw [getD_set_self rows rowIdx _ hr]
        exact getD_set_self_str _ _ _ (mergeRowCells_col_lt info _)
  · rw [applyMergeInfoStep_oob info avg rows rowIdx (Nat.le_of_not_lt hr)]
    exact ⟨fun j _ => rfl, fun c _ => rfl, Or.inl rfl⟩

/-- Concrete instance of the merged-cell propagation frame conditions: the
off-index row and an off-column cell are untouched on a sample input. -/
theorem c6_merge_write_conditions_witness :
    (applyMergeInfoStep ⟨5, PyQ.ofInt 10, PyQ.ofInt 30, "XY", 1,
          [PyQ.ofInt 20]⟩ (PyQ.ofInt 10)
        [⟨PyQ.ofInt 20, ["1", "-", "-", "-", "-", "AB", "-"], 1⟩] 0).getD 1
        rawRow0 =
      ([⟨PyQ.ofInt 20, ["1", "-", "-", "-", "-", "AB", "-"], 1⟩] :
        List RawRow).getD 1 rawRow0 ∧
    ((applyMergeInfoStep ⟨5, PyQ.ofInt 10, PyQ.ofInt 30, "XY", 1,
          [PyQ.ofInt 20]⟩ (PyQ.ofInt 10)
        [⟨PyQ.ofInt 20, ["1", "-", "-", "-", "-", "AB", "-"], 1⟩] 0).getD 0
        rawRow0).cells.getD 3 "" =
      (([⟨PyQ.ofInt 20, ["1", "-", "-", "-", "-", "AB", "-"], 1⟩] :
        List RawRow).getD 0 rawRow0).cells.getD 3 "" :=
  ⟨(c6_merge_write_conditions _ _ _ _).1 1 (by decide),
   (c6_merge_write_conditions _ _ _ _).2.1 3 (by decide)⟩

/-- The left-aligned (truncating) fill never touches a column outside the
slot list. -/
theorem contLeftFold_notarget (values : List String) :
    ∀ (es : List Nat) (i : Nat) (row : Row) (t : Nat), t ∉ es →
    ((es.enumFrom i).foldl (fun r kj =>
        if kj.1 < values.length then r.set kj.2 (values.getD kj.1 "")
        else r) row).getD t "" = row.getD t "" := by
  intro es
  induction es with
  | nil => intro i row t _; rfl
  | cons e es ih =>
    intro i row t ht
    rw [List.enumFrom_cons, List.foldl_cons,
      ih (i + 1) _ t (fun hm => ht (List.mem_cons_of_mem e hm))]
    dsimp only
    split
    · exact getD_set_ne_str row e t _
        (fun he => ht (he ▸ List.mem_cons_self e es))
    · rfl

/-- Cell placement of the left-aligned fill: slot `k` receives value `i + k`
(`i` is the enumeration offset). -/
theorem contLeftFold_getD (values : List String) :
    ∀ (es : List Nat) (i : Nat) (row : Row), es.Nodup →
    (∀ e ∈ es, e < row.length) →
    ∀ k, k < es.length → i + k < values.length →
    ((es.enumFrom i).foldl (fun r kj =>
        if kj.1 < values.length then r.set kj.2 (values.getD kj.1 "")
        else r) row).getD (es.getD k 0) "" = values.getD (i + k) "" := by
  intro es
  induction es with
  | nil =>
    intro i row _ _ k hk
    exact absurd hk (Nat.not_lt_zero k)
  | cons e es ih =>
    intro i row hnd hlt k hk hkv
    rw [List.enumFrom_cons, List.foldl_cons]
    dsimp only
    cases k with
    | zero =>
      rw [if_pos (by omega : i < values.length)]
      have htgt : (e :: es).getD 0 0 = e := rfl
      rw [htgt, contLeftFold_notarget values es (i + 1) _ e
        (List.Nodup.not_mem hnd),
        getD_set_self_str row e _ (hlt e (List.mem_cons_self e es)),
        Nat.add_zero]
    | succ m =>
      rw [if_pos (by omega : i < values.length)]
      have htgt : (e :: es).getD (m + 1) 0 = es.getD m 0 := rfl
      rw [htgt, show i + (m + 1) = (i + 1) + m from by omega]
      exact ih (i + 1) (row.set e (values.getD i ""))
        (List.Nodup.of_cons hnd)
        (fun x hx => by
          rw [List.length_set]
          exact hlt x (List.mem_cons_of_mem e hx))
        m (by simpa using Nat.lt_of_succ_lt_succ (by simpa using hk))
        (by omega)

/-- The right-aligned fill never touches a column it does not target. -/
theorem contRightFold_notarget (E : List Nat) :
    ∀ (vs : List String) (i : Nat) (row : Row) (t : Nat),
    (∀ k, k < vs.length → E.getD (i + k) 0 ≠ t) →
    ((vs.enumFrom i).foldl (fun r kv =>
        r.set (E.getD kv.1 0) kv.2) row).getD t "" = row.getD t "" := by
  intro vs
  induction vs with
  | nil => intro i row t _; rfl
  | cons v vs ih =>
    intro i row t h
    rw [List.enumFrom_cons, List.foldl_cons,
      ih (i + 1) _ t (fun k hk => by
        rw [show (i + 1) + k = i + (k + 1) from by omega]
        exact h (k + 1) (Nat.succ_lt_succ hk))]
    dsimp only
    exact getD_set_ne_str row _ t v
      (fun he => (h 0 (Nat.succ_pos _)) (by rw [Nat.add_zero]; exact he.symm))

/-- Cell placement of the right-aligned fill: slot `i + k` receives value
`k`, given distinct in-range slots. -/
theorem contRightFold_getD (E : List Nat) (hnd : E.Nodup) :
    ∀ (vs : List String) (i : Nat) (row : Row),
    (∀ e ∈ E, e < row.length) → i + vs.length ≤ E.length →
    ∀ k, k < vs.length →
    ((vs.enumFrom i).foldl (fun r kv =>
        r.set (E.getD kv.1 0) kv.2) row).getD (E.getD (i + k) 0) ""
      = vs.getD k "" := by
  intro vs
  induction vs with
  | nil =>
    intro i row _ _ k hk
    exact absurd hk (Nat.not_lt_zero k)
  | cons v vs ih =>
    intro i row hlt hbound k hk
    rw [List.enumFrom_cons, List.foldl_cons]
    dsimp only
    have hiE : i < E.length := by
      simp only [List.length_cons] at hbound
      omega
    cases k with
    | zero =>
      simp only [Nat.add_zero]
      rw [contRightFold_notarget E vs (i + 1) _ (E.getD i 0) (fun m hm => by
        have h1 : (i + 1) + m < E.length := by
          simp only [List.length_cons] at hbound
          omega
        rw [List.getD_eq_getElem?_getD, List.getElem?_eq_getElem h1,
          List.getD_eq_getElem?_getD, List.getElem?_eq_getElem hiE]
        simp only [Option.getD_some]
        intro hEq
        have := (List.Nodup.getElem_inj_iff hnd).1 hEq
        omega)]
      have hmem : E.getD i 0 ∈ E := by
        rw [List.getD_eq_getElem?_getD, List.getElem?_eq_getElem hiE]
        exact List.getElem_mem hiE
      exact getD_set_self_str row _ v (hlt _ hmem)
    | succ m =>
      rw [show i + (m + 1) = (i + 1) + m from by omega]
      exact ih (i + 1) (row.set (E.getD i 0) v)
        (fun e he => by rw [List.length_set]; exact hlt e he)
        (by simp only [List.length_cons] at hbound; omega)
        m (Nat.lt_of_succ_lt_succ hk)

/-- The empty-slot index list holds no duplicates. -/
theorem contEmptyIdx_nodup (row : Row) (numCols : Nat) :
    (contEmptyIdx row numCols).Nodup :=
  List.Nodup.filter _ (List.nodup_range numCols)

/-- Empty-slot indices are column indices. -/
theorem contEmptyIdx_lt_of_mem (row : Row) (numCols : Nat) :
    ∀ e ∈ contEmptyIdx row numCols, e < numCols := by
  intro e he
  exact List.mem_range.1 (List.mem_of_mem_filter he)

/-- The shifted-target fold is the fold of the shifted enumeration. -/
theorem contFill_right_fold_eq (E : List Nat) (s : Nat) :
    ∀ (vs : List String) (i : Nat) (row : Row),
    (vs.enumFrom i).foldl (fun r kv =>
        r.set (E.getD (s + kv.1) 0) kv.2) row =
      (vs.enumFrom (s + i)).foldl (fun r kv =>
        r.set (E.getD kv.1 0) kv.2) row := by
  intro vs
  induction vs with
  | nil => intro i row; rfl
  | cons v vs ih =>
    intro i row
    rw [List.enumFrom_cons, List.enumFrom_cons, List.foldl_cons,
      List.foldl_cons]
    dsimp only
    rw [ih (i + 1) _, show s + (i + 1) = (s + i) + 1 from by omega]

/-- When the empty slots suffice, the redistribution is right-aligned: empty
slot `start + k` (with `start` the slot surplus) receives value `k`. -/
theorem contFill_getD_right (row : Row) (values : List String)
    (numCols k : Nat) (hrow : row.length = numCols)
    (hle : values.length ≤ (contEmptyIdx row numCols).length)
    (hk : k < values.length) :
    (contFill row values numCols).getD
      ((contEmptyIdx row numCols).getD
        ((contEmptyIdx row numCols).length - values.length + k) 0) "" =
      values.getD k "" := by
  unfold contFill
  dsimp only
  rw [if_pos hle]
  unfold List.enum
  rw [contFill_right_fold_eq (contEmptyIdx row numCols)
    ((contEmptyIdx row numCols).length - values.length) values 0 row]
  simp only [Nat.add_zero]
  exact contRightFold_getD (contEmptyIdx row numCols)
    (contEmptyIdx_nodup row numCols) values _ row
    (fun e he => hrow ▸ contEmptyIdx_lt_of_mem row numCols e he)
    (by omega) k hk

/-- When the values outnumber the empty slots, the redistribution is
left-aligned and truncating: empty slot `k` receives value `k`, and the
values past the last slot are dropped. -/
theorem contFill_getD_left (row : Row) (values : List String)
    (numCols k : Nat) (hrow : row.length = numCols)
    (hgt : (contEmptyIdx row numCols).length < values.length)
    (hk : k < (contEmptyIdx row numCols).length) :
    (contFill row values numCols).getD
      ((contEmptyIdx row numCols).getD k 0) "" = values.getD k "" := by
  unfold contFill
  dsimp only
  rw [if_neg (Nat.not_le.2 hgt)]
  unfold List.enum
  have h := contLeftFold_getD values (contEmptyIdx row numCols) 0 row
    (contEmptyIdx_nodup row numCols)
    (fun e he => hrow ▸ contEmptyIdx_lt_of_mem row numCols e he)
    k hk (by omega)
  simpa using h

/-- The redistribution never overwrites a non-blank cell. -/
theorem contFill_getD_frame (row : Row) (values : List String)
    (numCols j : Nat) (hj : j ∉ contEmptyIdx row numCols) :
    (contFill row values numCols).getD j "" = row.getD j "" := by
  unfold contFill
  dsimp only
  split
  · rename_i hle
    unfold List.enum
    rw [contFill_right_fold_eq (contEmptyIdx row numCols)
      ((contEmptyIdx row numCols).length - values.length) values 0 row]
    simp only [Nat.add_zero]
    apply contRightFold_notarget
    intro m hm
    have hidx : (contEmptyIdx row numCols).length - values.length + m <
        (contEmptyIdx row numCols).length := by omega
    rw [List.getD_eq_getElem?_getD, List.getElem?_eq_getElem hidx]
    simp only [Option.getD_some]
    intro he
    exact hj (he ▸ List.getElem_mem hidx)
  · unfold List.enum
    exact contLeftFold_notarget values (contEmptyIdx row numCols) 0 row j hj

/-- A two-row run of `_merge_continuation_rows`: the continuation row is
kept separate exactly when it carries differing numeric data, and otherwise
folded through `contFill`. -/
theorem mergeContinuationRows_two (r c : Row)
    (h : ¬(pyStrip ((padTrim c 18).getD 0 "") ≠ "" ∧
      pyStrip ((padTrim c 18).getD 0 "") ≠ "-" ∧
      looksLikeNo (pyStrip ((padTrim c 18).getD 0 "")) = true)) :
    mergeContinuationRows [r, c] 18 =
      if contDiffNumeric (padTrim r 18) (padTrim c 18) 18 then
        [padTrim r 18, padTrim c 18]
      else if contValues (padTrim c 18) 18 = [] then [padTrim r 18]
      else [contFill (padTrim r 18) (contValues (padTrim c 18) 18) 18] := by
  have hb : (pyStrip ((padTrim c 18).getD 0 "") ≠ "" &&
      pyStrip ((padTrim c 18).getD 0 "") ≠ "-" &&
      looksLikeNo (pyStrip ((padTrim c 18).getD 0 ""))) ≠ true := by
    intro hx
    simp only [Bool.and_eq_true, decide_eq_true_eq, ne_eq] at hx
    exact h ⟨hx.1.1, hx.1.2, hx.2⟩
  unfold mergeContinuationRows
  rw [if_neg (by simp)]
  have hstep : mcrInner 18 (padTrim r 18) [c] =
      if contDiffNumeric (padTrim r 18) (padTrim c 18) 18 then
        (padTrim r 18, [c])
      else if contValues (padTrim c 18) 18 = [] then
        (padTrim r 18, ([] : List Row))
      else (contFill (padTrim r 18) (contValues (padTrim c 18) 18) 18,
        ([] : List Row)) := by
    simp only [mcrInner]
    rw [if_neg hb]
  rw [show mcrOuter 18 [r, c].length [r, c] =
    (mcrInner 18 (padTrim r 18) [c]).1 ::
      mcrOuter 18 1 (mcrInner 18 (padTrim r 18) [c]).2 from rfl, hstep]
  split
  · rfl
  · split
    · rfl
    · rfl

/-- C8 (amended): in continuation-row merging a row whose sequence-number
cell is blank is folded into the preceding row only when it carries no
numeric-block value differing from the preceding row's (otherwise both rows
are kept); when folded, its non-blank stripped values fill the preceding
row's blank slots right-aligned when the slots suffice (slot `start + k`
gets value `k`, `start` being the slot surplus) and left-aligned with the
excess values dropped when they do not; non-blank cells of the preceding
row are never overwritten. -/
theorem c8_continuation_merge_behavior :
    (∀ r c : Row,
      ¬(pyStrip ((padTrim c 18).getD 0 "") ≠ "" ∧
        pyStrip ((padTrim c 18).getD 0 "") ≠ "-" ∧
        looksLikeNo (pyStrip ((padTrim c 18).getD 0 "")) = true) →
      mergeContinuationRows [r, c] 18 =
        if contDiffNumeric (padTrim r 18) (padTrim c 18) 18 then
          [padTrim r 18, padTrim c 18]
        else if contValues (padTrim c 18) 18 = [] then [padTrim r 18]
        else [contFill (padTrim r 18) (contValues (padTrim c 18) 18) 18]) ∧
    (∀ (row : Row) (values : List String) (numCols k : Nat),
      row.length = numCols →
      values.length ≤ (contEmptyIdx row numCols).length →
      k < values.length →
      (contFill row values numCols).getD
        ((contEmptyIdx row numCols).getD
          ((contEmptyIdx row numCols).length - values.length + k) 0) "" =
        values.getD k "") ∧
    (∀ (row : Row) (values : List String) (numCols k : Nat),
      row.length = numCols →
      (contEmptyIdx row numCols).length < values.length →
      k < (contEmptyIdx row numCols).length →
      (contFill row values numCols).getD
        ((contEmptyIdx row numCols).getD k 0) "" = values.getD k "") ∧
    (∀ (row : Row) (values : List String) (numCols j : Nat),
      j ∉ contEmptyIdx row numCols →
      (contFill row values numCols).getD j "" = row.getD j "") :=
  ⟨mergeContinuationRows_two, contFill_getD_right, contFill_getD_left,
    contFill_getD_frame⟩

set_option maxRecDepth 1000000 in
/-- C8 (counterexample): (a) a continuation row with a blank sequence
number but a differing numeric value in column 11 is NOT folded into the
preceding row (two rows survive); (b) with one empty slot and two incoming
values the fill is left-aligned and truncating — `"abc"` lands in the
single slot and `"def"` is dropped — not right-aligned as claimed for
mismatched counts. -/
theorem c8_continuation_merge_counterexample :
    (mergeContinuationRows
        [["1", "-", "-", "-", "-", "-", "-", "-", "-", "-", "-", "1,000,000",
          "-", "-", "-", "-", "-", "-"],
         ["-", "-", "-", "-", "-", "-", "-", "-", "-", "-", "-", "2,000,000",
          "-", "-", "-", "-", "-", "-"]] 18).length = 2 ∧
    (mergeContinuationRows
        [["1", "a", "b", "c", "d", "", "e", "f", "g", "h", "i", "j", "k",
          "l", "m", "n", "o", "p"],
         ["-", "abc", "def", "-", "-", "-", "-", "-", "-", "-", "-", "-",
          "-", "-", "-", "-", "-", "-"]] 18 =
      [["1", "a", "b", "c", "d", "abc", "e", "f", "g", "h", "i", "j", "k",
        "l", "m", "n", "o", "p"]]) := by
  refine ⟨by decide, by decide⟩

/-- C9 (confirmed): when spans were extracted and grouped but no grouped
row passes the header test, the engine returns the best-effort flat table
built purely from the blue spans' geometry (rows grouped by vertical
proximity, cells split at horizontal gaps, no schema alignment) rather than
raising or failing. -/
theorem c9_no_header_flat_fallback (spans : List Span)
    (h1 : spans.isEmpty = false)
    (h2 : (groupSpansIntoRows spans).isEmpty = false)
    (h3 : ∀ r ∈ groupSpansIntoRows spans,
      rowLooksLikeHeader r.spans = false) :
    buildTableDispatch spans =
      BuildOutcome.flat (buildTableFromSpans
        (spans.filter (fun s => s.isBlue))) := by
  unfold buildTableDispatch
  rw [if_neg (by rw [h1]; exact Bool.false_ne_true)]
  dsimp only
  rw [if_neg (by rw [h2]; exact Bool.false_ne_true)]
  rw [List.findIdx?_eq_none_iff.2 h3]

/-- Concrete instance of the no-header fallback: a single non-header span
yields the flat geometric table. -/
theorem c9_no_header_flat_fallback_witness :
    (([⟨"hello", 1, PyQ.ofInt 0, PyQ.ofInt 0, PyQ.ofInt 10, PyQ.ofInt 10,
        true⟩] : List Span).isEmpty = false) ∧
    buildTableDispatch
        [⟨"hello", 1, PyQ.ofInt 0, PyQ.ofInt 0, PyQ.ofInt 10, PyQ.ofInt 10,
          true⟩] =
      BuildOutcome.flat (buildTableFromSpans
        (([⟨"hello", 1, PyQ.ofInt 0, PyQ.ofInt 0, PyQ.ofInt 10, PyQ.ofInt 10,
            true⟩] : List Span).filter (fun s => s.isBlue))) :=
  ⟨by decide,
   c9_no_header_flat_fallback _ (by decide) (by decide) (by decide)⟩

/-- Tokens produced by splitting are non-empty and free of whitespace. -/
theorem pySplitL_tokens : ∀ (n : Nat) (l : List Char), l.length ≤ n →
    ∀ tok ∈ pySplitL l, tok ≠ [] ∧ ∀ ch ∈ tok, pyWs ch = false := by
  intro n
  induction n with
  | zero =>
    intro l hl
    rw [List.eq_nil_of_length_eq_zero (Nat.le_zero.1 hl)]
    intro tok htok
    exact absurd htok (List.not_mem_nil tok)
  | succ n ih =>
    intro l hl tok htok
    cases l with
    | nil => exact absurd htok (List.not_mem_nil tok)
    | cons c rest =>
      rw [pySplitL_cons] at htok
      simp only [List.length_cons, Nat.succ_le_succ_iff] at hl
      by_cases hc : pyWs c
      · rw [if_pos hc] at htok
        exact ih rest hl tok htok
      · rw [if_neg hc] at htok
        rcases List.mem_cons.1 htok with h | h
        · subst h
          refine ⟨List.cons_ne_nil _ _, ?_⟩
          intro ch hch
          rcases List.mem_cons.1 hch with h | h
          · subst h
            exact Bool.not_eq_true (pyWs ch) ▸ hc
          · have := List.mem_takeWhile_imp h
            simpa using this
        · exact ih _ (le_trans (length_dropWhile_le _ rest) hl) tok h

/-- The membership form of the previous lemma. -/
theorem tok_shape_of_mem_pySplitL (l tok : List Char) (h : tok ∈ pySplitL l) :
    tok ≠ [] ∧ ∀ ch ∈ tok, pyWs ch = false :=
  pySplitL_tokens l.length l (Nat.le_refl _) tok h

/-- A non-empty whitespace-free character list splits into itself. -/
theorem pySplitL_single (tok : List Char) (hne : tok ≠ [])
    (hws : ∀ ch ∈ tok, pyWs ch = false) : pySplitL tok = [tok] := by
  cases tok with
  | nil => exact absurd rfl hne
  | cons c rest =>
    have hrest : ∀ x ∈ rest, (!pyWs x) = true := fun x hx => by
      rw [hws x (List.mem_cons_of_mem c hx)]; rfl
    rw [pySplitL_cons,
      if_neg (by rw [hws c (List.mem_cons_self c rest)]; exact
        Bool.false_ne_true),
      List.takeWhile_eq_self_iff.2 hrest,
      List.dropWhile_eq_nil_iff.2 hrest]
    rfl

/-- Splitting ignores an all-whitespace list. -/
theorem pySplitL_all_ws (l : List Char) (h : ∀ ch ∈ l, pyWs ch = true) :
    pySplitL l = [] := by
  induction l with
  | nil => rfl
  | cons c rest ih =>
    rw [pySplitL_cons, if_pos (h c (List.mem_cons_self c rest))]
    exact ih (fun ch hch => h ch (List.mem_cons_of_mem c hch))

/-- Appending trailing whitespace does not change the token list. -/
theorem pySplitL_append_ws : ∀ (n : Nat) (a b : List Char), a.length ≤ n →
    (∀ ch ∈ b, pyWs ch = true) → pySplitL (a ++ b) = pySplitL a := by
  intro n
  induction n with
  | zero =>
    intro a b ha hb
    rw [List.eq_nil_of_length_eq_zero (Nat.le_zero.1 ha), List.nil_append]
    exact pySplitL_all_ws b hb
  | succ n ih =>
    intro a b ha hb
    cases a with
    | nil =>
      rw [List.nil_append]
      exact pySplitL_all_ws b hb
    | cons c rest =>
      simp only [List.length_cons, Nat.succ_le_succ_iff] at ha
      rw [List.cons_append, pySplitL_cons, pySplitL_cons]
      by_cases hc : pyWs c
      · rw [if_pos hc, if_pos hc]
        exact ih rest b ha hb
      · rw [if_neg hc, if_neg hc]
        have htwb : b.takeWhile (fun x => !pyWs x) = [] := by
          cases b with
          | nil => rfl
          | cons x xs =>
            rw [List.takeWhile_cons,
              if_neg (by rw [hb x (List.mem_cons_self x xs)]; simp)]
        have hdwb : b.dropWhile (fun x => !pyWs x) = b := by
          cases b with
          | nil => rfl
          | cons x xs =>
            rw [List.dropWhile_cons,
              if_neg (by rw [hb x (List.mem_cons_self x xs)]; simp)]
        by_cases hdrop : rest.dropWhile (fun x => !pyWs x) = []
        · have htake : rest.takeWhile (fun x => !pyWs x) = rest := by
            have := List.takeWhile_append_dropWhile (fun x => !pyWs x) rest
            rw [hdrop, List.append_nil] at this
            exact this
          rw [List.takeWhile_append, htake, List.dropWhile_append]
          simp only [hdrop, List.isEmpty_nil, if_true, if_pos rfl, htwb,
            List.append_nil, hdwb]
          rw [pySplitL_all_ws b hb]
          rfl
        · have hlen : (rest.takeWhile (fun x => !pyWs x)).length ≠
              rest.length := by
            intro hEq
            have := List.takeWhile_append_dropWhile (fun x => !pyWs x) rest
            have hlen2 := congrArg List.length this
            rw [List.length_append] at hlen2
            have : (rest.dropWhile (fun x => !pyWs x)).length = 0 := by omega
            exact hdrop (List.eq_nil_of_length_eq_zero this)
          rw [List.takeWhile_append, if_neg hlen, List.dropWhile_append]
          have hne : (rest.dropWhile (fun x => !pyWs x)).isEmpty = false := by
            cases hdd : rest.dropWhile (fun x => !pyWs x) with
            | nil => exact absurd hdd hdrop
            | cons y ys => rfl
          rw [hne]
          simp only [Bool.false_eq_true, if_false]
          exact congrArg _ (ih _ b
            (le_trans (length_dropWhile_le _ rest) ha) hb)

/-- Leading whitespace does not change the token list. -/
theorem pySplitL_dropWhile_ws (l : List Char) :
    pySplitL (l.dropWhile pyWs) = pySplitL l := by
  induction l with
  | nil => rfl
  | cons c rest ih =>
    rw [List.dropWhile_cons]
    by_cases hc : pyWs c
    · rw [if_pos hc, pySplitL_cons, if_pos hc]
      exact ih
    · rw [if_neg hc]

/-- Stripping does not change the token list. -/
theorem pySplitL_strip (l : List Char) :
    pySplitL (pyStripL l) = pySplitL l := by
  have hsplit : pyStripL l ++
      ((l.dropWhile pyWs).reverse.takeWhile pyWs).reverse =
      l.dropWhile pyWs := by
    rw [pyStripL_def]
    have h1 := List.takeWhile_append_dropWhile pyWs (l.dropWhile pyWs).reverse
    have h2 := congrArg List.reverse h1
    rw [List.reverse_append, List.reverse_reverse] at h2
    exact h2
  have hws : ∀ ch ∈ ((l.dropWhile pyWs).reverse.takeWhile pyWs).reverse,
      pyWs ch = true := by
    intro ch hch
    rw [List.mem_reverse] at hch
    exact List.mem_takeWhile_imp hch
  calc pySplitL (pyStripL l)
      = pySplitL (pyStripL l ++
          ((l.dropWhile pyWs).reverse.takeWhile pyWs).reverse) :=
        (pySplitL_append_ws (pyStripL l).length _ _ (Nat.le_refl _) hws).symm
    _ = pySplitL (l.dropWhile pyWs) := by rw [hsplit]
    _ = pySplitL l := pySplitL_dropWhile_ws l

/-- The newline substitution realized by `replace("\n", " ")`. -/
theorem pyReplaceCL_nl_eq_map (l : List Char) :
    pyReplaceCL '\x0a' [' '] l =
      l.map (fun ch => if ch = '\x0a' then ' ' else ch) := by
  induction l with
  | nil => rfl
  | cons a rest ih =>
    rw [pyReplaceCL, List.map_cons]
    by_cases ha : a = '\x0a'
    · rw [if_pos ha, if_pos ha, ih]
      rfl
    · rw [if_neg ha, if_neg ha, ih]

/-- The newline substitution preserves whitespace-ness. -/
theorem pyWs_nl_subst (ch : Char) :
    pyWs (if ch = '\x0a' then ' ' else ch) = pyWs ch := by
  by_cases h : ch = '\x0a'
  · rw [if_pos h, h]
    decide
  · rw [if_neg h]

/-- Replacing newlines by spaces does not change the token list. -/
theorem pySplitL_map_nl : ∀ (n : Nat) (l : List Char), l.length ≤ n →
    pySplitL (l.map (fun ch => if ch = '\x0a' then ' ' else ch)) =
      pySplitL l := by
  intro n
  induction n with
  | zero =>
    intro l hl
    rw [List.eq_nil_of_length_eq_zero (Nat.le_zero.1 hl)]
    rfl
  | succ n ih =>
    intro l hl
    cases l with
    | nil => rfl
    | cons c rest =>
      simp only [List.length_cons, Nat.succ_le_succ_iff] at hl
      rw [List.map_cons, pySplitL_cons, pySplitL_cons, pyWs_nl_subst c]
      by_cases hc : pyWs c
      · rw [if_pos hc, if_pos hc]
        exact ih rest hl
      · rw [if_neg hc, if_neg hc]
        have hcn : (if c = '\x0a' then ' ' else c) = c := by
          rw [if_neg (fun h => hc (by rw [h]; decide))]
        have hpred : ((fun x => !pyWs x) ∘
            (fun ch => if ch = '\x0a' then ' ' else ch)) =
            (fun x => !pyWs x) := by
          funext x
          simp only [Function.comp_apply, pyWs_nl_subst]
        rw [List.takeWhile_map, List.dropWhile_map, hpred]
        have htake : (rest.takeWhile (fun x => !pyWs x)).map
            (fun ch => if ch = '\x0a' then ' ' else ch) =
            rest.takeWhile (fun x => !pyWs x) := by
          have hTP : ∀ x ∈ rest.takeWhile (fun x => !pyWs x),
              (if x = '\x0a' then ' ' else x) = id x := by
            intro x hx
            have hxw := List.mem_takeWhile_imp hx
            simp only [Bool.not_eq_eq_eq_not, Bool.not_true] at hxw
            have hxn : x ≠ '\x0a' := by
              intro h
              rw [h] at hxw
              exact absurd hxw (by decide)
            simp [hxn]
          rw [List.map_congr_left hTP, List.map_id]
        rw [hcn, htake]
        exact congrArg _ (ih _ (le_trans (length_dropWhile_le _ rest) hl))

/-- Space-joining a list of tokens splits back into exactly those tokens. -/
theorem pySplitL_joinSpace : ∀ (parts : List (List Char)),
    (∀ p ∈ parts, p ≠ [] ∧ ∀ ch ∈ p, pyWs ch = false) →
    pySplitL (joinSpaceL parts) = parts := by
  intro parts
  induction parts with
  | nil => intro _; rfl
  | cons t ts ih =>
    intro h
    cases ts with
    | nil =>
      show pySplitL t = [t]
      exact pySplitL_single t (h t (List.mem_cons_self t [])).1
        (h t (List.mem_cons_self t [])).2
    | cons t' ts' =>
      obtain ⟨hne, hws⟩ := h t (List.mem_cons_self t (t' :: ts'))
      cases t with
      | nil => exact absurd rfl hne
      | cons c tc =>
        show pySplitL (c :: tc ++ ' ' :: joinSpaceL (t' :: ts')) = _
        rw [List.cons_append, pySplitL_cons,
          if_neg (by rw [hws c (List.mem_cons_self c tc)]; exact
            Bool.false_ne_true)]
        have htc : ∀ x ∈ tc, (!pyWs x) = true := fun x hx => by
          rw [hws x (List.mem_cons_of_mem c hx)]; rfl
        rw [List.takeWhile_append_of_pos htc,
          List.dropWhile_append_of_pos htc, List.takeWhile_cons,
          List.dropWhile_cons]
        rw [if_neg (by decide), if_neg (by decide)]
        rw [List.append_nil, pySplitL_cons, if_pos (by decide)]
        exact congrArg _ (ih (fun p hp => h p (List.mem_cons_of_mem _ hp)))

/-- Tokens of a string split are non-empty and whitespace-free. -/
theorem tok_of_mem_pySplit (s t : String) (h : t ∈ pySplit s) :
    t.data ≠ [] ∧ ∀ ch ∈ t.data, pyWs ch = false := by
  unfold pySplit at h
  rcases List.mem_map.1 h with ⟨tokL, htokL, rfl⟩
  exact tok_shape_of_mem_pySplitL _ _ htokL

/-- A token splits into itself. -/
theorem pySplit_single (t : String) (hne : t.data ≠ [])
    (hws : ∀ ch ∈ t.data, pyWs ch = false) : pySplit t = [t] := by
  unfold pySplit
  rw [pySplitL_single t.data hne hws]
  rfl

/-- Stripping does not change a string's token list. -/
theorem pySplit_strip (s : String) : pySplit (pyStrip s) = pySplit s := by
  unfold pySplit pyStrip
  exact congrArg (List.map String.mk) (pySplitL_strip s.data)

/-- Replacing newlines by spaces does not change a string's token list. -/
theorem pySplit_replace_nl (s : String) :
    pySplit (pyReplaceC s '\x0a' " ") = pySplit s := by
  unfold pySplit pyReplaceC
  refine congrArg (List.map String.mk) ?_
  show pySplitL (pyReplaceCL '\x0a' (" " : String).data s.data) =
    pySplitL s.data
  rw [show (" " : String).data = [' '] from rfl, pyReplaceCL_nl_eq_map,
    pySplitL_map_nl s.data.length s.data (Nat.le_refl _)]

/-- Space-joining tokens splits back into exactly those tokens. -/
theorem pySplit_joinSpace (ts : List String)
    (h : ∀ t ∈ ts, t.data ≠ [] ∧ ∀ ch ∈ t.data, pyWs ch = false) :
    pySplit (pyJoinSpace ts) = ts := by
  unfold pySplit pyJoinSpace
  rw [show (String.mk (joinSpaceL (ts.map String.data))).data =
    joinSpaceL (ts.map String.data) from rfl]
  rw [pySplitL_joinSpace (ts.map String.data) (by
    intro p hp
    rcases List.mem_map.1 hp with ⟨t, ht, rfl⟩
    exact h t ht)]
  rw [List.map_map]
  have hid : ∀ t ∈ ts, (String.mk ∘ String.data) t = id t := fun t _ => rfl
  rw [List.map_congr_left hid, List.map_id]

/-- A cell's tokens are row tokens. -/
theorem mem_rowTokens_of_mem (r : Row) (c t : String) (hc : c ∈ r)
    (ht : t ∈ pySplit c) : t ∈ rowTokens r := by
  unfold rowTokens
  exact List.mem_flatten_of_mem (List.mem_map_of_mem pySplit hc) ht

/-- A `getD`-read cell's tokens are row tokens. -/
theorem mem_rowTokens_getD (r : Row) (j : Nat) (t : String)
    (ht : t ∈ pySplit (r.getD j "")) : t ∈ rowTokens r := by
  by_cases hj : j < r.length
  · refine mem_rowTokens_of_mem r _ t ?_ ht
    rw [List.getD_eq_getElem?_getD, List.getElem?_eq_getElem hj]
    exact List.getElem_mem hj
  · rw [List.getD_eq_getElem?_getD, List.getElem?_eq_none
      (Nat.le_of_not_lt hj)] at ht
    exact absurd ht (List.not_mem_nil t)

/-- The sentinel's only token is the sentinel. -/
theorem valTok_dash (r : Row) :
    ∀ t ∈ pySplit "-", t ∈ rowTokens r ∨ t = "-" := by
  intro t ht
  right
  rw [show pySplit "-" = ["-"] from rfl] at ht
  simpa using ht

/-- Tokens of a corrector cell read (`getC`) come from the row or are the
sentinel. -/
theorem valTok_getC (r : Row) (j : Nat) :
    ∀ t ∈ pySplit (getC r j), t ∈ rowTokens r ∨ t = "-" := by
  intro t ht
  unfold getC pyOr at ht
  split at ht
  · exact valTok_dash r t ht
  · rw [pySplit_strip] at ht
    exact Or.inl (mem_rowTokens_getD r j t ht)

/-- Tokens after a `set` come from the row or the written value. -/
theorem rowTokens_set (r : Row) (j : Nat) (v t : String)
    (ht : t ∈ rowTokens (r.set j v)) : t ∈ rowTokens r ∨ t ∈ pySplit v := by
  unfold rowTokens at ht
  rcases List.mem_flatten.1 ht with ⟨l, hl, htl⟩
  rcases List.mem_map.1 hl with ⟨cell, hcell, rfl⟩
  rcases List.mem_or_eq_of_mem_set hcell with h | h
  · exact Or.inl (mem_rowTokens_of_mem r cell t h htl)
  · subst h
    exact Or.inr htl

/-- Tokens after sentinel padding come from the row or are the sentinel. -/
theorem rowTokens_padTo (r : Row) (n : Nat) (t : String)
    (ht : t ∈ rowTokens (padTo r n)) : t ∈ rowTokens r ∨ t = "-" := by
  unfold rowTokens padTo at ht
  rcases List.mem_flatten.1 ht with ⟨l, hl, htl⟩
  rcases List.mem_map.1 hl with ⟨cell, hcell, rfl⟩
  rcases List.mem_append.1 hcell with h | h
  · exact Or.inl (mem_rowTokens_of_mem r cell t h htl)
  · have hdash : cell = "-" := List.eq_of_mem_replicate h
    subst hdash
    rw [show pySplit "-" = ["-"] from rfl] at htl
    right
    simpa using htl

/-- Writing a provenance-respecting value preserves token provenance. -/
theorem tokStep_set (base cur : Row) (j : Nat) (v : String)
    (hbc : ∀ t ∈ rowTokens cur, t ∈ rowTokens base ∨ t = "-")
    (hv : ∀ t ∈ pySplit v, t ∈ rowTokens base ∨ t = "-") :
    ∀ t ∈ rowTokens (cur.set j v), t ∈ rowTokens base ∨ t = "-" := by
  intro t ht
  rcases rowTokens_set cur j v t ht with h | h
  · exact hbc t h
  · exact hv t h

/-- Sentinel padding preserves token provenance. -/
theorem tokStep_pad (base cur : Row) (n : Nat)
    (hbc : ∀ t ∈ rowTokens cur, t ∈ rowTokens base ∨ t = "-") :
    ∀ t ∈ rowTokens (padTo cur n), t ∈ rowTokens base ∨ t = "-" := by
  intro t ht
  rcases rowTokens_padTo cur n t ht with h | h
  · exact hbc t h
  · exact Or.inr h

/-- Token provenance is reflexive. -/
theorem tokRefl (r : Row) :
    ∀ t ∈ rowTokens r, t ∈ rowTokens r ∨ t = "-" :=
  fun _ ht => Or.inl ht

/-- `getC` reads through a provenance-respecting intermediate row. -/
theorem valTok_getC_of (base cur : Row) (j : Nat)
    (hbc : ∀ t ∈ rowTokens cur, t ∈ rowTokens base ∨ t = "-") :
    ∀ t ∈ pySplit (getC cur j), t ∈ rowTokens base ∨ t = "-" := by
  intro t ht
  rcases valTok_getC cur j t ht with h | h
  · exact hbc t h
  · exact Or.inr h

/-- Token-provenance composition. -/
theorem tokTrans (base mid cur : Row)
    (h1 : ∀ t ∈ rowTokens mid, t ∈ rowTokens base ∨ t = "-")
    (h2 : ∀ t ∈ rowTokens cur, t ∈ rowTokens mid ∨ t = "-") :
    ∀ t ∈ rowTokens cur, t ∈ rowTokens base ∨ t = "-" := by
  intro t ht
  rcases h2 t ht with h | h
  · exact h1 t h
  · exact Or.inr h

/-- A fold whose step keeps the accumulator or selects the scanned element
yields an element or the initial value. -/
theorem foldl_opt_mem {α : Type} (g : Option α → α → Option α)
    (hg : ∀ acc p, g acc p = acc ∨ g acc p = Option.some p) :
    ∀ (l : List α) (init : Option α) (x : α),
    l.foldl g init = Option.some x → x ∈ l ∨ init = Option.some x := by
  intro l
  induction l with
  | nil => intro init x h; exact Or.inr h
  | cons p ps ih =>
    intro init x h
    rw [List.foldl_cons] at h
    rcases ih (g init p) x h with h2 | h2
    · exact Or.inl (List.mem_cons_of_mem p h2)
    · rcases hg init p with h3 | h3
      · exact Or.inr (h3 ▸ h2)
      · rw [h3] at h2
        have : p = x := Option.some.inj h2
        exact Or.inl (this ▸ List.mem_cons_self p ps)

/-- Tokens of a single extracted token respect provenance. -/
theorem valTok_of_tok (base : Row) (p : String)
    (hp : p ∈ rowTokens base ∨ p = "-")
    (htok : p.data ≠ [] ∧ ∀ ch ∈ p.data, pyWs ch = false) :
    ∀ t ∈ pySplit p, t ∈ rowTokens base ∨ t = "-" := by
  intro t ht
  rw [pySplit_single p htok.1 htok.2] at ht
  have : t = p := by simpa using ht
  exact this ▸ hp

/-- Provenance of a token of a provenance-respecting value. -/
theorem valTok_part (base : Row) (v p : String)
    (hv : ∀ t ∈ pySplit v, t ∈ rowTokens base ∨ t = "-")
    (hp : p ∈ pySplit v) :
    ∀ t ∈ pySplit p, t ∈ rowTokens base ∨ t = "-" :=
  valTok_of_tok base p (hv p hp) (tok_of_mem_pySplit v p hp)

/-- The Persentase (1) fill loop preserves token provenance. -/
theorem pfLoopA_tok (base : Row) (hasP2 : Bool) :
    ∀ (pf : List (Nat × String × Bool)) (cells : Row),
    (∀ e ∈ pf, ∀ t ∈ pySplit e.2.1, t ∈ rowTokens base ∨ t = "-") →
    (∀ t ∈ rowTokens cells, t ∈ rowTokens base ∨ t = "-") →
    ∀ t ∈ rowTokens (pfLoopA hasP2 pf cells),
      t ∈ rowTokens base ∨ t = "-" := by
  intro pf
  induction pf with
  | nil => intro cells _ hbc; exact hbc
  | cons e rest ih =>
    intro cells hpf hbc
    obtain ⟨pidx, pstr, pin⟩ := e
    show ∀ t ∈ rowTokens (pfLoopA hasP2 ((pidx, pstr, pin) :: rest) cells), _
    rw [pfLoopA]
    have hstr : ∀ t ∈ pySplit pstr, t ∈ rowTokens base ∨ t = "-" :=
      hpf (pidx, pstr, pin) (List.mem_cons_self _ rest)
    have hrest : ∀ e ∈ rest, ∀ t ∈ pySplit e.2.1,
        t ∈ rowTokens base ∨ t = "-" :=
      fun e he => hpf e (List.mem_cons_of_mem _ he)
    split
    · exact ih cells hrest hbc
    · split
      · split
        · exact tokStep_set base _ pidx "-"
            (tokStep_set base cells 13 pstr hbc hstr) (valTok_dash base)
        · exact tokStep_set base cells 13 pstr hbc hstr
      · split
        · exact tokStep_set base _ 16 "-"
            (tokStep_set base cells 13 pstr hbc hstr) (valTok_dash base)
        · exact ih cells hrest hbc

/-- The Persentase (2) fill loop preserves token provenance. -/
theorem pfLoopB_tok (base : Row) :
    ∀ (pf : List (Nat × String × Bool)) (cnt : Nat) (cells : Row),
    (∀ e ∈ pf, ∀ t ∈ pySplit e.2.1, t ∈ rowTokens base ∨ t = "-") →
    (∀ t ∈ rowTokens cells, t ∈ rowTokens base ∨ t = "-") →
    ∀ t ∈ rowTokens (pfLoopB cnt pf cells),
      t ∈ rowTokens base ∨ t = "-" := by
  intro pf
  induction pf with
  | nil => intro cnt cells _ hbc; exact hbc
  | cons e rest ih =>
    intro cnt cells hpf hbc
    obtain ⟨pidx, pstr, pin⟩ := e
    show ∀ t ∈ rowTokens (pfLoopB cnt ((pidx, pstr, pin) :: rest) cells), _
    rw [pfLoopB]
    have hstr : ∀ t ∈ pySplit pstr, t ∈ rowTokens base ∨ t = "-" :=
      hpf (pidx, pstr, pin) (List.mem_cons_self _ rest)
    have hrest : ∀ e ∈ rest, ∀ t ∈ pySplit e.2.1,
        t ∈ rowTokens base ∨ t = "-" :=
      fun e he => hpf e (List.mem_cons_of_mem _ he)
    split
    · exact ih (cnt + 1) cells hrest hbc
    · split
      · split
        · exact tokStep_set base _ pidx "-"
            (tokStep_set base (padTo cells 17) 16 pstr
              (tokStep_pad base cells 17 hbc) hstr) (valTok_dash base)
        · exact tokStep_set base (padTo cells 17) 16 pstr
            (tokStep_pad base cells 17 hbc) hstr
      · exact ih (cnt + 1) cells hrest hbc

/-- An in-range `getD` read is a member. -/
theorem getD_mem_of_lt {α : Type} (l : List α) (i : Nat) (d : α)
    (h : i < l.length) : l.getD i d ∈ l := by
  rw [List.getD_eq_getElem?_getD, List.getElem?_eq_getElem h]
  exact List.getElem_mem h

/-- Joining a token sublist of a provenance-respecting value respects
provenance. -/
theorem valTok_join_sub (base : Row) (v : String) (sub : List String)
    (hsub : ∀ p ∈ sub, p ∈ pySplit v)
    (hv : ∀ t ∈ pySplit v, t ∈ rowTokens base ∨ t = "-") :
    ∀ t ∈ pySplit (pyJoinSpace sub), t ∈ rowTokens base ∨ t = "-" := by
  intro t ht
  rw [pySplit_joinSpace sub
    (fun p hp => tok_of_mem_pySplit v p (hsub p hp))] at ht
  exact hv t (hsub t ht)

/-- `_fix_perubahan_split_percentage_then_number` preserves token
provenance. -/
theorem fixPerubahanSplit_tok (cells : Row) (numCols : Nat) :
    ∀ t ∈ rowTokens (fixPerubahanSplitPercentageThenNumber cells numCols),
      t ∈ rowTokens cells ∨ t = "-" := by
  unfold fixPerubahanSplitPercentageThenNumber
  dsimp only
  split
  · exact tokRefl cells
  · split
    · exact tokRefl cells
    · split
      · exact tokRefl cells
      · split
        · exact tokRefl cells
        · split
          · exact tokRefl cells
          · rename_i hlen _ _ _
            have hv : ∀ t ∈ pySplit (pyOr (pyStrip (cells.getD 17 "")) "-"),
                t ∈ rowTokens cells ∨ t = "-" := valTok_getC cells 17
            have hfirst : ∀ t ∈ pySplit (pyStrip
                ((pySplit (pyOr (pyStrip (cells.getD 17 "")) "-")).getD 0 "")),
                t ∈ rowTokens cells ∨ t = "-" := by
              rw [pySplit_strip]
              exact valTok_part cells _ _ hv
                (getD_mem_of_lt _ 0 "" (by omega))
            have hsecond : ∀ t ∈ pySplit (pyStrip (pyJoinSpace
                ((pySplit (pyOr (pyStrip (cells.getD 17 "")) "-")).drop 1))),
                t ∈ rowTokens cells ∨ t = "-" := by
              rw [pySplit_strip]
              exact valTok_join_sub cells _ _
                (fun p hp => List.mem_of_mem_drop hp) hv
            exact tokStep_set cells _ 17 _
              (tokStep_set cells (padTo cells 18) 16 _
                (tokStep_pad cells cells 18 (tokRefl cells)) hfirst) hsecond

/-- One pair step of `_fix_split_percentage_cells` preserves token
provenance. -/
theorem fspStep_tok (idxPct idxSaham : Nat) (cells : Row) :
    ∀ t ∈ rowTokens (fspStep idxPct idxSaham cells),
      t ∈ rowTokens cells ∨ t = "-" := by
  unfold fspStep
  dsimp only
  split
  · exact tokRefl cells
  · have hv : ∀ t ∈ pySplit (pyReplaceC
        (pyOr (pyStrip (cells.getD idxPct "")) "-") '\x0a' " "),
        t ∈ rowTokens cells ∨ t = "-" := by
      rw [pySplit_replace_nl]
      exact valTok_getC cells idxPct
    split
    · rename_i pp lp hpct hlarge
      have hpp : pp ∈ pySplit (pyReplaceC
          (pyOr (pyStrip (cells.getD idxPct "")) "-") '\x0a' " ") := by
        rcases foldl_opt_mem _ (fun acc p => by
            split
            · exact Or.inr rfl
            · exact Or.inl rfl) _ _ _ hpct with h | h
        · exact h
        · exact absurd h (by simp)
      have hlp : lp ∈ pySplit (pyReplaceC
          (pyOr (pyStrip (cells.getD idxPct "")) "-") '\x0a' " ") := by
        rcases foldl_opt_mem _ (fun acc p => by
            split
            · exact Or.inl rfl
            · split
              · exact Or.inr rfl
              · exact Or.inl rfl) _ _ _ hlarge with h | h
        · exact h
        · exact absurd h (by simp)
      split
      · exact tokStep_set cells _ idxSaham lp
          (tokStep_set cells _ idxPct pp
            (tokStep_pad cells cells _ (tokRefl cells))
            (valTok_part cells _ pp hv hpp))
          (valTok_part cells _ lp hv hlp)
      · exact tokStep_set cells _ idxPct pp
          (tokStep_pad cells cells _ (tokRefl cells))
          (valTok_part cells _ pp hv hpp)
    · rename_i pp hpct _
      have hpp : pp ∈ pySplit (pyReplaceC
          (pyOr (pyStrip (cells.getD idxPct "")) "-") '\x0a' " ") := by
        rcases foldl_opt_mem _ (fun acc p => by
            split
            · exact Or.inr rfl
            · exact Or.inl rfl) _ _ _ hpct with h | h
        · exact h
        · exact absurd h (by simp)
      exact tokStep_set cells _ idxPct pp
        (tokStep_pad cells cells _ (tokRefl cells))
        (valTok_part cells _ pp hv hpp)
    · exact tokRefl cells

/-- `_fix_split_percentage_cells` preserves token provenance. -/
theorem fixSplitPercentageCells_tok (cells : Row) (numCols : Nat) :
    ∀ t ∈ rowTokens (fixSplitPercentageCells cells numCols),
      t ∈ rowTokens cells ∨ t = "-" := by
  unfold fixSplitPercentageCells
  split
  · exact tokRefl cells
  · exact tokTrans cells (fspStep 13 12 cells) _
      (fspStep_tok 13 12 cells) (fspStep_tok 16 15 (fspStep 13 12 cells))

/-- The percentage/large-number scan of `_fix_jumlah_saham_split_percentage`
selects only elements of the scanned list. -/
theorem fjs_fold_mem :
    ∀ (parts : List String) (init : Option String × Option String),
    (∀ x, (parts.foldl (fun acc p =>
        if looksLikePercentageValue p then (Option.some p, acc.2)
        else if looksLikeLargeNumber p then
          (acc.1, match acc.2 with
                  | Option.none => Option.some p
                  | x => x)
        else acc) init).1 = Option.some x →
      x ∈ parts ∨ init.1 = Option.some x) ∧
    (∀ x, (parts.foldl (fun acc p =>
        if looksLikePercentageValue p then (Option.some p, acc.2)
        else if looksLikeLargeNumber p then
          (acc.1, match acc.2 with
                  | Option.none => Option.some p
                  | x => x)
        else acc) init).2 = Option.some x →
      x ∈ parts ∨ init.2 = Option.some x) := by
  intro parts
  induction parts with
  | nil => intro init; exact ⟨fun x h => Or.inr h, fun x h => Or.inr h⟩
  | cons p ps ih =>
    intro init
    rw [List.foldl_cons]
    constructor
    · intro x h
      rcases (ih _).1 x h with h2 | h2
      · exact Or.inl (List.mem_cons_of_mem p h2)
      · by_cases hp : looksLikePercentageValue p
        · rw [if_pos hp] at h2
          exact Or.inl ((Option.some.inj h2) ▸ List.mem_cons_self p ps)
        · rw [if_neg hp] at h2
          by_cases hl : looksLikeLargeNumber p
          · rw [if_pos hl] at h2
            exact Or.inr h2
          · rw [if_neg hl] at h2
            exact Or.inr h2
    · intro x h
      rcases (ih _).2 x h with h2 | h2
      · exact Or.inl (List.mem_cons_of_mem p h2)
      · by_cases hp : looksLikePercentageValue p
        · rw [if_pos hp] at h2
          exact Or.inr h2
        · rw [if_neg hp] at h2
          by_cases hl : looksLikeLargeNumber p
          · rw [if_pos hl] at h2
            cases hacc : init.2 with
            | none =>
              rw [hacc] at h2
              exact Or.inl ((Option.some.inj h2) ▸ List.mem_cons_self p ps)
            | some y =>
              rw [hacc] at h2
              exact Or.inr h2
          · rw [if_neg hl] at h2
            exact Or.inr h2

/-- One pair step of `_fix_jumlah_saham_split_percentage` preserves token
provenance. -/
theorem fjsStep_tok (idxJumlah idxPct : Nat) (cells : Row) :
    ∀ t ∈ rowTokens (fjsStep idxJumlah idxPct cells),
      t ∈ rowTokens cells ∨ t = "-" := by
  have hv : ∀ t ∈ pySplit (pyOr (pyStrip (cells.getD idxJumlah "")) "-"),
      t ∈ rowTokens cells ∨ t = "-" := valTok_getC cells idxJumlah
  unfold fjsStep
  dsimp only
  split
  · exact tokRefl cells
  · split
    · exact tokRefl cells
    · split
      · exact tokRefl cells
      · rename_i hne hlen x pctPart heq
        have hparts0 : (pySplit (pyOr (pyStrip (cells.getD idxJumlah ""))
            "-")).getD 0 "" ∈
            pySplit (pyOr (pyStrip (cells.getD idxJumlah "")) "-") :=
          getD_mem_of_lt _ 0 "" (by omega)
        have hpct : ∀ t ∈ pySplit pctPart,
            t ∈ rowTokens cells ∨ t = "-" := by
          by_cases hfp : looksLikePercentageValue (pyStrip ((pySplit
              (pyOr (pyStrip (cells.getD idxJumlah "")) "-")).getD 0 ""))
              = true
          · rw [if_pos hfp] at heq
            dsimp only at heq
            have he : pyStrip ((pySplit (pyOr (pyStrip
                (cells.getD idxJumlah "")) "-")).getD 0 "") = pctPart :=
              Option.some.inj heq
            rw [← he, pySplit_strip]
            exact valTok_part cells _ _ hv hparts0
          · rw [if_neg hfp] at heq
            dsimp only at heq
            rcases (fjs_fold_mem _ _).1 pctPart heq with hmem | habs
            · exact valTok_part cells _ _ hv hmem
            · exact absurd habs (by simp)
        split
        · exact tokRefl cells
        · have hbase : ∀ t ∈ rowTokens
              ((padTo cells (idxPct + 1)).set idxPct pctPart),
              t ∈ rowTokens cells ∨ t = "-" :=
            tokStep_set cells _ idxPct pctPart
              (tokStep_pad cells cells _ (tokRefl cells)) hpct
          split
          · rename_i largePart heq2
            have hlarge : ∀ t ∈ pySplit largePart,
                t ∈ rowTokens cells ∨ t = "-" := by
              by_cases hfp : looksLikePercentageValue (pyStrip ((pySplit
                  (pyOr (pyStrip (cells.getD idxJumlah "")) "-")).getD 0 ""))
                  = true
              · rw [if_pos hfp] at heq2
                dsimp only at heq2
                by_cases hlr : looksLikeLargeNumber (pyStrip (pyJoinSpace
                    (List.drop 1 (pySplit (pyOr (pyStrip
                      (cells.getD idxJumlah "")) "-"))))) = true
                · rw [if_pos hlr] at heq2
                  have he : pyStrip (pyJoinSpace (List.drop 1 (pySplit
                      (pyOr (pyStrip (cells.getD idxJumlah "")) "-")))) =
                      largePart := Option.some.inj heq2
                  rw [← he, pySplit_strip]
                  exact valTok_join_sub cells _ _
                    (fun p hp => List.mem_of_mem_drop hp) hv
                · rw [if_neg hlr] at heq2
                  exact absurd heq2 (by simp)
              · rw [if_neg hfp] at heq2
                dsimp only at heq2
                rcases (fjs_fold_mem _ _).2 largePart heq2 with hmem | habs
                · exact valTok_part cells _ _ hv hmem
                · exact absurd habs (by simp)
            exact tokStep_set cells _ idxJumlah largePart hbase hlarge
          · split
            · exact tokStep_set cells _ idxJumlah _ hbase
                (valTok_join_sub cells _ _
                  (fun p hp => List.mem_of_mem_filter hp) hv)
            · exact tokStep_set cells _ idxJumlah "-" hbase
                (valTok_dash cells)

/-- `_fix_jumlah_saham_split_percentage` preserves token provenance. -/
theorem fixJumlahSaham_tok (cells : Row) (numCols : Nat) :
    ∀ t ∈ rowTokens (fixJumlahSahamSplitPercentage cells numCols),
      t ∈ rowTokens cells ∨ t = "-" := by
  unfold fixJumlahSahamSplitPercentage
  split
  · exact tokRefl cells
  · exact tokTrans cells (fjsStep 11 13 cells) _
      (fjsStep_tok 11 13 cells) (fjsStep_tok 14 16 (fjsStep 11 13 cells))

/-- The address screen preserves token provenance. -/
theorem fnbAddressScreen_tok (numCols : Nat) (cells : Row) :
    ∀ t ∈ rowTokens (fnbAddressScreen numCols cells),
      t ∈ rowTokens cells ∨ t = "-" := by
  unfold fnbAddressScreen
  have hstep : ∀ (cs : Row) (idx : Nat),
      (∀ t ∈ rowTokens cs, t ∈ rowTokens cells ∨ t = "-") →
      ∀ t ∈ rowTokens (if numCols ≤ idx then cs
        else if getC cs idx ≠ "-" && looksLikeAddressOrWrongText (getC cs idx)
          then (padTo cs (idx + 1)).set idx "-" else cs),
        t ∈ rowTokens cells ∨ t = "-" := by
    intro cs idx hcs
    split
    · exact hcs
    · split
      · exact tokStep_set cells _ idx "-"
          (tokStep_pad cells cs _ hcs) (valTok_dash cells)
      · exact hcs
  exact hstep _ 15 (hstep _ 14 (hstep _ 12 (hstep _ 11 (tokRefl cells))))

/-- The Persentase (1) text swap preserves token provenance. -/
theorem fnbTextPct1_tok (numCols : Nat) (cells : Row) :
    ∀ t ∈ rowTokens (fnbTextPct1 numCols cells),
      t ∈ rowTokens cells ∨ t = "-" := by
  unfold fnbTextPct1
  dsimp only
  split
  · split
    · rename_i j heq
      exact tokStep_set cells _ j (getC cells 13)
        (tokStep_set cells cells 13 (getC cells j) (tokRefl cells)
          (valTok_getC cells j))
        (valTok_getC cells 13)
    · split
      · exact tokStep_set cells _ 13 "-"
          (tokStep_pad cells cells 14 (tokRefl cells)) (valTok_dash cells)
      · exact tokRefl cells
  · exact tokRefl cells

/-- The Persentase (1) swap-in preserves token provenance. -/
theorem fnbPct1Swap_tok (numCols : Nat) (cells : Row) :
    ∀ t ∈ rowTokens (fnbPct1Swap numCols cells),
      t ∈ rowTokens cells ∨ t = "-" := by
  unfold fnbPct1Swap
  dsimp only
  split
  · split
    · split
      · rename_i j heq _
        exact tokStep_set cells _ j "-"
          (tokStep_set cells cells 13 (getC cells j) (tokRefl cells)
            (valTok_getC cells j)) (valTok_dash cells)
      · rename_i j heq _
        exact tokStep_set cells _ j (getC cells 13)
          (tokStep_set cells cells 13 (getC cells j) (tokRefl cells)
            (valTok_getC cells j)) (valTok_getC cells 13)
    · exact tokRefl cells
  · exact tokRefl cells

/-- The lone-percentage move preserves token provenance. -/
theorem fnbLonePctMove_tok (numCols : Nat) (cells : Row) :
    ∀ t ∈ rowTokens (fnbLonePctMove numCols cells),
      t ∈ rowTokens cells ∨ t = "-" := by
  unfold fnbLonePctMove
  dsimp only
  split
  · exact tokStep_set cells _ 13 "-"
      (tokStep_set cells (padTo cells 17) 16 (getC cells 13)
        (tokStep_pad cells cells 17 (tokRefl cells)) (valTok_getC cells 13))
      (valTok_dash cells)
  · exact tokRefl cells

/-- The collected percentage list is made of corrector cell reads. -/
theorem fnbPercList_tok (numCols : Nat) (cells : Row) :
    ∀ e ∈ fnbPercList numCols cells,
      ∀ t ∈ pySplit e.2.1, t ∈ rowTokens cells ∨ t = "-" := by
  intro e he
  unfold fnbPercList at he
  dsimp only at he
  rcases List.mem_append.1 he with h | h
  · rcases List.mem_append.1 h with h2 | h2
    · split at h2
      · have : e = (13, getC cells 13, true) := by simpa using h2
        rw [this]
        exact valTok_getC cells 13
      · exact absurd h2 (List.not_mem_nil e)
    · split at h2
      · have : e = (16, getC cells 16, true) := by simpa using h2
        rw [this]
        exact valTok_getC cells 16
      · exact absurd h2 (List.not_mem_nil e)
  · rcases List.mem_filterMap.1 h with ⟨j, _, hj⟩
    split at hj
    · have he2 : (j, getC cells j, false) = e := by simpa using hj
      rw [← he2]
      exact valTok_getC cells j
    · exact absurd hj (by simp)

/-- The Persentase (1) fill preserves token provenance given a
provenance-respecting percentage list. -/
theorem fnbFillPct1_tok (base : Row) (pf : List (Nat × String × Bool))
    (cells : Row)
    (hpf : ∀ e ∈ pf, ∀ t ∈ pySplit e.2.1, t ∈ rowTokens base ∨ t = "-")
    (hbc : ∀ t ∈ rowTokens cells, t ∈ rowTokens base ∨ t = "-") :
    ∀ t ∈ rowTokens (fnbFillPct1 pf cells),
      t ∈ rowTokens base ∨ t = "-" := by
  unfold fnbFillPct1
  dsimp only
  split
  · exact pfLoopA_tok base _ pf cells hpf hbc
  · exact hbc

/-- The Persentase (2) fill preserves token provenance given a
provenance-respecting percentage list. -/
theorem fnbFillPct2_tok (base : Row) (numCols : Nat)
    (pf : List (Nat × String × Bool)) (cells : Row)
    (hpf : ∀ e ∈ pf, ∀ t ∈ pySplit e.2.1, t ∈ rowTokens base ∨ t = "-")
    (hbc : ∀ t ∈ rowTokens cells, t ∈ rowTokens base ∨ t = "-") :
    ∀ t ∈ rowTokens (fnbFillPct2 numCols pf cells),
      t ∈ rowTokens base ∨ t = "-" := by
  unfold fnbFillPct2
  dsimp only
  split
  · split
    · split
      · rename_i j heq
        split
        · exact tokStep_set base _ j "-"
            (tokStep_set base (padTo cells 17) 16 (getC cells j)
              (tokStep_pad base cells 17 hbc) (valTok_getC_of base cells j hbc))
            (valTok_dash base)
        · exact tokStep_set base (padTo cells 17) 16 (getC cells j)
            (tokStep_pad base cells 17 hbc) (valTok_getC_of base cells j hbc)
      · exact hbc
    · split
      · exact pfLoopB_tok base pf 0 cells hpf hbc
      · exact hbc
  · exact hbc

/-- The final Persentase searches preserve token provenance. -/
theorem fnbFinalSearch_tok (numCols : Nat) (cells : Row) :
    ∀ t ∈ rowTokens (fnbFinalSearch numCols cells),
      t ∈ rowTokens cells ∨ t = "-" := by
  unfold fnbFinalSearch
  dsimp only
  split
  · have hmid : ∀ (mid : Row),
        (∀ t ∈ rowTokens mid, t ∈ rowTokens cells ∨ t = "-") →
        ∀ t ∈ rowTokens (if getC mid 16 = "-" &&
            (hasLargeData (getC mid 14) || hasLargeData (getC mid 15)) then
          match (List.range numCols).find? (fun j =>
              j ≠ 16 && j ≠ 13 && looksLikePercentageValue (getC mid j)) with
          | Option.some j =>
            let mid2 := (padTo mid 17).set 16 (getC mid j)
            if j ≠ 17 then mid2.set j "-" else mid2
          | Option.none => mid
        else mid), t ∈ rowTokens cells ∨ t = "-" := by
      intro mid hmid
      split
      · split
        · rename_i j heq
          dsimp only
          split
          · exact tokStep_set cells _ j "-"
              (tokStep_set cells (padTo mid 17) 16 (getC mid j)
                (tokStep_pad cells mid 17 hmid)
                (valTok_getC_of cells mid j hmid))
              (valTok_dash cells)
          · exact tokStep_set cells (padTo mid 17) 16 (getC mid j)
              (tokStep_pad cells mid 17 hmid)
              (valTok_getC_of cells mid j hmid)
        · exact hmid
      · exact hmid
    refine hmid _ ?_
    split
    · rename_i j heq
      split
      · exact tokStep_set cells _ j "-"
          (tokStep_set cells cells 13 (getC cells j) (tokRefl cells)
            (valTok_getC cells j)) (valTok_dash cells)
      · exact tokStep_set cells cells 13 (getC cells j) (tokRefl cells)
          (valTok_getC cells j)
    · exact tokRefl cells
  · exact tokRefl cells

/-- The Persentase (2) text swap preserves token provenance. -/
theorem fnbTextPct2_tok (numCols : Nat) (cells : Row) :
    ∀ t ∈ rowTokens (fnbTextPct2 numCols cells),
      t ∈ rowTokens cells ∨ t = "-" := by
  unfold fnbTextPct2
  dsimp only
  split
  · split
    · rename_i j heq
      exact tokStep_set cells _ j (getC cells 16)
        (tokStep_set cells cells 16 (getC cells j) (tokRefl cells)
          (valTok_getC cells j)) (valTok_getC cells 16)
    · exact tokStep_set cells _ 16 "-"
        (tokStep_pad cells cells 17 (tokRefl cells)) (valTok_dash cells)
  · exact tokRefl cells

/-- The Perubahan text swap preserves token provenance. -/
theorem fnbTextPerubahan_tok (cells : Row) :
    ∀ t ∈ rowTokens (fnbTextPerubahan cells),
      t ∈ rowTokens cells ∨ t = "-" := by
  unfold fnbTextPerubahan
  dsimp only
  split
  · have hmid : ∀ t ∈ rowTokens (match ((List.range 18).drop 11).find?
        (fun j => j ≠ 17 && (looksLikeChangeValue (getC cells j) &&
          !looksLikeLargeNumber (getC cells j) &&
          !looksLikePercentageValue (getC cells j))) with
      | Option.some j => (cells.set 17 (getC cells j)).set j (getC cells 17)
      | Option.none => cells), t ∈ rowTokens cells ∨ t = "-" := by
      split
      · rename_i j heq
        exact tokStep_set cells _ j (getC cells 17)
          (tokStep_set cells cells 17 (getC cells j) (tokRefl cells)
            (valTok_getC cells j)) (valTok_getC cells 17)
      · exact tokRefl cells
    split
    · exact tokStep_set cells _ 17 "-"
        (tokStep_pad cells _ 18 hmid) (valTok_dash cells)
    · exact hmid
  · exact tokRefl cells

/-- C7 (amended): every whitespace token of every cell output by the
numeric-block classification repair is a token of some input cell or the
sentinel. -/
theorem c7_numeric_block_token_provenance (cells : Row) (numCols : Nat) :
    ∀ t ∈ rowTokens (fixNumericBlockByContent cells numCols),
      t ∈ rowTokens cells ∨ t = "-" := by
  unfold fixNumericBlockByContent
  dsimp only
  split
  · exact tokRefl cells
  · have h1 := fixPerubahanSplit_tok cells numCols
    have h2 := tokTrans cells _ _ h1
      (fixSplitPercentageCells_tok _ numCols)
    have h3 := tokTrans cells _ _ h2 (fixJumlahSaham_tok _ numCols)
    have h4 := tokTrans cells _ _ h3 (fnbAddressScreen_tok numCols _)
    have h5 := tokTrans cells _ _ h4 (fnbTextPct1_tok numCols _)
    have h6 := tokTrans cells _ _ h5 (fnbPct1Swap_tok numCols _)
    have h7 := tokTrans cells _ _ h6 (fnbLonePctMove_tok numCols _)
    have hpf : ∀ e ∈ fnbPercList numCols (fnbLonePctMove numCols
        (fnbPct1Swap numCols (fnbTextPct1 numCols (fnbAddressScreen numCols
          (fixJumlahSahamSplitPercentage (fixSplitPercentageCells
            (fixPerubahanSplitPercentageThenNumber cells numCols) numCols)
            numCols))))),
        ∀ t ∈ pySplit e.2.1, t ∈ rowTokens cells ∨ t = "-" := by
      intro e he t ht
      rcases fnbPercList_tok numCols _ e he t ht with h | h
      · exact h7 t h
      · exact Or.inr h
    have h8 := fnbFillPct1_tok cells _ _ hpf h7
    have h9 := fnbFillPct2_tok cells numCols _ _ hpf h8
    have h10 := tokTrans cells _ _ h9 (fnbFinalSearch_tok numCols _)
    have h11 := tokTrans cells _ _ h10 (fnbTextPct2_tok numCols _)
    exact tokTrans cells _ _ h11 (fnbTextPerubahan_tok _)


/-- C7 (witness): the provenance theorem applied at a concrete input — the
token `"-"` of the repaired all-dash row comes from the input row. -/
theorem c7_numeric_block_token_provenance_witness :
    "-" ∈ rowTokens (fixNumericBlockByContent ["-"] 0) ∧
    ("-" ∈ rowTokens ["-"] ∨ "-" = "-") :=
  ⟨by decide, c7_numeric_block_token_provenance ["-"] 0 "-" (by decide)⟩

set_option maxRecDepth 1000000 in
/-- C7 (counterexample): the numeric-block repair can write a value that is
neither an input cell nor a single whitespace token of one — here the
rejoined remainder `"12 34"` of the split cell `"5.24 12 34"`. -/
theorem c7_fabricated_cell_counterexample :
    ((fixNumericBlockByContent
        ["-", "-", "-", "-", "-", "-", "-", "-", "-", "-", "-",
         "5.24 12 34", "-", "-", "-", "-", "-", "-"] 18).getD 11 "")
      = "12 34" ∧
    "12 34" ∉ ["-", "-", "-", "-", "-", "-", "-", "-", "-", "-", "-",
         "5.24 12 34", "-", "-", "-", "-", "-", "-"] ∧
    (∀ c ∈ ["-", "-", "-", "-", "-", "-", "-", "-", "-", "-", "-",
         "5.24 12 34", "-", "-", "-", "-", "-", "-"],
      "12 34" ∉ pySplit c) := by
  refine ⟨by decide, by decide, by decide⟩

/-- C3 (amended): the two color predicates are exact pointwise complements:
for every color input `c`, `is_explicitly_other_color c` equals
`not (is_blue_color c)` — both treat absent/unconvertible color as
not-blue, which realizes the spec's "absence terminates a blue run"
intent through complementary answers rather than through divergence. -/
theorem c3_other_is_exact_complement (c : PyColor) :
    isExplicitlyOtherColor c = !(isBlueColor c) :=
  other_eq_not_blue c


/-! ## Preservation of the non-empty-cell invariant through the cascade
(the development behind C1) -/
/-- Dropping leading whitespace is the identity on a stripped list. -/
theorem dropWhile_ws_pyStripL (l : List Char) :
    (pyStripL l).dropWhile pyWs = pyStripL l := by
  apply dropWhile_eq_self_of_isPrefix pyWs (l.dropWhile pyWs)
  · exact dropWhile_idem pyWs l
  · rw [pyStripL_def]
    have hs : ((l.dropWhile pyWs).reverse.dropWhile pyWs) <:+
        (l.dropWhile pyWs).reverse := List.dropWhile_suffix pyWs
    have := hs.reverse
    simpa using this

/-- Decomposition: the leading-ws-free part is the strip plus trailing
whitespace. -/
theorem pyStripL_append_trailing (l : List Char) :
    pyStripL l ++ ((l.dropWhile pyWs).reverse.takeWhile pyWs).reverse =
      l.dropWhile pyWs := by
  rw [pyStripL_def]
  have h1 := List.takeWhile_append_dropWhile pyWs (l.dropWhile pyWs).reverse
  have h2 := congrArg List.reverse h1
  rw [List.reverse_append, List.reverse_reverse] at h2
  exact h2

/-- A list with a non-whitespace character has a non-empty strip. -/
theorem pyStripL_ne_nil (l : List Char) (h : ∃ ch ∈ l, pyWs ch = false) :
    pyStripL l ≠ [] := by
  intro hnil
  obtain ⟨ch, hmem, hws⟩ := h
  have hdecomp := pyStripL_append_trailing l
  rw [hnil, List.nil_append] at hdecomp
  have hl : l = l.takeWhile pyWs ++
      ((l.dropWhile pyWs).reverse.takeWhile pyWs).reverse := by
    conv_lhs => rw [← List.takeWhile_append_dropWhile pyWs l, ← hdecomp]
  rw [hl] at hmem
  rcases List.mem_append.1 hmem with h2 | h2
  · rw [List.mem_takeWhile_imp h2] at hws
    exact Bool.noConfusion hws
  · rw [List.mem_reverse] at h2
    rw [List.mem_takeWhile_imp h2] at hws
    exact Bool.noConfusion hws

/-- A non-empty strip exhibits a non-whitespace character. -/
theorem exists_nonws_of_pyStripL_ne (l : List Char)
    (h : pyStripL l ≠ []) : ∃ ch ∈ l, pyWs ch = false := by
  cases hs : pyStripL l with
  | nil => exact absurd hs h
  | cons c rest =>
    refine ⟨c, ?_, ?_⟩
    · have hpre : pyStripL l <+: l.dropWhile pyWs :=
        ⟨_, pyStripL_append_trailing l⟩
      have hsub : List.Sublist (pyStripL l) l :=
        hpre.sublist.trans (List.dropWhile_suffix pyWs).sublist
      exact hsub.mem (hs ▸ List.mem_cons_self c rest)
    · have hd := dropWhile_ws_pyStripL l
      rw [hs] at hd
      by_cases hc : pyWs c
      · rw [List.dropWhile_cons_of_pos hc] at hd
        have := congrArg List.length hd
        have h2 := length_dropWhile_le pyWs rest
        simp only [List.length_cons] at this
        omega
      · simpa using hc

/-- A string strips to non-empty iff it has a non-whitespace character. -/
theorem pyStrip_ne_iff (s : String) :
    pyStrip s ≠ "" ↔ ∃ ch ∈ s.data, pyWs ch = false := by
  constructor
  · intro h
    apply exists_nonws_of_pyStripL_ne
    intro hnil
    exact h (congrArg String.mk hnil)
  · intro h hempty
    exact pyStripL_ne_nil s.data h (congrArg String.data hempty)

theorem SOk_dash : SOk "-" := by decide

theorem SOk_zero : SOk "0" := by decide

theorem SOk_shape (t : String) (hne : t.data ≠ [])
    (hws : ∀ ch ∈ t.data, pyWs ch = false) : SOk t := by
  apply (pyStrip_ne_iff t).2
  cases hd : t.data with
  | nil => exact absurd hd hne
  | cons c rest =>
    exact ⟨c, hd ▸ List.mem_cons_self c rest,
      hws c (hd ▸ List.mem_cons_self c rest)⟩

theorem SOk_strip_iff (s : String) : SOk (pyStrip s) ↔ SOk s := by
  unfold SOk
  rw [pyStrip_idem]

theorem SOk_strip_of_ne (s : String) (h : pyStrip s ≠ "") :
    SOk (pyStrip s) := by
  unfold SOk
  rw [pyStrip_idem]
  exact h

theorem SOk_orStrip (s : String) : SOk (pyOr (pyStrip s) "-") := by
  unfold pyOr
  split
  · exact SOk_dash
  · exact SOk_strip_of_ne s (by assumption)

theorem SOk_getC (r : Row) (i : Nat) : SOk (getC r i) := SOk_orStrip _

theorem SOk_append_left (s t : String) (h : SOk s) : SOk (s ++ t) := by
  obtain ⟨ch, hm, hw⟩ := (pyStrip_ne_iff s).1 h
  apply (pyStrip_ne_iff _).2
  exact ⟨ch, by rw [String.data_append]; exact List.mem_append_left _ hm, hw⟩

theorem SOk_append_right (s t : String) (h : SOk t) : SOk (s ++ t) := by
  obtain ⟨ch, hm, hw⟩ := (pyStrip_ne_iff t).1 h
  apply (pyStrip_ne_iff _).2
  exact ⟨ch, by rw [String.data_append]; exact List.mem_append_right _ hm, hw⟩

theorem SOk_token (s t : String) (h : t ∈ pySplit s) : SOk t :=
  SOk_shape t (tok_of_mem_pySplit s t h).1 (tok_of_mem_pySplit s t h).2

theorem SOk_join (ts : List String) (hne : ts ≠ [])
    (h : ∀ t ∈ ts, SOk t) : SOk (pyJoinSpace ts) := by
  cases ts with
  | nil => exact absurd rfl hne
  | cons t rest =>
    obtain ⟨ch, hm, hw⟩ :=
      (pyStrip_ne_iff t).1 (h t (List.mem_cons_self t rest))
    apply (pyStrip_ne_iff _).2
    refine ⟨ch, ?_, hw⟩
    show ch ∈ joinSpaceL ((t :: rest).map String.data)
    cases rest with
    | nil => exact hm
    | cons u us =>
      show ch ∈ t.data ++ ' ' :: joinSpaceL ((u :: us).map String.data)
      exact List.mem_append_left _ hm

theorem lln_SOk (s : String) (h : looksLikeLargeNumber s = true) : SOk s := by
  intro hstrip
  by_cases hs : s = ""
  · rw [hs] at h
    exact absurd h (by decide)
  · unfold looksLikeLargeNumber at h
    rw [hstrip] at h
    rw [if_neg (by simp [hs])] at h
    revert h
    decide

theorem llp_SOk (s : String) (h : looksLikePercentageValue s = true) :
    SOk s := by
  intro hstrip
  by_cases hs : s = ""
  · rw [hs] at h
    exact absurd h (by decide)
  · unfold looksLikePercentageValue at h
    rw [hstrip] at h
    rw [if_neg (by simp [hs])] at h
    revert h
    decide

theorem llno_SOk (s : String) (h : looksLikeNo s = true) : SOk s := by
  intro hstrip
  by_cases hs : s = ""
  · rw [hs] at h
    exact absurd h (by decide)
  · unfold looksLikeNo at h
    rw [hstrip] at h
    rw [if_neg (by simp [hs])] at h
    revert h
    decide

theorem ROk_nil : ROk [] := by
  intro c hc
  exact absurd hc (List.not_mem_nil c)

theorem ROk_set (r : Row) (i : Nat) (v : String) (hr : ROk r) (hv : SOk v) :
    ROk (r.set i v) := by
  intro c hc
  rcases List.mem_or_eq_of_mem_set hc with h | h
  · exact hr c h
  · exact h ▸ hv

theorem ROk_append (r r' : Row) (h : ROk r) (h' : ROk r') : ROk (r ++ r') := by
  intro c hc
  rcases List.mem_append.1 hc with h2 | h2
  · exact h c h2
  · exact h' c h2

theorem ROk_replicate_dash (n : Nat) : ROk (List.replicate n "-") := by
  intro c hc
  rw [List.eq_of_mem_replicate hc]
  exact SOk_dash

theorem ROk_padTo (r : Row) (n : Nat) (h : ROk r) : ROk (padTo r n) :=
  ROk_append _ _ h (ROk_replicate_dash _)

theorem ROk_take (r : Row) (n : Nat) (h : ROk r) : ROk (r.take n) := by
  intro c hc
  exact h c (List.mem_of_mem_take hc)

theorem ROk_padTrim (r : Row) (n : Nat) (h : ROk r) : ROk (padTrim r n) :=
  ROk_take _ _ (ROk_append _ _ h (ROk_replicate_dash _))

theorem SOk_getD_ne (r : Row) (j : Nat) (h : ROk r)
    (hne : r.getD j "" ≠ "") : SOk (r.getD j "") := by
  by_cases hj : j < r.length
  · exact h _ (getD_mem_of_lt r j "" hj)
  · rw [List.getD_eq_default] at hne
    · exact absurd rfl hne
    · omega

theorem ROk_foldl {α : Type} (f : Row → α → Row) (l : List α) (init : Row)
    (h0 : ROk init) (hstep : ∀ r a, ROk r → a ∈ l → ROk (f r a)) :
    ROk (l.foldl f init) := by
  induction l generalizing init with
  | nil => exact h0
  | cons a rest ih =>
    rw [List.foldl_cons]
    exact ih (f init a) (hstep init a h0 (List.mem_cons_self a rest))
      (fun r b hr hb => hstep r b hr (List.mem_cons_of_mem a hb))

theorem DOk_nil : DOk [] := by
  intro r hr
  exact absurd hr (List.not_mem_nil r)

theorem DOk_set (d : List Row) (i : Nat) (r : Row) (hd : DOk d) (hr : ROk r) :
    DOk (d.set i r) := by
  intro x hx
  rcases List.mem_or_eq_of_mem_set hx with h | h
  · exact hd x h
  · exact h ▸ hr

theorem ROk_getD_of_DOk (d : List Row) (i : Nat) (hd : DOk d) :
    ROk (d.getD i []) := by
  by_cases hi : i < d.length
  · exact hd _ (getD_mem_of_lt d i [] hi)
  · rw [List.getD_eq_default]
    · exact ROk_nil
    · omega

theorem DOk_foldl {α : Type} (f : List Row → α → List Row) (l : List α)
    (init : List Row) (h0 : DOk init)
    (hstep : ∀ d a, DOk d → a ∈ l → DOk (f d a)) : DOk (l.foldl f init) := by
  induction l generalizing init with
  | nil => exact h0
  | cons a rest ih =>
    rw [List.foldl_cons]
    exact ih (f init a) (hstep init a h0 (List.mem_cons_self a rest))
      (fun d b hd hb => hstep d b hd (List.mem_cons_of_mem a hb))

theorem DOk_map_of (d : List Row) (f : Row → Row)
    (hf : ∀ r, ROk (f r)) : DOk (d.map f) := by
  intro r hr
  rcases List.mem_map.1 hr with ⟨x, _, rfl⟩
  exact hf x

theorem ROk_ite (c : Prop) [Decidable c] (a b : Row) (ha : ROk a)
    (hb : ROk b) : ROk (if c then a else b) := by
  split
  · exact ha
  · exact hb

theorem ROk_single (v : String) (h : SOk v) : ROk [v] := by
  intro c hc
  rw [List.mem_singleton.1 hc]
  exact h

theorem fixNoKodeEfekCells_ROk (cells : Row) (numCols : Nat) (h : ROk cells) :
    ROk (fixNoKodeEfekCells cells numCols) := by
  unfold fixNoKodeEfekCells
  dsimp only
  split
  · exact h
  · split
    · exact h
    · rename_i h0
      have hcol0 : SOk (pyStrip (cells.getD 0 "")) := SOk_strip_of_ne _ h0
      split
      · rename_i g1 g2 hm
        split
        · rename_i hnr
          simp only [Bool.and_eq_true, decide_eq_true_eq] at hnr
          have hno : SOk (pyStrip g1) := SOk_strip_of_ne _ hnr.1
          have hrest : SOk (pyStrip g2) := SOk_strip_of_ne _ hnr.2
          have h1 : ROk (cells.set 0 (pyStrip g1)) := ROk_set _ _ _ h hno
          split
          · exact ROk_append _ _ h1 (ROk_single _ hrest)
          · split
            · exact ROk_set _ _ _ h1 hrest
            · split
              · exact ROk_set _ _ _ h1
                  (SOk_append_left _ _ (SOk_append_left _ _ hrest))
              · exact h1
        · exact h
      · split
        · exact h
        · split
          · rename_i hno1
            exact ROk_set _ _ _ (ROk_set _ _ _ h (llno_SOk _ hno1)) hcol0
          · split
            · exact ROk_set _ _ _ (ROk_set _ _ _ h SOk_dash) hcol0
            · exact ROk_set _ _ _ h SOk_dash

theorem fixKodeEmitenCells_ROk (cells : Row) (numCols : Nat) (h : ROk cells) :
    ROk (fixKodeEmitenCells cells numCols) := by
  unfold fixKodeEmitenCells
  dsimp only
  split
  · exact h
  · split
    · rename_i hc
      simp only [Bool.and_eq_true, decide_eq_true_eq] at hc
      have hcol1 : SOk (pyStrip (cells.getD 1 "")) := SOk_strip_of_ne _ hc.1.1
      have h1 : ROk (cells.set 1 "-") := ROk_set _ _ _ h SOk_dash
      split
      · exact ROk_append _ _ h1 (ROk_single _ hcol1)
      · exact ROk_set _ _ _ h1 hcol1
    · exact h

theorem fixPersentasePerubahanCells_ROk (cells : Row) (numCols : Nat)
    (h : ROk cells) : ROk (fixPersentasePerubahanCells cells numCols) := by
  unfold fixPersentasePerubahanCells
  dsimp only
  split
  · exact h
  · split
    · exact h
    · rename_i hvp
      simp only [Bool.or_eq_true, decide_eq_true_eq, not_or] at hvp
      have hper : SOk (pyStrip (cells.getD 17 "")) :=
        SOk_strip_of_ne _ hvp.1
      have hpad : ROk ((padTo cells 14).set 13 (pyStrip (cells.getD 17 ""))) :=
        ROk_set _ _ _ (ROk_padTo _ _ h) hper
      have hpad2 : ROk ((padTo cells 17).set 16 (pyStrip (cells.getD 17 ""))) :=
        ROk_set _ _ _ (ROk_padTo _ _ h) hper
      split
      · exact h
      · split
        · split
          · exact ROk_set _ _ _ hpad SOk_dash
          · exact hpad
        · split
          · split
            · exact ROk_set _ _ _ hpad2 SOk_dash
            · exact hpad2
          · exact h

theorem fspStep_ROk (idxPct idxSaham : Nat) (cells : Row) (h : ROk cells) :
    ROk (fspStep idxPct idxSaham cells) := by
  unfold fspStep
  dsimp only
  split
  · exact h
  · split
    · rename_i pp lp heq1 heq2
      have hpp : pp ∈ pySplit (pyReplaceC
          (pyOr (pyStrip (cells.getD idxPct "")) "-") '\n' " ") := by
        rcases foldl_opt_mem _ (fun acc p => by
            split
            · exact Or.inr rfl
            · exact Or.inl rfl) _ _ _ heq1 with hm | hm
        · exact hm
        · exact absurd hm (by simp)
      have hlp : lp ∈ pySplit (pyReplaceC
          (pyOr (pyStrip (cells.getD idxPct "")) "-") '\n' " ") := by
        rcases foldl_opt_mem _ (fun acc p => by
            split
            · exact Or.inl rfl
            · split
              · exact Or.inr rfl
              · exact Or.inl rfl) _ _ _ heq2 with hm | hm
        · exact hm
        · exact absurd hm (by simp)
      have h1 : ROk ((padTo cells (max idxPct idxSaham + 1)).set idxPct pp) :=
        ROk_set _ _ _ (ROk_padTo _ _ h) (SOk_token _ _ hpp)
      split
      · exact ROk_set _ _ _ h1 (SOk_token _ _ hlp)
      · exact h1
    · rename_i pp heq1 _
      have hpp : pp ∈ pySplit (pyReplaceC
          (pyOr (pyStrip (cells.getD idxPct "")) "-") '\n' " ") := by
        rcases foldl_opt_mem _ (fun acc p => by
            split
            · exact Or.inr rfl
            · exact Or.inl rfl) _ _ _ heq1 with hm | hm
        · exact hm
        · exact absurd hm (by simp)
      exact ROk_set _ _ _ (ROk_padTo _ _ h) (SOk_token _ _ hpp)
    · exact h

theorem fixSplitPercentageCells_ROk (cells : Row) (numCols : Nat)
    (h : ROk cells) : ROk (fixSplitPercentageCells cells numCols) := by
  unfold fixSplitPercentageCells
  split
  · exact h
  · exact fspStep_ROk 16 15 _ (fspStep_ROk 13 12 cells h)

theorem fjsStep_ROk (idxJumlah idxPct : Nat) (cells : Row) (h : ROk cells) :
    ROk (fjsStep idxJumlah idxPct cells) := by
  unfold fjsStep
  dsimp only
  split
  · exact h
  · split
    · exact h
    · split
      · exact h
      · rename_i hne hlen pctPart heq
        have hpct : SOk pctPart := by
          by_cases hfp : looksLikePercentageValue (pyStrip ((pySplit
              (pyOr (pyStrip (cells.getD idxJumlah "")) "-")).getD 0 ""))
              = true
          · rw [if_pos hfp] at heq
            dsimp only at heq
            have he : pyStrip ((pySplit (pyOr (pyStrip
                (cells.getD idxJumlah "")) "-")).getD 0 "") = pctPart :=
              Option.some.inj heq
            rw [← he]
            exact llp_SOk _ hfp
          · rw [if_neg hfp] at heq
            dsimp only at heq
            rcases (fjs_fold_mem _ _).1 pctPart heq with hmem | habs
            · exact SOk_token _ _ hmem
            · exact absurd habs (by simp)
        split
        · exact h
        · have hbase : ROk ((padTo cells (idxPct + 1)).set idxPct pctPart) :=
            ROk_set _ _ _ (ROk_padTo _ _ h) hpct
          split
          · rename_i largePart heq2
            have hlarge : SOk largePart := by
              by_cases hfp : looksLikePercentageValue (pyStrip ((pySplit
                  (pyOr (pyStrip (cells.getD idxJumlah "")) "-")).getD 0 ""))
                  = true
              · rw [if_pos hfp] at heq2
                dsimp only at heq2
                by_cases hlr : looksLikeLargeNumber (pyStrip (pyJoinSpace
                    (List.drop 1 (pySplit (pyOr (pyStrip
                      (cells.getD idxJumlah "")) "-"))))) = true
                · rw [if_pos hlr] at heq2
                  have he : pyStrip (pyJoinSpace (List.drop 1 (pySplit
                      (pyOr (pyStrip (cells.getD idxJumlah "")) "-")))) =
                      largePart := Option.some.inj heq2
                  rw [← he]
                  exact lln_SOk _ hlr
                · rw [if_neg hlr] at heq2
                  exact absurd heq2 (by simp)
              · rw [if_neg hfp] at heq2
                dsimp only at heq2
                rcases (fjs_fold_mem _ _).2 largePart heq2 with hmem | habs
                · exact SOk_token _ _ hmem
                · exact absurd habs (by simp)
            exact ROk_set _ _ _ hbase hlarge
          · split
            · rename_i hrem
              refine ROk_set _ _ _ hbase (SOk_join _ hrem ?_)
              intro t ht
              exact SOk_token _ _ (List.mem_of_mem_filter ht)
            · exact ROk_set _ _ _ hbase SOk_dash

theorem fixJumlahSaham_ROk (cells : Row) (numCols : Nat) (h : ROk cells) :
    ROk (fixJumlahSahamSplitPercentage cells numCols) := by
  unfold fixJumlahSahamSplitPercentage
  split
  · exact h
  · exact fjsStep_ROk 14 16 _ (fjsStep_ROk 11 13 cells h)

theorem fixPerubahanSplit_ROk (cells : Row) (numCols : Nat) (h : ROk cells) :
    ROk (fixPerubahanSplitPercentageThenNumber cells numCols) := by
  unfold fixPerubahanSplitPercentageThenNumber
  dsimp only
  split
  · exact h
  · split
    · exact h
    · split
      · exact h
      · rename_i hlen
        split
        · exact h
        · rename_i hfirst
          split
          · exact h
          · have hdrop : List.drop 1 (pySplit (pyOr (pyStrip
                (cells.getD 17 "")) "-")) ≠ [] := by
              have hl : 0 < (List.drop 1 (pySplit (pyOr (pyStrip
                  (cells.getD 17 "")) "-"))).length := by
                rw [List.length_drop]
                omega
              exact List.ne_nil_of_length_pos hl
            have hsec : SOk (pyStrip (pyJoinSpace (List.drop 1 (pySplit
                (pyOr (pyStrip (cells.getD 17 "")) "-"))))) := by
              apply (SOk_strip_iff _).2
              apply SOk_join _ hdrop
              intro t ht
              exact SOk_token _ _ (List.mem_of_mem_drop ht)
            have hfs : SOk (pyStrip ((pySplit (pyOr (pyStrip
                (cells.getD 17 "")) "-")).getD 0 "")) := by
              apply llp_SOk
              simpa using hfirst
            exact ROk_set _ _ _
              (ROk_set _ _ _ (ROk_padTo _ _ h) hfs) hsec

theorem pfLoopA_ROk (hasP2 : Bool) (pf : List (Nat × String × Bool))
    (hpf : ∀ e ∈ pf, SOk e.2.1) :
    ∀ cells : Row, ROk cells → ROk (pfLoopA hasP2 pf cells) := by
  induction pf with
  | nil =>
    intro cells h
    exact h
  | cons e rest ih =>
    intro cells h
    obtain ⟨pidx, pstr, pin⟩ := e
    have hstr : SOk pstr := hpf _ (List.mem_cons_self _ rest)
    have hrest : ∀ x ∈ rest, SOk x.2.1 :=
      fun x hx => hpf x (List.mem_cons_of_mem _ hx)
    unfold pfLoopA
    dsimp only
    split
    · exact (ih hrest) cells h
    · split
      · split
        · exact ROk_set _ _ _ (ROk_set _ _ _ h hstr) SOk_dash
        · exact ROk_set _ _ _ h hstr
      · split
        · exact ROk_set _ _ _ (ROk_set _ _ _ h hstr) SOk_dash
        · exact (ih hrest) cells h

theorem pfLoopB_ROk (pf : List (Nat × String × Bool))
    (hpf : ∀ e ∈ pf, SOk e.2.1) :
    ∀ (cnt : Nat) (cells : Row), ROk cells → ROk (pfLoopB cnt pf cells) := by
  induction pf with
  | nil =>
    intro cnt cells h
    exact h
  | cons e rest ih =>
    intro cnt cells h
    obtain ⟨pidx, pstr, pin⟩ := e
    have hstr : SOk pstr := hpf _ (List.mem_cons_self _ rest)
    have hrest : ∀ x ∈ rest, SOk x.2.1 :=
      fun x hx => hpf x (List.mem_cons_of_mem _ hx)
    unfold pfLoopB
    dsimp only
    split
    · exact (ih hrest) _ cells h
    · split
      · have h1 : ROk ((padTo cells 17).set 16 pstr) :=
          ROk_set _ _ _ (ROk_padTo _ _ h) hstr
        split
        · exact ROk_set _ _ _ h1 SOk_dash
        · exact h1
      · exact (ih hrest) _ cells h

theorem fnbAddressScreen_ROk (numCols : Nat) (cells : Row) (h : ROk cells) :
    ROk (fnbAddressScreen numCols cells) := by
  unfold fnbAddressScreen
  apply ROk_foldl _ _ _ h
  intro r a hr _
  dsimp only
  split
  · exact hr
  · split
    · exact ROk_set _ _ _ (ROk_padTo _ _ hr) SOk_dash
    · exact hr

theorem fnbTextPct1_ROk (numCols : Nat) (cells : Row) (h : ROk cells) :
    ROk (fnbTextPct1 numCols cells) := by
  unfold fnbTextPct1
  dsimp only
  split
  · split
    · exact ROk_set _ _ _ (ROk_set _ _ _ h (SOk_getC _ _)) (SOk_getC _ _)
    · split
      · exact ROk_set _ _ _ (ROk_padTo _ _ h) SOk_dash
      · exact h
  · exact h

theorem fnbPct1Swap_ROk (numCols : Nat) (cells : Row) (h : ROk cells) :
    ROk (fnbPct1Swap numCols cells) := by
  unfold fnbPct1Swap
  dsimp only
  split
  · split
    · split
      · exact ROk_set _ _ _ (ROk_set _ _ _ h (SOk_getC _ _)) SOk_dash
      · exact ROk_set _ _ _ (ROk_set _ _ _ h (SOk_getC _ _)) (SOk_getC _ _)
    · exact h
  · exact h

theorem fnbLonePctMove_ROk (numCols : Nat) (cells : Row) (h : ROk cells) :
    ROk (fnbLonePctMove numCols cells) := by
  unfold fnbLonePctMove
  dsimp only
  split
  · exact ROk_set _ _ _
      (ROk_set _ _ _ (ROk_padTo _ _ h) (SOk_getC _ _)) SOk_dash
  · exact h

theorem fnbPercList_SOk (numCols : Nat) (cells : Row) :
    ∀ e ∈ fnbPercList numCols cells, SOk e.2.1 := by
  intro e he
  unfold fnbPercList at he
  dsimp only at he
  rcases List.mem_append.1 he with h1 | h1
  · rcases List.mem_append.1 h1 with h2 | h2
    · split at h2
      · rw [List.mem_singleton.1 h2]
        exact SOk_getC _ _
      · exact absurd h2 (List.not_mem_nil e)
    · split at h2
      · rw [List.mem_singleton.1 h2]
        exact SOk_getC _ _
      · exact absurd h2 (List.not_mem_nil e)
  · rcases List.mem_filterMap.1 h1 with ⟨j, _, hj⟩
    split at hj
    · rw [← Option.some.inj hj]
      exact SOk_getC _ _
    · exact absurd hj (by simp)

theorem fnbFillPct1_ROk (pf : List (Nat × String × Bool)) (cells : Row)
    (hpf : ∀ e ∈ pf, SOk e.2.1) (h : ROk cells) :
    ROk (fnbFillPct1 pf cells) := by
  unfold fnbFillPct1
  dsimp only
  split
  · exact pfLoopA_ROk _ pf hpf cells h
  · exact h

theorem fnbFillPct2_ROk (numCols : Nat) (pf : List (Nat × String × Bool))
    (cells : Row) (hpf : ∀ e ∈ pf, SOk e.2.1) (h : ROk cells) :
    ROk (fnbFillPct2 numCols pf cells) := by
  unfold fnbFillPct2
  dsimp only
  split
  · split
    · split
      · split
        · exact ROk_set _ _ _
            (ROk_set _ _ _ (ROk_padTo _ _ h) (SOk_getC _ _)) SOk_dash
        · exact ROk_set _ _ _ (ROk_padTo _ _ h) (SOk_getC _ _)
      · exact h
    · split
      · exact pfLoopB_ROk pf hpf 0 cells h
      · exact h
  · exact h

theorem fnbFS_stage2_ROk (numCols : Nat) (r : Row) (hr : ROk r) :
    ROk (if getC r 16 = "-" &&
        (hasLargeData (getC r 14) || hasLargeData (getC r 15)) then
      match (List.range numCols).find? (fun j =>
          j ≠ 16 && j ≠ 13 && looksLikePercentageValue (getC r j)) with
      | Option.some j =>
        let c := (padTo r 17).set 16 (getC r j)
        if j ≠ 17 then c.set j "-" else c
      | Option.none => r
    else r) := by
  split
  · split
    · dsimp only
      split
      · exact ROk_set _ _ _
          (ROk_set _ _ _ (ROk_padTo _ _ hr) (SOk_getC _ _)) SOk_dash
      · exact ROk_set _ _ _ (ROk_padTo _ _ hr) (SOk_getC _ _)
    · exact hr
  · exact hr

theorem fnbFinalSearch_ROk (numCols : Nat) (cells : Row) (h : ROk cells) :
    ROk (fnbFinalSearch numCols cells) := by
  unfold fnbFinalSearch
  dsimp only
  split
  · have hM : ROk (match (List.range numCols).find? (fun j =>
        j ≠ 13 && !(j = 16 &&
          (hasLargeData (getC cells 14) || hasLargeData (getC cells 15))) &&
          looksLikePercentageValue (getC cells j)) with
      | Option.some j =>
        let c := cells.set 13 (getC cells j)
        if j ≠ 17 && !(j = 16 &&
            (hasLargeData (getC cells 14) || hasLargeData (getC cells 15)))
          then c.set j "-" else c
      | Option.none => cells) := by
      split
      · dsimp only
        split
        · exact ROk_set _ _ _ (ROk_set _ _ _ h (SOk_getC _ _)) SOk_dash
        · exact ROk_set _ _ _ h (SOk_getC _ _)
      · exact h
    exact fnbFS_stage2_ROk numCols _ hM
  · exact h

theorem fnbTextPct2_ROk (numCols : Nat) (cells : Row) (h : ROk cells) :
    ROk (fnbTextPct2 numCols cells) := by
  unfold fnbTextPct2
  dsimp only
  split
  · split
    · exact ROk_set _ _ _ (ROk_set _ _ _ h (SOk_getC _ _)) (SOk_getC _ _)
    · exact ROk_set _ _ _ (ROk_padTo _ _ h) SOk_dash
  · exact h

theorem fnbTextPerubahan_ROk (cells : Row) (h : ROk cells) :
    ROk (fnbTextPerubahan cells) := by
  unfold fnbTextPerubahan
  dsimp only
  split
  · have hmid : ROk (match ((List.range 18).drop 11).find? (fun j =>
        j ≠ 17 && (looksLikeChangeValue (getC cells j) &&
          !looksLikeLargeNumber (getC cells j) &&
          !looksLikePercentageValue (getC cells j))) with
      | Option.some j => (cells.set 17 (getC cells j)).set j (getC cells 17)
      | Option.none => cells) := by
      split
      · exact ROk_set _ _ _ (ROk_set _ _ _ h (SOk_getC _ _)) (SOk_getC _ _)
      · exact h
    split
    · exact ROk_set _ _ _ (ROk_padTo _ _ hmid) SOk_dash
    · exact hmid
  · exact h

theorem fixNumericBlockByContent_ROk (cells : Row) (numCols : Nat)
    (h : ROk cells) : ROk (fixNumericBlockByContent cells numCols) := by
  unfold fixNumericBlockByContent
  dsimp only
  split
  · exact h
  · exact fnbTextPerubahan_ROk _
      (fnbTextPct2_ROk _ _
        (fnbFinalSearch_ROk _ _
          (fnbFillPct2_ROk _ _ _ (fnbPercList_SOk _ _)
            (fnbFillPct1_ROk _ _ (fnbPercList_SOk _ _)
              (fnbLonePctMove_ROk _ _
                (fnbPct1Swap_ROk _ _
                  (fnbTextPct1_ROk _ _
                    (fnbAddressScreen_ROk _ _
                      (fixJumlahSaham_ROk _ _
                        (fixSplitPercentageCells_ROk _ _
                          (fixPerubahanSplit_ROk _ _ h)))))))))))

theorem normalizeCell_SOk (cell : String) : SOk (normalizeCell cell) := by
  unfold normalizeCell
  dsimp only
  split
  · split
    · exact SOk_dash
    · rename_i hc2
      simp only [Bool.or_eq_true, decide_eq_true_eq, not_or] at hc2
      exact absurd trivial hc2.1
  · split
    · exact SOk_dash
    · rename_i hc2
      simp only [Bool.or_eq_true, decide_eq_true_eq, not_or] at hc2
      exact SOk_strip_of_ne _ hc2.1

theorem normalizeRow18_ROk (row : Row) : ROk (normalizeRow18 row) := by
  unfold normalizeRow18
  dsimp only
  apply ROk_take
  apply ROk_append
  · intro c hc
    rcases List.mem_map.1 hc with ⟨x, _, rfl⟩
    exact normalizeCell_SOk x
  · exact ROk_replicate_dash _

theorem perRowRepairs_ROk (row : Row) : ROk (perRowRepairs row) := by
  unfold perRowRepairs
  exact fixNumericBlockByContent_ROk _ _
    (fixPersentasePerubahanCells_ROk _ _
      (fixKodeEmitenCells_ROk _ _
        (fixNoKodeEfekCells_ROk _ _ (normalizeRow18_ROk row))))

theorem contValues_SOk (nextRow : Row) (numCols : Nat) (h : ROk nextRow) :
    ∀ v ∈ contValues nextRow numCols, SOk v := by
  intro v hv
  rcases List.mem_filterMap.1 hv with ⟨j, _, hj⟩
  split at hj
  · rename_i hcond
    simp only [Bool.and_eq_true, decide_eq_true_eq] at hcond
    rw [← Option.some.inj hj]
    exact (SOk_strip_iff _).2 (SOk_getD_ne _ _ h hcond.1)
  · exact absurd hj (by simp)

theorem contFill_ROk (row : Row) (values : List String) (numCols : Nat)
    (h : ROk row) (hv : ∀ v ∈ values, SOk v) :
    ROk (contFill row values numCols) := by
  unfold contFill
  dsimp only
  split
  · apply ROk_foldl _ _ _ h
    intro r a hr ha
    obtain ⟨i, v⟩ := a
    obtain ⟨hlt, hx⟩ := List.mem_enum ha
    apply ROk_set _ _ _ hr
    show SOk v
    rw [hx]
    exact hv _ (List.getElem_mem hlt)
  · apply ROk_foldl _ _ _ h
    intro r a hr _
    split
    · rename_i hlt
      apply ROk_set _ _ _ hr
      exact hv _ (getD_mem_of_lt _ _ _ hlt)
    · exact hr

theorem mcrInner_ROk (numCols : Nat) :
    ∀ (rest : List Row) (row : Row), ROk row → DOk rest →
      ROk (mcrInner numCols row rest).1 ∧ DOk (mcrInner numCols row rest).2 := by
  intro rest
  induction rest with
  | nil =>
    intro row hr _
    exact ⟨hr, DOk_nil⟩
  | cons next rs ih =>
    intro row hr hd
    have hnext : ROk next := hd next (List.mem_cons_self next rs)
    have hrs : DOk rs := fun r hmem => hd r (List.mem_cons_of_mem next hmem)
    unfold mcrInner
    dsimp only
    split
    · exact ⟨hr, hd⟩
    · split
      · exact ⟨hr, hd⟩
      · split
        · exact ih row hr hrs
        · exact ih _ (contFill_ROk _ _ _ hr
            (contValues_SOk _ _ (ROk_padTrim _ _ hnext))) hrs

theorem mcrOuter_DOk (numCols : Nat) :
    ∀ (fuel : Nat) (rows : List Row), DOk rows →
      DOk (mcrOuter numCols fuel rows) := by
  intro fuel
  induction fuel with
  | zero =>
    intro rows h
    exact h
  | succ n ih =>
    intro rows h
    cases rows with
    | nil => exact DOk_nil
    | cons r rest =>
      have hr : ROk r := h r (List.mem_cons_self r rest)
      have hrest : DOk rest := fun x hx => h x (List.mem_cons_of_mem r hx)
      unfold mcrOuter
      dsimp only
      intro x hx
      rcases List.mem_cons.1 hx with h2 | h2
      · exact h2 ▸ (mcrInner_ROk numCols rest (padTrim r numCols)
          (ROk_padTrim _ _ hr) hrest).1
      · exact ih _ (mcrInner_ROk numCols rest (padTrim r numCols)
          (ROk_padTrim _ _ hr) hrest).2 x h2

theorem mergeContinuationRows_DOk (rows : List Row) (numCols : Nat)
    (h : DOk rows) : DOk (mergeContinuationRows rows numCols) := by
  unfold mergeContinuationRows
  split
  · exact h
  · exact mcrOuter_DOk numCols rows.length rows h

theorem copyEmptyCells_ROk (row nextRow : Row) (lo hi : Nat) (h : ROk row)
    (hn : ROk nextRow) : ROk (copyEmptyCells row nextRow lo hi) := by
  unfold copyEmptyCells
  apply ROk_foldl _ _ _ h
  intro r j hr _
  split
  · rename_i hcond
    simp only [Bool.and_eq_true, decide_eq_true_eq] at hcond
    exact ROk_set _ _ _ hr (SOk_getD_ne _ _ hn hcond.1.2)
  · exact hr

theorem dedupeGo_DOk (numCols : Nat) :
    ∀ (n : Nat) (rows : List Row), rows.length ≤ n → DOk rows →
      DOk (dedupeGo numCols rows) := by
  intro n
  induction n with
  | zero =>
    intro rows hl h
    rw [List.eq_nil_of_length_eq_zero (Nat.le_zero.1 hl)]
    exact DOk_nil
  | succ n ih =>
    intro rows hl h
    match rows with
    | [] => exact DOk_nil
    | [r] =>
      intro x hx
      rw [List.mem_singleton.1 hx]
      exact ROk_padTrim _ _ (h r (List.mem_singleton.2 rfl))
    | r :: next :: rest =>
      have hr : ROk (padTrim r numCols) :=
        ROk_padTrim _ _ (h r (List.mem_cons_self _ _))
      have hnext : ROk (padTrim next numCols) :=
        ROk_padTrim _ _ (h next
          (List.mem_cons_of_mem _ (List.mem_cons_self _ _)))
      have hrest : DOk rest := fun x hx =>
        h x (List.mem_cons_of_mem _ (List.mem_cons_of_mem _ hx))
      have hnr : DOk (next :: rest) := fun x hx =>
        h x (List.mem_cons_of_mem _ hx)
      simp only [List.length_cons] at hl
      unfold dedupeGo
      dsimp only
      split
      · split
        · intro x hx
          rcases List.mem_cons.1 hx with h2 | h2
          · exact h2 ▸ copyEmptyCells_ROk _ _ _ _ hr hnext
          · rcases List.mem_cons.1 h2 with h3 | h3
            · exact h3 ▸ hnext
            · exact ih rest (by omega) hrest x h3
        · intro x hx
          rcases List.mem_cons.1 hx with h2 | h2
          · refine h2 ▸ copyEmptyCells_ROk _ _ _ _ ?_ hnext
            apply ROk_set _ _ _ hr
            rename_i hcond _
            simp only [Bool.and_eq_true, decide_eq_true_eq] at hcond
            exact SOk_strip_of_ne _ hcond.1.2
          · exact ih rest (by omega) hrest x h2
      · intro x hx
        rcases List.mem_cons.1 hx with h2 | h2
        · exact h2 ▸ hr
        · exact ih (next :: rest) (by simpa using hl) hnr x h2

theorem dedupeRowsFillKodeEfek_DOk (rows : List Row) (numCols : Nat)
    (h : DOk rows) : DOk (dedupeRowsFillKodeEfek rows numCols) := by
  unfold dedupeRowsFillKodeEfek
  split
  · exact h
  · exact dedupeGo_DOk numCols rows.length rows (Nat.le_refl _) h

theorem SOk_assembleCell (c : String) (h : c = "" ∨ SOk c) :
    SOk (assembleCell c) := by
  unfold assembleCell
  split
  · exact SOk_dash
  · rename_i hc
    rcases h with h | h
    · exact absurd h hc
    · exact (SOk_strip_iff _).2 h

theorem assemble18_ROk (row : Row) (h : ROk row) : ROk (assemble18 row) := by
  unfold assemble18
  dsimp only
  intro c hc
  rcases List.mem_map.1 hc with ⟨x, hx, rfl⟩
  apply SOk_assembleCell
  have hx2 := List.mem_of_mem_take hx
  rcases List.mem_append.1 hx2 with h2 | h2
  · rcases List.mem_append.1 (List.mem_of_mem_take h2) with h3 | h3
    · exact Or.inr (h x h3)
    · exact Or.inl (List.eq_of_mem_replicate h3)
  · exact Or.inr (List.eq_of_mem_replicate h2 ▸ SOk_dash)

theorem clearCellIfSafe_ROk (r : Row) (colIdx : Nat) (h : ROk r) :
    ROk (clearCellIfSafe r colIdx) := by
  unfold clearCellIfSafe
  split
  · exact h
  · exact ROk_set _ _ _ h SOk_dash

theorem pfLoopA18_ROk (hasP2 : Bool) (pf : List (Nat × String × Bool))
    (hpf : ∀ e ∈ pf, SOk e.2.1) :
    ∀ r : Row, ROk r → ROk (pfLoopA18 hasP2 pf r) := by
  induction pf with
  | nil =>
    intro r h
    exact h
  | cons e rest ih =>
    intro r h
    obtain ⟨pidx, pstr, pin⟩ := e
    have hstr : SOk pstr := hpf _ (List.mem_cons_self _ rest)
    have hrest : ∀ x ∈ rest, SOk x.2.1 :=
      fun x hx => hpf x (List.mem_cons_of_mem _ hx)
    unfold pfLoopA18
    dsimp only
    split
    · exact (ih hrest) r h
    · split
      · split
        · exact clearCellIfSafe_ROk _ _ (ROk_set _ _ _ h hstr)
        · exact ROk_set _ _ _ h hstr
      · split
        · exact ROk_set _ _ _ (ROk_set _ _ _ h hstr) SOk_dash
        · exact (ih hrest) r h

theorem pfLoopB18_ROk (pf : List (Nat × String × Bool))
    (hpf : ∀ e ∈ pf, SOk e.2.1) :
    ∀ (cnt : Nat) (r : Row), ROk r → ROk (pfLoopB18 cnt pf r) := by
  induction pf with
  | nil =>
    intro cnt r h
    exact h
  | cons e rest ih =>
    intro cnt r h
    obtain ⟨pidx, pstr, pin⟩ := e
    have hstr : SOk pstr := hpf _ (List.mem_cons_self _ rest)
    have hrest : ∀ x ∈ rest, SOk x.2.1 :=
      fun x hx => hpf x (List.mem_cons_of_mem _ hx)
    unfold pfLoopB18
    dsimp only
    split
    · exact (ih hrest) _ r h
    · split
      · split
        · exact clearCellIfSafe_ROk _ _ (ROk_set _ _ _ h hstr)
        · exact ROk_set _ _ _ h hstr
      · exact (ih hrest) _ r h

theorem bfAddr_ROk (r : Row) (h : ROk r) : ROk (bfAddr r) := by
  unfold bfAddr
  apply ROk_foldl _ _ _ h
  intro x j hx _
  dsimp only
  split
  · exact ROk_set _ _ _ hx SOk_dash
  · exact hx

theorem bfGlued_ROk (r : Row) (h : ROk r) : ROk (bfGlued r) := by
  unfold bfGlued
  dsimp only
  split
  · split
    · rename_i hlen
      simp only [Bool.and_eq_true, decide_eq_true_eq] at hlen
      have h0 : ((pySplit (getC r 13)).filter (fun p =>
          p ≠ "" && looksLikePercentageValue p)).getD 0 "" ∈
          (pySplit (getC r 13)).filter (fun p =>
            p ≠ "" && looksLikePercentageValue p) :=
        getD_mem_of_lt _ 0 "" (by omega)
      have h1 : ((pySplit (getC r 13)).filter (fun p =>
          p ≠ "" && looksLikePercentageValue p)).getD 1 "" ∈
          (pySplit (getC r 13)).filter (fun p =>
            p ≠ "" && looksLikePercentageValue p) :=
        getD_mem_of_lt _ 1 "" (by omega)
      exact ROk_set _ _ _
        (ROk_set _ _ _ h (SOk_token _ _ (List.mem_of_mem_filter h0)))
        (SOk_token _ _ (List.mem_of_mem_filter h1))
    · exact h
  · exact h

theorem bfTextPct1_ROk (r : Row) (h : ROk r) : ROk (bfTextPct1 r) := by
  unfold bfTextPct1
  dsimp only
  split
  · split
    · exact ROk_set _ _ _ (ROk_set _ _ _ h (SOk_getC _ _)) (SOk_getC _ _)
    · split
      · exact ROk_set _ _ _ h SOk_dash
      · exact h
  · exact h

theorem bfLeadPct_ROk (r : Row) (h : ROk r) : ROk (bfLeadPct r) := by
  unfold bfLeadPct
  apply ROk_foldl _ _ _ h
  intro x p hx _
  dsimp only
  split
  · split
    · split
      · rename_i hval hlen hcond
        have hbase : ROk (x.set p.2 (pyStrip ((pySplit (getC x p.1)).getD
            0 ""))) := by
          apply ROk_set _ _ _ hx
          apply llp_SOk
          simp only [Bool.and_eq_true, decide_eq_true_eq] at hcond
          exact hcond.1
        split
        · rename_i hln
          exact ROk_set _ _ _ hbase (lln_SOk _ hln)
        · split
          · rename_i hne
            exact ROk_set _ _ _ hbase (SOk_strip_of_ne _ hne)
          · exact ROk_set _ _ _ hbase SOk_dash
      · exact hx
    · exact hx
  · exact hx

theorem bfPct1Swap_ROk (r : Row) (h : ROk r) : ROk (bfPct1Swap r) := by
  unfold bfPct1Swap
  dsimp only
  split
  · split
    · split
      · split
        · exact ROk_set _ _ _ (ROk_set _ _ _ h (SOk_getC _ _)) SOk_dash
        · exact clearCellIfSafe_ROk _ _ (ROk_set _ _ _ h (SOk_getC _ _))
      · exact ROk_set _ _ _ (ROk_set _ _ _ h (SOk_getC _ _)) (SOk_getC _ _)
    · exact h
  · exact h

theorem bfLonePct_ROk (r : Row) (h : ROk r) : ROk (bfLonePct r) := by
  unfold bfLonePct
  dsimp only
  split
  · exact ROk_set _ _ _ (ROk_set _ _ _ h (SOk_getC _ _)) SOk_dash
  · exact h

theorem bfBoth_ROk (p1 p2 : Bool) (r : Row) (h : ROk r) :
    ROk (bfBoth p1 p2 r) := by
  unfold bfBoth
  dsimp only
  split
  · split
    · exact clearCellIfSafe_ROk _ _
        (ROk_set _ _ _ (ROk_set _ _ _ h (SOk_getC _ _)) (SOk_getC _ _))
    · exact h
  · exact h

theorem bfPercList_SOk (r : Row) : ∀ e ∈ bfPercList r, SOk e.2.1 := by
  intro e he
  unfold bfPercList at he
  dsimp only at he
  rcases List.mem_append.1 he with h1 | h1
  · rcases List.mem_append.1 h1 with h2 | h2
    · split at h2
      · rw [List.mem_singleton.1 h2]
        exact SOk_getC _ _
      · exact absurd h2 (List.not_mem_nil e)
    · split at h2
      · rw [List.mem_singleton.1 h2]
        exact SOk_getC _ _
      · exact absurd h2 (List.not_mem_nil e)
  · rcases List.mem_filterMap.1 h1 with ⟨j, _, hj⟩
    split at hj
    · rw [← Option.some.inj hj]
      exact SOk_getC _ _
    · exact absurd hj (by simp)

theorem bfFillPct1_ROk (a b : String) (pf : List (Nat × String × Bool))
    (r : Row) (hpf : ∀ e ∈ pf, SOk e.2.1) (h : ROk r) :
    ROk (bfFillPct1 a b pf r) := by
  unfold bfFillPct1
  dsimp only
  split
  · exact pfLoopA18_ROk _ pf hpf r h
  · exact h

theorem bfFillPct2_ROk (pf : List (Nat × String × Bool)) (r : Row)
    (hpf : ∀ e ∈ pf, SOk e.2.1) (h : ROk r) : ROk (bfFillPct2 pf r) := by
  unfold bfFillPct2
  dsimp only
  split
  · exact pfLoopB18_ROk pf hpf 0 r h
  · exact h

theorem bfFinal_ROk (p1 : Bool) (a b : String) (r : Row) (h : ROk r) :
    ROk (bfFinal p1 a b r) := by
  unfold bfFinal
  dsimp only
  split
  · split
    · split
      · exact clearCellIfSafe_ROk _ _ (ROk_set _ _ _ h (SOk_getC _ _))
      · exact ROk_set _ _ _ h (SOk_getC _ _)
    · exact h
  · exact h

theorem bfForceBlank_ROk (p1 : Bool) (r : Row) (h : ROk r) :
    ROk (bfForceBlank p1 r) := by
  unfold bfForceBlank
  dsimp only
  split
  · exact ROk_set _ _ _ h SOk_dash
  · exact h

theorem bfPct2Empty_ROk (p2 : Bool) (r : Row) (h : ROk r) :
    ROk (bfPct2Empty p2 r) := by
  unfold bfPct2Empty
  dsimp only
  split
  · split
    · split
      · exact clearCellIfSafe_ROk _ _ (ROk_set _ _ _ h (SOk_getC _ _))
      · exact ROk_set _ _ _ h (SOk_getC _ _)
    · exact h
  · exact h

theorem bfTextPct2_ROk (r : Row) (h : ROk r) : ROk (bfTextPct2 r) := by
  unfold bfTextPct2
  dsimp only
  split
  · split
    · exact ROk_set _ _ _ (ROk_set _ _ _ h (SOk_getC _ _)) (SOk_getC _ _)
    · split
      · exact ROk_set _ _ _ h SOk_dash
      · exact h
  · exact h

theorem bfTextPerubahan_ROk (r : Row) (h : ROk r) :
    ROk (bfTextPerubahan r) := by
  unfold bfTextPerubahan
  dsimp only
  split
  · have hmid : ROk (match ((List.range 18).drop 11).find? (fun j =>
        j ≠ 17 && looksLikeChangeValue (getC r j) &&
          !looksLikeLargeNumber (getC r j) &&
          !looksLikePercentageValue (getC r j)) with
      | Option.some j => (r.set 17 (getC r j)).set j (getC r 17)
      | Option.none => r) := by
      split
      · exact ROk_set _ _ _ (ROk_set _ _ _ h (SOk_getC _ _)) (SOk_getC _ _)
      · exact h
    split
    · exact ROk_set _ _ _ hmid SOk_dash
    · exact hmid
  · exact h

theorem bfNoDup_ROk (r : Row) (h : ROk r) : ROk (bfNoDup r) := by
  unfold bfNoDup
  dsimp only
  split
  · exact ROk_set _ _ _ h SOk_dash
  · exact h

theorem bfSingleLetter_ROk (r : Row) (h : ROk r) :
    ROk (bfSingleLetter r) := by
  unfold bfSingleLetter
  dsimp only
  split
  · exact ROk_set _ _ _ h SOk_dash
  · exact h

theorem bigFix_ROk (row : Row) (h : ROk row) : ROk (bigFix row) := by
  unfold bigFix
  dsimp only
  exact bfSingleLetter_ROk _
    (bfNoDup_ROk _
      (bfTextPerubahan_ROk _
        (bfTextPct2_ROk _
          (bfPct2Empty_ROk _ _
            (bfForceBlank_ROk _ _
              (bfFinal_ROk _ _ _ _
                (bfFillPct2_ROk _ _ (bfPercList_SOk _)
                  (bfFillPct1_ROk _ _ _ _ (bfPercList_SOk _)
                    (bfBoth_ROk _ _ _
                      (bfLonePct_ROk _
                        (bfPct1Swap_ROk _
                          (bfLeadPct_ROk _
                            (bfTextPct1_ROk _
                              (bfGlued_ROk _
                                (bfAddr_ROk _
                                  (ROk_take _ _ (ROk_append _ _ h
                                    (ROk_replicate_dash _))))))))))))))))))

theorem passAStep_DOk (d : List Row) (i : Nat) (h : DOk d) :
    DOk (passAStep d i) := by
  unfold passAStep
  dsimp only
  split
  · exact h
  · split
    · exact DOk_set _ _ _ h
        (ROk_set _ _ _
          (ROk_set _ _ _ (ROk_getD_of_DOk _ _ h) (SOk_getC _ _))
          (SOk_getC _ _))
    · exact h

theorem passA_DOk (d : List Row) (h : DOk d) : DOk (passA d) := by
  unfold passA
  exact DOk_foldl _ _ _ h (fun x a hx _ => passAStep_DOk x a hx)

theorem passBStep_DOk (d : List Row) (i : Nat) (h : DOk d) :
    DOk (passBStep d i) := by
  unfold passBStep
  dsimp only
  split
  · exact h
  · apply DOk_set _ _ _ h
    split <;> split <;>
      first
        | exact ROk_set _ _ _ (ROk_set _ _ _ (ROk_getD_of_DOk _ _ h)
            (SOk_getC _ _)) (SOk_getC _ _)
        | exact ROk_set _ _ _ (ROk_getD_of_DOk _ _ h) (SOk_getC _ _)
        | exact ROk_getD_of_DOk _ _ h

theorem passB_DOk (d : List Row) (h : DOk d) : DOk (passB d) := by
  unfold passB
  exact DOk_foldl _ _ _ h (fun x a hx _ => passBStep_DOk x a hx)

theorem foldl_inv {α β : Type} (P : β → Prop) (f : β → α → β) (l : List α)
    (init : β) (h0 : P init) (hstep : ∀ b a, P b → P (f b a)) :
    P (l.foldl f init) := by
  induction l generalizing init with
  | nil => exact h0
  | cons a rest ih => exact ih (f init a) (hstep init a h0)

theorem mem_insertByKey {α : Type} (key : α → Nat × Nat × Nat) (x y : α) :
    ∀ l : List α, y ∈ insertByKey key x l → y = x ∨ y ∈ l := by
  intro l
  induction l with
  | nil =>
    intro hy
    exact Or.inl (List.mem_singleton.1 hy)
  | cons a rest ih =>
    intro hy
    unfold insertByKey at hy
    split at hy
    · rcases List.mem_cons.1 hy with h2 | h2
      · exact Or.inr (h2 ▸ List.mem_cons_self a rest)
      · rcases ih h2 with h3 | h3
        · exact Or.inl h3
        · exact Or.inr (List.mem_cons_of_mem a h3)
    · rcases List.mem_cons.1 hy with h2 | h2
      · exact Or.inl h2
      · exact Or.inr h2

theorem mem_sortByKey {α : Type} (key : α → Nat × Nat × Nat) (l : List α)
    (y : α) (hy : y ∈ sortByKey key l) : y ∈ l := by
  unfold sortByKey at hy
  induction l with
  | nil => exact hy
  | cons a rest ih =>
    rw [List.foldr_cons] at hy
    rcases mem_insertByKey key a y _ hy with h2 | h2
    · exact h2 ▸ List.mem_cons_self a rest
    · exact List.mem_cons_of_mem a (ih h2)

theorem pcFill_ROk (jcur sg eq1 eq2 ju sgu : String) (both : Bool)
    (idx : Nat) (rowLower : Row) (h : ROk rowLower) :
    ROk (pcFill jcur sg eq1 eq2 ju sgu both idx rowLower).1 := by
  unfold pcFill
  split
  · rename_i hc
    simp only [Bool.and_eq_true, decide_eq_true_eq] at hc
    split
    · exact h
    · split
      · exact ROk_set _ _ _ h (lln_SOk _ hc.2)
      · exact h
  · exact h

theorem pcCollect_SOk (rts : List (Row × Bool)) (a b : String) :
    (∀ e ∈ (pcCollect rts a b).1, SOk e.2.1) ∧
    (∀ v ∈ (pcCollect rts a b).2, SOk v) := by
  unfold pcCollect
  apply foldl_inv (fun acc : List (Nat × String × Bool) × List String =>
    (∀ e ∈ acc.1, SOk e.2.1) ∧ (∀ v ∈ acc.2, SOk v))
  · constructor
    · intro e he
      exact absurd he (List.not_mem_nil e)
    · intro v hv
      exact absurd hv (List.not_mem_nil v)
  · intro acc rs hacc
    apply foldl_inv (fun acc : List (Nat × String × Bool) × List String =>
      (∀ e ∈ acc.1, SOk e.2.1) ∧ (∀ v ∈ acc.2, SOk v)) _ _ _ hacc
    intro ac c hac
    dsimp only
    split
    · exact hac
    · split
      · exact hac
      · constructor
        · intro e he
          dsimp only at he
          split at he
          · split at he
            · exact hac.1 e he
            · rcases List.mem_append.1 he with h2 | h2
              · exact hac.1 e h2
              · rw [List.mem_singleton.1 h2]
                exact SOk_getC _ _
          · exact hac.1 e he
        · intro v hv
          dsimp only at hv
          split at hv
          · rcases List.mem_append.1 hv with h2 | h2
            · exact hac.2 v h2
            · rw [List.mem_singleton.1 h2]
              exact SOk_getC _ _
          · exact hac.2 v hv

theorem pcCandidate_ROk (j1u j2u sg1u sg2u : String) (nJ1 nJ2 : Bool)
    (largeVals : List String) (rowLower : Row)
    (hlv : ∀ v ∈ largeVals, SOk v) (hrl : ROk rowLower) :
    ROk (pcCandidate j1u j2u sg1u sg2u nJ1 nJ2 largeVals rowLower) := by
  unfold pcCandidate
  dsimp only
  split
  · split
    · exact hrl
    · rename_i cand heq
      have hcand : SOk cand := by
        rcases hm : (if nJ1 = true then largeVals.find? (fun v =>
            !(v = j1u || v = j2u || v = sg1u || v = sg2u)) else
            Option.none) with _ | v
        · rw [hm] at heq
          dsimp only at heq
          split at heq
          · exact hlv _ (List.mem_of_find?_eq_some heq)
          · exact absurd heq (by simp)
        · rw [hm] at heq
          dsimp only at heq
          rw [← Option.some.inj heq]
          split at hm
          · exact hlv _ (List.mem_of_find?_eq_some hm)
          · exact absurd hm (by simp)
      have hbase : ROk (if nJ1 = true then rowLower.set 11 cand
          else rowLower) := by
        split
        · exact ROk_set _ _ _ hrl hcand
        · exact hrl
      split
      · split
        · rcases hfo : largeVals.find? (fun x => x ≠ cand &&
              !(x = j1u || x = sg1u || x = sg2u)) with _ | x
          · exact ROk_set _ _ _ hbase hcand
          · exact ROk_set _ _ _ hbase
              (hlv _ (List.mem_of_find?_eq_some hfo))
        · exact ROk_set _ _ _ hbase hcand
      · exact hbase
  · exact hrl

theorem pcJ2Direct_ROk (j1u j2u sg2u : String) (nJ2 : Bool) (rowLower : Row)
    (hj2u : SOk j2u) (hsg2u : SOk sg2u) (hrl : ROk rowLower) :
    ROk (pcJ2Direct j1u j2u sg2u nJ2 rowLower) := by
  unfold pcJ2Direct
  split
  · split
    · exact ROk_set _ _ _ hrl hj2u
    · split
      · exact ROk_set _ _ _ hrl hsg2u
      · exact hrl
  · exact hrl

theorem pcNeedP_ROk (rowUpper : Row) (noL : String) (nP : Bool)
    (changeVals : List String) (rowLower : Row)
    (hcv : ∀ v ∈ changeVals, SOk v) (hrl : ROk rowLower) :
    ROk (pcNeedP rowUpper noL nP changeVals rowLower) := by
  have hS : ∀ v ∈ changeVals, SOk (pyStrip v) :=
    fun v hv => (SOk_strip_iff _).2 (hcv v hv)
  unfold pcNeedP
  dsimp only
  repeat' split
  all_goals first
    | exact hrl
    | exact ROk_set _ _ _ hrl SOk_zero
    | (rename_i v heq
       exact ROk_set _ _ _
         (ROk_set _ _ _ hrl (hS _ (List.mem_of_find?_eq_some heq)))
         SOk_zero)
    | (rename_i v heq
       exact ROk_set _ _ _ hrl (hS _ (List.mem_of_find?_eq_some heq)))

theorem pcLetterFix_ROk (rowLower : Row) (hrl : ROk rowLower) :
    ROk (pcLetterFix rowLower) := by
  unfold pcLetterFix
  dsimp only
  split
  · exact ROk_set _ _ _ hrl SOk_zero
  · exact hrl

theorem pcTail_DOk (d : List Row) (i : Nat) (rowUpper : Row)
    (noU noL j1u j2u sg1u sg2u : String) (nJ1 nJ2 nP : Bool)
    (rowLower : Row) (hj2u : SOk j2u) (hsg2u : SOk sg2u) (h : DOk d)
    (hrl : ROk rowLower) :
    DOk (pcTail d i rowUpper noU noL j1u j2u sg1u sg2u nJ1 nJ2 nP
      rowLower) := by
  unfold pcTail
  dsimp only
  split
  · exact DOk_set _ _ _ h hrl
  · apply DOk_set _ _ _ h
    apply pcLetterFix_ROk
    apply pcNeedP_ROk _ _ _ _ _ (pcCollect_SOk _ _ _).2
    apply pcJ2Direct_ROk _ _ _ _ _ hj2u hsg2u
    apply pcCandidate_ROk _ _ _ _ _ _ _ _ ?_ ?_
    · intro v hv
      rcases List.mem_map.1 hv with ⟨x, hx, rfl⟩
      exact (pcCollect_SOk _ _ _).1 x (mem_sortByKey _ _ _ hx)
    · split
      · exact ROk_set _ _ _ hrl SOk_dash
      · exact hrl

theorem passCStep_DOk (d : List Row) (i : Nat) (h : DOk d) :
    DOk (passCStep d i) := by
  unfold passCStep
  dsimp only
  split
  · exact h
  · exact pcTail_DOk _ _ _ _ _ _ _ _ _ _ _ _ _
      (SOk_getC _ _) (SOk_getC _ _) h
      (pcFill_ROk _ _ _ _ _ _ _ _ _
        (pcFill_ROk _ _ _ _ _ _ _ _ _
          (pcFill_ROk _ _ _ _ _ _ _ _ _
            (pcFill_ROk _ _ _ _ _ _ _ _ _
              (ROk_getD_of_DOk _ _ h)))))

theorem passC_DOk (d : List Row) (h : DOk d) : DOk (passC d) := by
  unfold passC
  exact DOk_foldl _ _ _ h (fun x a hx _ => passCStep_DOk x a hx)

theorem foldl_inv_mem {α β : Type} (P : β → Prop) (f : β → α → β)
    (l : List α) (init : β) (h0 : P init)
    (hstep : ∀ b a, P b → a ∈ l → P (f b a)) : P (l.foldl f init) := by
  induction l generalizing init with
  | nil => exact h0
  | cons a rest ih =>
    rw [List.foldl_cons]
    exact ih (f init a) (hstep init a h0 (List.mem_cons_self a rest))
      (fun b x hb hx => hstep b x hb (List.mem_cons_of_mem a hx))

theorem dedupKeepFirst_mem (l : List String) (v : String)
    (hv : v ∈ dedupKeepFirst l) : v ∈ l := by
  unfold dedupKeepFirst at hv
  revert hv
  refine foldl_inv_mem (fun acc => ∀ x ∈ acc, x ∈ l) _ _ _ ?_ ?_ v
  · intro x hx
    exact absurd hx (List.not_mem_nil x)
  · intro acc a hacc ha
    split
    · exact hacc
    · intro x hx
      rcases List.mem_append.1 hx with h2 | h2
      · exact hacc x h2
      · exact (List.mem_singleton.1 h2) ▸ ha

theorem pdLigCollect_SOk (d : List Row) (indices : List Nat) :
    ∀ v ∈ pdLigCollect d indices, SOk v := by
  unfold pdLigCollect
  refine foldl_inv (fun acc => ∀ y ∈ acc, SOk y) _ _ _ ?_ ?_
  · intro y hy
    exact absurd hy (List.not_mem_nil y)
  · intro acc i hacc
    refine foldl_inv (fun acc => ∀ y ∈ acc, SOk y) _ _ _ hacc ?_
    intro acc2 c hacc2
    dsimp only
    split
    · exact hacc2
    · split
      · intro y hy
        rcases List.mem_append.1 hy with h2 | h2
        · exact hacc2 y h2
        · exact (List.mem_singleton.1 h2) ▸ SOk_getC _ _
      · exact hacc2

theorem pdCandJ2_SOk (j1First j2First sg1First sg2First : String)
    (isDup : Bool) (lig : List String) (candJ1 : Option String) (c2 : String)
    (hlig : ∀ v ∈ lig, SOk v) (hj2 : SOk j2First)
    (hcand : ∀ x, candJ1 = Option.some x → SOk x)
    (heq : pdCandJ2 j1First j2First sg1First sg2First isDup lig candJ1 =
      Option.some c2) : SOk c2 := by
  unfold pdCandJ2 at heq
  split at heq
  · exact (Option.some.inj heq) ▸ hj2
  · split at heq
    · rename_i v hv
      exact (Option.some.inj heq) ▸ hlig v (List.mem_of_find?_eq_some hv)
    · exact hcand c2 heq

theorem passDGroup_DOk (d : List Row) (indices : List Nat) (h : DOk d) :
    DOk (passDGroup d indices) := by
  unfold passDGroup
  split
  · exact h
  · split
    · exact h
    · rename_i firstIdx restIdx hne
      apply DOk_foldl _ _ _ h
      intro x idx hx _
      dsimp only
      split
      · exact hx
      · have hlig : ∀ v ∈ dedupKeepFirst (pdLigCollect x (firstIdx :: restIdx)), SOk v :=
          fun v hv => pdLigCollect_SOk x (firstIdx :: restIdx) v (dedupKeepFirst_mem _ _ hv)
        have hrow : ROk (x.getD idx []) := ROk_getD_of_DOk _ _ hx
        have hrow1 : ROk (match (dedupKeepFirst
            (pdLigCollect x (firstIdx :: restIdx))).find? (fun v =>
              v ≠ getC (d.getD firstIdx []) 11 &&
                v ≠ getC (d.getD firstIdx []) 14) with
          | Option.some c1 =>
            if (getC (x.getD idx []) 11 = "-" ||
                ((getC (x.getD idx []) 11 = getC (d.getD firstIdx []) 11 &&
                  getC (x.getD idx []) 14 = getC (d.getD firstIdx []) 14) &&
                 (getC (d.getD firstIdx []) 11 ≠ "-" ||
                  getC (d.getD firstIdx []) 14 ≠ "-"))) = true then
              (x.getD idx []).set 11 c1
            else x.getD idx []
          | Option.none => x.getD idx []) := by
          split
          · rename_i c1 heq
            split
            · exact ROk_set _ _ _ hrow
                (hlig _ (List.mem_of_find?_eq_some heq))
            · exact hrow
          · exact hrow
        split
        · split
          · rename_i c2 heq
            refine DOk_set _ _ _ (DOk_set _ _ _ hx hrow1)
              (ROk_set _ _ _ hrow1 ?_)
            refine pdCandJ2_SOk _ _ _ _ _ _ _ _ hlig (SOk_getC _ _) ?_ heq
            intro y hy
            exact hlig _ (List.mem_of_find?_eq_some hy)
          · exact DOk_set _ _ _ hx hrow1
        · exact DOk_set _ _ _ hx hrow1

theorem passD_DOk (d : List Row) (h : DOk d) : DOk (passD d) := by
  unfold passD
  exact DOk_foldl _ _ _ h (fun x a hx _ => passDGroup_DOk x a.2 hx)

theorem DOk_map (d : List Row) (f : Row → Row) (hd : DOk d)
    (hf : ∀ r, ROk r → ROk (f r)) : DOk (d.map f) := by
  intro r hr
  rcases List.mem_map.1 hr with ⟨x, hx, rfl⟩
  exact hf x (hd x hx)

theorem repairCascade_DOk (rows : List Row) : DOk (repairCascade rows) := by
  unfold repairCascade
  dsimp only
  exact passD_DOk _ (passC_DOk _ (passB_DOk _ (passA_DOk _
    (DOk_map _ _
      (DOk_map _ _
        (DOk_map _ _
          (dedupeRowsFillKodeEfek_DOk _ _
            (mergeContinuationRows_DOk _ _
              (DOk_map_of rows _ perRowRepairs_ROk)))
          (fun r hr => fixNumericBlockByContent_ROk r 18 hr))
        assemble18_ROk)
      bigFix_ROk))))

theorem pyWs_digitChar (n : Nat) (h : n < 10) :
    pyWs (natDigitChar n) = false := by
  interval_cases n <;> decide

theorem natToStringAux_ws :
    ∀ (fuel n : Nat), ∀ c ∈ natToStringAux fuel n, pyWs c = false := by
  intro fuel
  induction fuel with
  | zero =>
    intro n c hc
    exact absurd hc (List.not_mem_nil c)
  | succ f ih =>
    intro n c hc
    unfold natToStringAux at hc
    split at hc
    · rename_i hn
      rw [List.mem_singleton.1 hc]
      exact pyWs_digitChar n hn
    · rcases List.mem_append.1 hc with h2 | h2
      · exact ih _ c h2
      · rw [List.mem_singleton.1 h2]
        exact pyWs_digitChar _ (Nat.mod_lt n (by omega))

theorem natToStringAux_ne_nil (fuel n : Nat) (h : 1 ≤ fuel) :
    natToStringAux fuel n ≠ [] := by
  cases fuel with
  | zero => omega
  | succ f =>
    unfold natToStringAux
    split
    · exact List.cons_ne_nil _ _
    · simp

theorem SOk_natToString (n : Nat) : SOk (natToString n) := by
  apply SOk_shape
  · exact natToStringAux_ne_nil (n + 1) n (by omega)
  · exact natToStringAux_ws (n + 1) n

theorem collectChangeLike_SOk (lines : List String) (start endIdx : Nat) :
    ∀ e ∈ collectChangeLike lines start endIdx, SOk e.2 := by
  intro e he
  unfold collectChangeLike at he
  rcases List.mem_filterMap.1 he with ⟨i, _, hi⟩
  dsimp only at hi
  split at hi
  · exact absurd hi (by simp)
  · split at hi
    · exact absurd hi (by simp)
    · split at hi
      · exact absurd hi (by simp)
      · split at hi
        · rw [← Option.some.inj hi]
          exact SOk_natToString _
        · exact absurd hi (by simp)

theorem headD_mem {α : Type} (l : List α) (d : α) (h : l ≠ []) :
    l.headD d ∈ l := by
  cases l with
  | nil => exact absurd rfl h
  | cons a rest => exact List.mem_cons_self a rest

theorem getLastD_mem {α : Type} (l : List α) (d : α) (h : l ≠ []) :
    (l.getLast?.getD d) ∈ l := by
  cases hl : l.getLast? with
  | none => exact absurd (List.getLast?_eq_none_iff.1 hl) h
  | some p => exact List.mem_of_getLast?_eq_some hl

set_option maxHeartbeats 2000000 in
theorem rffCl_SOk (lines : List String) (posNo segEnd : Nat)
    (nextNoStr : Option String) :
    ∀ e ∈ rffCl lines posNo segEnd nextNoStr, SOk e.2 := by
  intro e he
  unfold rffCl at he
  dsimp only at he
  repeat' split at he
  all_goals first
    | exact collectChangeLike_SOk _ _ _ e he
    | exact collectChangeLike_SOk _ _ _ e (List.mem_of_mem_filter he)
    | exact collectChangeLike_SOk _ _ _ e
        (List.mem_of_mem_drop (List.dropLast_subset _ he))
    | exact collectChangeLike_SOk _ _ _ e
        (List.mem_of_mem_filter
          (List.mem_of_mem_drop (List.dropLast_subset _ he)))
    | exact collectChangeLike_SOk _ _ _ e (List.mem_of_mem_drop he)
    | exact collectChangeLike_SOk _ _ _ e
        (List.mem_of_mem_filter (List.mem_of_mem_drop he))
    | exact collectChangeLike_SOk _ _ _ e
        (List.mem_of_mem_drop (List.dropLast_subset _
          (List.mem_of_mem_drop he)))
    | exact collectChangeLike_SOk _ _ _ e
        (List.mem_of_mem_filter (List.mem_of_mem_drop
          (List.dropLast_subset _ (List.mem_of_mem_drop he))))

theorem rffApply_DOk (ix : RawFixIdx) (ncols : Nat) (d : List Row)
    (firstIdx secondIdx : Nat) (firstRow : Row) (cl : List (Nat × String))
    (h : DOk d) (hfr : ROk firstRow) (hclne : cl ≠ [])
    (hcl : ∀ e ∈ cl, SOk e.2) :
    DOk (rffApply ix ncols d firstIdx secondIdx firstRow cl) := by
  have hvf : SOk ((cl.headD (0, "")).2 : String) :=
    hcl _ (headD_mem _ _ hclne)
  have hvfd : SOk (if noLeadingDash ((cl.headD (0, "")).2 : String) then
      "-" ++ ((cl.headD (0, "")).2 : String)
      else ((cl.headD (0, "")).2 : String)) := by
    split
    · exact SOk_append_left _ _ SOk_dash
    · exact hvf
  have hvl : SOk (if cl.length = 1 then ((cl.headD (0, "")).2 : String)
      else (((cl.getLast?).getD (0, "")).2 : String)) := by
    split
    · exact hvf
    · exact hcl _ (getLastD_mem _ _ hclne)
  unfold rffApply
  dsimp only
  split
  · have hd1 : DOk (d.set firstIdx (firstRow.set ix.per
        (if noLeadingDash ((cl.headD (0, "")).2 : String) then
          "-" ++ ((cl.headD (0, "")).2 : String)
          else ((cl.headD (0, "")).2 : String)))) :=
      DOk_set _ _ _ h (ROk_set _ _ _ hfr hvfd)
    apply DOk_set _ _ _ hd1
    apply ROk_ite
    · apply ROk_set _ _ _ ?_ (SOk_orStrip _)
      apply ROk_ite
      · exact ROk_set _ _ _ (ROk_set _ _ _ (ROk_set _ _ _ (ROk_set _ _ _
          (ROk_append _ _ (ROk_getD_of_DOk _ _ hd1) (ROk_replicate_dash _))
          SOk_dash) hvl) (SOk_orStrip _)) (SOk_orStrip _)
      · exact ROk_set _ _ _ (ROk_set _ _ _ (ROk_set _ _ _
          (ROk_append _ _ (ROk_getD_of_DOk _ _ hd1) (ROk_replicate_dash _))
          SOk_dash) hvl) (SOk_orStrip _)
    · apply ROk_ite
      · exact ROk_set _ _ _ (ROk_set _ _ _ (ROk_set _ _ _ (ROk_set _ _ _
          (ROk_append _ _ (ROk_getD_of_DOk _ _ hd1) (ROk_replicate_dash _))
          SOk_dash) hvl) (SOk_orStrip _)) (SOk_orStrip _)
      · exact ROk_set _ _ _ (ROk_set _ _ _ (ROk_set _ _ _
          (ROk_append _ _ (ROk_getD_of_DOk _ _ hd1) (ROk_replicate_dash _))
          SOk_dash) hvl) (SOk_orStrip _)
  · apply DOk_set _ _ _ h
    apply ROk_ite
    · apply ROk_set _ _ _ ?_ (SOk_orStrip _)
      apply ROk_ite
      · exact ROk_set _ _ _ (ROk_set _ _ _ (ROk_set _ _ _ (ROk_set _ _ _
          (ROk_append _ _ (ROk_getD_of_DOk _ _ h) (ROk_replicate_dash _))
          SOk_dash) hvl) (SOk_orStrip _)) (SOk_orStrip _)
      · exact ROk_set _ _ _ (ROk_set _ _ _ (ROk_set _ _ _
          (ROk_append _ _ (ROk_getD_of_DOk _ _ h) (ROk_replicate_dash _))
          SOk_dash) hvl) (SOk_orStrip _)
    · apply ROk_ite
      · exact ROk_set _ _ _ (ROk_set _ _ _ (ROk_set _ _ _ (ROk_set _ _ _
          (ROk_append _ _ (ROk_getD_of_DOk _ _ h) (ROk_replicate_dash _))
          SOk_dash) hvl) (SOk_orStrip _)) (SOk_orStrip _)
      · exact ROk_set _ _ _ (ROk_set _ _ _ (ROk_set _ _ _
          (ROk_append _ _ (ROk_getD_of_DOk _ _ h) (ROk_replicate_dash _))
          SOk_dash) hvl) (SOk_orStrip _)

theorem rffLis_SOk (lines : List String) (posNo segEnd segEndExt : Nat)
    (j1FirstN j2FirstN sg2FirstN : String) :
    ∀ p ∈ rffLis lines posNo segEnd segEndExt j1FirstN j2FirstN sg2FirstN,
      SOk p.2 := by
  intro p hp
  unfold rffLis at hp
  rcases List.mem_filterMap.1 hp with ⟨ii, _, hii⟩
  dsimp only at hii
  split at hii
  · exact absurd hii (by simp)
  · rename_i hn1
    split at hii
    · exact absurd hii (by simp)
    · split at hii
      · exact absurd hii (by simp)
      · rw [← Option.some.inj hii]
        have hw : looksLikeLargeNumber (pyStrip (lines.getD ii "")) =
            true := by
          cases hb : looksLikeLargeNumber (pyStrip (lines.getD ii "")) with
          | false =>
            refine absurd ?_ hn1
            simp only [Bool.or_eq_true, Bool.not_eq_true',
              decide_eq_true_eq]
            exact Or.inl (Or.inr hb)
          | true => rfl
        exact lln_SOk _ hw

theorem rffLarge_DOk (lines : List String) (ix : RawFixIdx) (ncols : Nat)
    (d : List Row) (secondIdx : Nat) (firstRow : Row)
    (j1First j2First : String) (posNo segEnd : Nat) (h : DOk d) :
    DOk (rffLarge lines ix ncols d secondIdx firstRow j1First j2First posNo
      segEnd) := by
  unfold rffLarge
  dsimp only
  have hrow2 : ROk ((d.getD secondIdx []) ++
      List.replicate (ncols - (d.getD secondIdx []).length) "-") :=
    ROk_append _ _ (ROk_getD_of_DOk _ _ h) (ROk_replicate_dash _)
  repeat' split
  all_goals first
    | exact h
    | exact DOk_set _ _ _ h (ROk_set _ _ _ hrow2 SOk_dash)
    | (rename_i p heq
       exact DOk_set _ _ _
         (DOk_set _ _ _ h (ROk_set _ _ _ hrow2 (rffLis_SOk _ _ _ _ _ _ _ p
           (List.mem_of_getLast?_eq_some heq))))
         (ROk_set _ _ _ (ROk_set _ _ _ hrow2 (rffLis_SOk _ _ _ _ _ _ _ p
           (List.mem_of_getLast?_eq_some heq))) SOk_dash))
    | (rename_i p heq
       exact DOk_set _ _ _ h (ROk_set _ _ _ hrow2
         (rffLis_SOk _ _ _ _ _ _ _ p (List.mem_of_getLast?_eq_some heq))))

theorem rawFixFallback_DOk (lines : List String) (ix : RawFixIdx)
    (ncols : Nat) (d : List Row) (firstIdx secondIdx : Nat) (firstRow : Row)
    (j1First j2First : String) (posNo segEnd : Nat)
    (nextNoStr : Option String) (h : DOk d) (hfr : ROk firstRow) :
    DOk (rawFixFallback lines ix ncols d firstIdx secondIdx firstRow j1First
      j2First posNo segEnd nextNoStr) := by
  unfold rawFixFallback
  dsimp only
  split
  · exact h
  · rename_i hclne
    split
    · exact rffApply_DOk _ _ _ _ _ _ _ h hfr hclne (rffCl_SOk _ _ _ _)
    · exact rffLarge_DOk _ _ _ _ _ _ _ _ _ _ h

theorem rfgTrip_DOk (ix : RawFixIdx) (d : List Row) (firstIdx : Nat)
    (firstRow : Row) (row : Row) (j1Val j2Val pVal : String)
    (h : DOk d) (hfr : ROk firstRow) (hrow : ROk row) (hj1 : SOk j1Val)
    (hj2 : SOk j2Val) (hpv : SOk pVal) :
    DOk (rfgTrip ix d firstIdx firstRow row j1Val j2Val pVal).1 ∧
    ROk (rfgTrip ix d firstIdx firstRow row j1Val j2Val pVal).2.2 := by
  have hps : SOk (pyStrip pVal) := (SOk_strip_iff _).2 hpv
  have hfrv : SOk (if noLeadingDash pVal then "-" ++ pVal else pVal) := by
    split
    · exact SOk_append_left _ _ SOk_dash
    · exact hpv
  have hrowS : ROk (((row.set ix.j1 "-").set ix.j2
      (pyStrip pVal)).set ix.per "0") :=
    ROk_set _ _ _ (ROk_set _ _ _ (ROk_set _ _ _ hrow SOk_dash) hps) SOk_zero
  have hrowT : ROk (((row.set ix.j1 j1Val).set ix.j2 j2Val).set ix.per
      pVal) :=
    ROk_set _ _ _ (ROk_set _ _ _ (ROk_set _ _ _ hrow hj1) hj2) hpv
  unfold rfgTrip
  dsimp only
  split
  · split
    · exact ⟨DOk_set _ _ _ h (ROk_set _ _ _ hfr hfrv), hrowS⟩
    · exact ⟨h, hrowS⟩
  · exact ⟨h, hrowT⟩

theorem rfgTriple_DOk (ix : RawFixIdx) (ncols : Nat) (d : List Row)
    (firstIdx secondIdx : Nat) (firstRow : Row) (j1Val j2Val pVal : String)
    (h : DOk d) (hfr : ROk firstRow) (hj1 : SOk j1Val) (hj2 : SOk j2Val)
    (hpv : SOk pVal) :
    DOk (rfgTriple ix ncols d firstIdx secondIdx firstRow j1Val j2Val
      pVal) := by
  unfold rfgTriple
  dsimp only
  have hbase : ROk ((d.getD secondIdx []) ++
      List.replicate (ncols - (d.getD secondIdx []).length) "-") :=
    ROk_append _ _ (ROk_getD_of_DOk _ _ h) (ROk_replicate_dash _)
  have hT := rfgTrip_DOk ix d firstIdx firstRow _ j1Val j2Val pVal h hfr
    hbase hj1 hj2 hpv
  apply DOk_set _ _ _ hT.1
  apply ROk_ite
  · apply ROk_set _ _ _ ?_ (SOk_orStrip _)
    apply ROk_ite
    · exact ROk_set _ _ _ hT.2 (SOk_orStrip _)
    · exact hT.2
  · apply ROk_ite
    · exact ROk_set _ _ _ hT.2 (SOk_orStrip _)
    · exact hT.2

set_option maxHeartbeats 1000000 in
theorem rawFixGroup_DOk (lines : List String) (ix : RawFixIdx) (ncols : Nat)
    (d : List Row) (no : String) (indices : List Nat) (h : DOk d)
    (hlines : ∀ w ∈ lines, SOk w) :
    DOk (rawFixGroup lines ix ncols d no indices) := by
  unfold rawFixGroup
  dsimp only
  split
  · exact h
  · exact h
  · rename_i firstIdx secondIdx rest2
    split
    · exact h
    · rename_i posNo hpos
      split
      · exact rawFixFallback_DOk _ _ _ _ _ _ _ _ _ _ _ _ h
          (ROk_getD_of_DOk _ _ h)
      · rename_i ts heq
        have hex : ∃ cc : Nat × String, Option.some ts = Option.some cc.1 ∧
            (∃ i, i ∈ List.drop (posNo + 1) (List.range
              (if lines.length ≥ 2 then
                min (min ((((List.range lines.length).drop
                  (posNo + 1)).find? (fun j =>
                    looksLikeNo (pyStrip (lines.getD j "")) &&
                    pyStrip (lines.getD j "") ≠ no)).getD lines.length)
                  lines.length - 1) (lines.length - 2)
              else posNo + 1)) ∧
              looksLikeLargeNumber (pyStrip (lines.getD i "")) = true ∧
              looksLikeLargeNumber (pyStrip (lines.getD (i + 1) "")) =
                true ∧ cc = (i, pyStrip (lines.getD (i + 2) ""))) := by
          split at heq
          · rename_i c hfind
            refine ⟨c, heq.symm ▸ rfl, ?_⟩
            have hcm := List.mem_of_find?_eq_some hfind
            rcases List.mem_filterMap.1 hcm with ⟨i, hi, hfc⟩
            split at hfc
            · exact absurd hfc (by simp)
            · rename_i hok
              split at hfc
              · refine ⟨i, hi, ?_, ?_, (Option.some.inj hfc).symm⟩
                · cases hb : looksLikeLargeNumber
                      (pyStrip (lines.getD i "")) with
                  | true => rfl
                  | false => exact absurd (by rw [hb]; simp) hok
                · cases hb : looksLikeLargeNumber
                      (pyStrip (lines.getD (i + 1) "")) with
                  | true => rfl
                  | false => exact absurd (by rw [hb]; simp) hok
              · exact absurd hfc (by simp)
          · rename_i hfind
            obtain ⟨c, hlast, hc1⟩ := Option.map_eq_some'.1 heq
            refine ⟨c, by rw [hc1], ?_⟩
            have hcm := List.mem_of_getLast?_eq_some hlast
            rcases List.mem_filterMap.1 hcm with ⟨i, hi, hfc⟩
            split at hfc
            · exact absurd hfc (by simp)
            · rename_i hok
              split at hfc
              · refine ⟨i, hi, ?_, ?_, (Option.some.inj hfc).symm⟩
                · cases hb : looksLikeLargeNumber
                      (pyStrip (lines.getD i "")) with
                  | true => rfl
                  | false => exact absurd (by rw [hb]; simp) hok
                · cases hb : looksLikeLargeNumber
                      (pyStrip (lines.getD (i + 1) "")) with
                  | true => rfl
                  | false => exact absurd (by rw [hb]; simp) hok
              · exact absurd hfc (by simp)
        obtain ⟨cc, hts, i, hi, hok1, hok2, hcc⟩ := hex
        have htsi : ts = i := by
          rw [hcc] at hts
          exact Option.some.inj hts
        have hlt : i + 2 < lines.length := by
          have h1 := List.mem_range.1 (List.mem_of_mem_drop hi)
          by_cases hl2 : lines.length ≥ 2
          · rw [if_pos hl2] at h1
            have h2 : i < lines.length - 2 :=
              lt_of_lt_of_le h1 (Nat.min_le_right _ _)
            omega
          · rw [if_neg hl2] at hi
            have hnil : ((List.range (posNo + 1)).drop (posNo + 1) :
                List Nat) = [] :=
              List.drop_eq_nil_of_le (by rw [List.length_range])
            rw [hnil] at hi
            exact absurd hi (List.not_mem_nil i)
        rw [htsi]
        exact rfgTriple_DOk _ _ _ _ _ _ _ _ _ h (ROk_getD_of_DOk _ _ h)
          ((SOk_strip_iff _).1 (lln_SOk _ hok1))
          ((SOk_strip_iff _).1 (lln_SOk _ hok2))
          (hlines _ (getD_mem_of_lt _ _ _ hlt))

theorem applyRawBlueFix_DOk (dataRows : List Row)
    (rawBlueLines : List String) (headerRow : List String)
    (hd : DOk dataRows) (hraw : ∀ w ∈ rawBlueLines, SOk w) :
    DOk (applyRawBlueFix dataRows rawBlueLines headerRow) := by
  unfold applyRawBlueFix
  dsimp only
  split
  · exact hd
  · split
    · exact hd
    · split
      · exact hd
      · have hlines : ∀ w ∈ rawBlueLines.map pyStrip, SOk w := by
          intro w hw
          rcases List.mem_map.1 hw with ⟨x, hx, rfl⟩
          exact (SOk_strip_iff _).2 (hraw x hx)
        apply DOk_foldl
        · exact (foldl_inv
            (fun p : List Row × List (String × List Nat) => DOk p.1)
            _ _ _ hd (by
              intro p rowIdx hP
              repeat' split
              all_goals exact DOk_set _ _ _ hP (ROk_append _ _
                (ROk_getD_of_DOk _ _ hP) (ROk_replicate_dash _))))
        · intro d g hdk _
          exact rawFixGroup_DOk _ _ _ _ _ _ hdk hlines

theorem ne_empty_of_SOk (c : String) (h : SOk c) : c ≠ "" := by
  intro hc
  rw [hc] at h
  exact h rfl

/-- C1: on the structured-result path (the header resolves to the 18-column
template and every raw blue line is a whitespace-split word, hence strips
non-empty), the emitted table starts with the 18-cell template header and
every row — header included — has exactly 18 cells, each a non-empty
string (a real value or the `"-"` sentinel). -/
theorem c1_structured_table_shape (dataRows : List Row)
    (rawBlueLines : List String)
    (hraw : ∀ w ∈ rawBlueLines, pyStrip w ≠ "") :
    (extractBlueTable dataRows rawBlueLines).head? =
      Option.some TEMPLATE_HEADER_18 ∧
    ∀ row ∈ extractBlueTable dataRows rawBlueLines,
      row.length = 18 ∧ ∀ c ∈ row, c ≠ "" := by
  have hdata : DOk (applyRawBlueFix (repairCascade dataRows) rawBlueLines
      TEMPLATE_HEADER_18) :=
    applyRawBlueFix_DOk _ _ _ (repairCascade_DOk dataRows) hraw
  have hhdr : ((TEMPLATE_HEADER_18 ++
      List.replicate TEMPLATE_HEADER_18.length "").take
        TEMPLATE_HEADER_18.length) = TEMPLATE_HEADER_18 := by decide
  unfold extractBlueTable
  dsimp only
  constructor
  · rw [List.head?_cons, hhdr]
  · intro row hrow
    rcases List.mem_cons.1 hrow with hh | hm
    · rw [hh, hhdr]
      refine ⟨by decide, ?_⟩
      intro c hc
      have hT : TEMPLATE_HEADER_18.all (fun c => decide (c ≠ "")) = true :=
        by decide
      exact of_decide_eq_true (List.all_eq_true.1 hT c hc)
    · rcases List.mem_map.1 hm with ⟨r, hr, rfl⟩
      have hROk : ROk r := hdata r hr
      constructor
      · have hlen : TEMPLATE_HEADER_18.length = 18 := by decide
        simp only [List.length_take, List.length_append,
          List.length_replicate, hlen]
        omega
      · intro c hc
        have hc1 := List.mem_of_mem_take hc
        rcases List.mem_append.1 hc1 with h2 | h2
        · rcases List.mem_append.1 (List.mem_of_mem_take h2) with h3 | h3
          · exact ne_empty_of_SOk c (hROk c h3)
          · rw [List.eq_of_mem_replicate h3]
            exact ne_empty_of_SOk _ SOk_dash
        · rw [List.eq_of_mem_replicate h2]
          exact ne_empty_of_SOk _ SOk_dash

/-- C1 (witness): the shape theorem applied at a concrete input. -/
theorem c1_structured_table_shape_witness :
    (∀ w ∈ ["707"], pyStrip w ≠ "") ∧
    ((extractBlueTable [] ["707"]).head? = Option.some TEMPLATE_HEADER_18 ∧
     ∀ row ∈ extractBlueTable [] ["707"],
       row.length = 18 ∧ ∀ c ∈ row, c ≠ "") :=
  ⟨by decide, c1_structured_table_shape [] ["707"] (by decide)⟩

end TextDetector

